import Mathlib

/-!
# Verification of the grid interactive manipulation engine

Shallow embedding of the path-node model, snapping engine, sprite registry
and manipulation controllers of the `grid` vector-drawing editor
(`grid/path.go`, the manipulation controllers concatenated in the same file,
and the sprites registry), together with proofs of the specified properties.

Numbers: the Go source computes in `float32`; the embedding uses exact
rationals (`ℚ`), so every arithmetic identity proved here holds up to
floating-point rounding in the original.

External collaborator code (the `mat32` math library, the `svg` path-data
iterator, and the `EditState`/`BBoxPoints` helpers that are not part of the
given sources) is modelled from the specification; each such definition
carries a `Modelled from the spec:` note.
-/

namespace Grid

/-- mat32.Vec2: a 2D point/vector over exact rationals. -/
structure Vec2 where
  x : ℚ
  y : ℚ
deriving DecidableEq, Repr

instance : Add Vec2 := ⟨fun a b => ⟨a.x + b.x, a.y + b.y⟩⟩

instance : Sub Vec2 := ⟨fun a b => ⟨a.x - b.x, a.y - b.y⟩⟩

instance : Neg Vec2 := ⟨fun a => ⟨-a.x, -a.y⟩⟩

instance : OfNat Vec2 0 := ⟨⟨0, 0⟩⟩

/-- mat32.Vec2.MulScalar. -/
def Vec2.mulScalar (v : Vec2) (s : ℚ) : Vec2 := ⟨v.x * s, v.y * s⟩

/-- mat32.Vec2.SubScalar. -/
def Vec2.subScalar (v : Vec2) (s : ℚ) : Vec2 := ⟨v.x - s, v.y - s⟩

/-- mat32.Vec2.Div (componentwise). -/
def Vec2.div (a b : Vec2) : Vec2 := ⟨a.x / b.x, a.y / b.y⟩

/-- mat32.Vec2.Min componentwise minimum, used by Vec2.SetMin. -/
def Vec2.min2 (a b : Vec2) : Vec2 := ⟨min a.x b.x, min a.y b.y⟩

/-- mat32.Box2: a bounding box given by min/max corners. -/
structure Box2 where
  Min : Vec2
  Max : Vec2
deriving DecidableEq, Repr

/-- mat32.Box2.Size. -/
def Box2.Size (b : Box2) : Vec2 := b.Max - b.Min

/-- mat32.Mat2: a 2D affine transform (column-major 2x2 linear part plus
translation), as used by DeltaTransform. -/
structure Mat2 where
  XX : ℚ
  YX : ℚ
  XY : ℚ
  YY : ℚ
  X0 : ℚ
  Y0 : ℚ
deriving DecidableEq, Repr

/-- mat32.Mat2.MulVec2AsPt: apply the transform to a point, including the
translation components. -/
def Mat2.MulVec2AsPt (m : Mat2) (v : Vec2) : Vec2 :=
  ⟨m.XX * v.x + m.XY * v.y + m.X0, m.YX * v.x + m.YY * v.y + m.Y0⟩

/-- mat32.Mat2.MulVec2AsPtCtr: apply the transform to a point expressed
relative to a center point, including the translation components. -/
def Mat2.MulVec2AsPtCtr (m : Mat2) (v ctr : Vec2) : Vec2 :=
  let rel := v - ctr
  ⟨m.XX * rel.x + m.XY * rel.y + ctr.x + m.X0,
   m.YX * rel.x + m.YY * rel.y + ctr.y + m.Y0⟩

/-- Modelled from the spec: svg.Node DeltaTransform(trans, scale, rot, pt, self)
produces the transform mapping a point `x` to `p + R(r)·S(s)·(x − p) + t`.
The path's cumulative parent transform is the identity here (the scene graph
is an external collaborator), so the local pivot equals `pt` and the local
delta equals `trans`.  Every call site in the verified claims passes
rotation 0, so the rotation factor is omitted. -/
def DeltaTransform (trans scale : Vec2) (pt : Vec2) : Mat2 × Vec2 :=
  (⟨scale.x, 0, 0, scale.y, trans.x, trans.y⟩, pt)

/-- Go math.Round / mat32.Round: round half away from zero, as an integer. -/
def roundHalfAway (q : ℚ) : ℤ :=
  if 0 ≤ q then ⌊q + 1/2⌋ else ⌈q - 1/2⌉

/-- Grid Preferences, restricted to the fields the manipulation engine
reads: snap modes and the snap tolerance (`SnapTol`, in screen pixels,
minimum 1 per its `min:"1"` tag). -/
structure Preferences where
  SnapGrid : Bool
  SnapGuide : Bool
  SnapNodes : Bool
  SnapTol : ℚ
deriving DecidableEq, Repr

/-- SnapToPt snaps value to given potential snap point, using tolRef
reference value for computing tolerance; tolerance is determined by
preferences.  Returns the snapped value and whether it snapped. -/
def SnapToPt (prefs : Preferences) (val snap tolRef : ℚ) : ℚ × Bool :=
  let tol := prefs.SnapTol
  let d := |val - snap|
  if d < tol * tolRef then (snap, true) else (val, false)

/-- SnapToIncr snaps value to given increment, first subtracting given
offset; tolerance is determined by preferences. -/
def SnapToIncr (prefs : Preferences) (val off incr : ℚ) : ℚ × Bool :=
  let tol := prefs.SnapTol
  let nint := (roundHalfAway ((val - off) / incr) : ℚ) * incr + off
  let dint := |val - nint|
  if dint < tol * incr then (nint, true) else (val, false)

/-- Modelled from the spec: `BBoxPoints` names the 6 logical alignment
anchors of a bounding box (left/center/right edges and top/middle/bottom
edges); `BBoxPointsN` is the past-the-end marker used as the "no anchor"
initial value of the candidate scan.  The type itself lives in the
repository's alignment file, which is not among the given sources. -/
inductive BBoxPoints where
  | BBLeft
  | BBCenter
  | BBRight
  | BBTop
  | BBMiddle
  | BBBottom
  | BBoxPointsN
deriving DecidableEq, Repr

open BBoxPoints in
/-- The anchors in the order the source's scan loop visits them
(`for ap := BBLeft; ap < BBoxPointsN; ap++`). -/
def apList : List BBoxPoints := [BBLeft, BBCenter, BBRight, BBTop, BBMiddle, BBBottom]

/-- Modelled from the spec: `BBoxPoints.ValBox` reads the anchor's
coordinate value from a bounding box (edge coordinate, or midpoint for
center/middle). -/
def ValBox (ap : BBoxPoints) (b : Box2) : ℚ :=
  match ap with
  | .BBLeft => b.Min.x
  | .BBCenter => (b.Min.x + b.Max.x) / 2
  | .BBRight => b.Max.x
  | .BBTop => b.Min.y
  | .BBMiddle => (b.Min.y + b.Max.y) / 2
  | .BBBottom => b.Max.y
  | .BBoxPointsN => 0

/-- Modelled from the spec: `BBoxPoints.MoveDelta` shifts the corresponding
bbox edge/corner by the snap delta (both edges of an axis for the
center/middle anchors, which is the only way to shift the midpoint);
`BBoxPointsN` shifts nothing. -/
def MoveDelta (ap : BBoxPoints) (b : Box2) (del : ℚ) : Box2 :=
  match ap with
  | .BBLeft => { b with Min := ⟨b.Min.x + del, b.Min.y⟩ }
  | .BBCenter => { b with Min := ⟨b.Min.x + del, b.Min.y⟩, Max := ⟨b.Max.x + del, b.Max.y⟩ }
  | .BBRight => { b with Max := ⟨b.Max.x + del, b.Max.y⟩ }
  | .BBTop => { b with Min := ⟨b.Min.x, b.Min.y + del⟩ }
  | .BBMiddle => { b with Min := ⟨b.Min.x, b.Min.y + del⟩, Max := ⟨b.Max.x, b.Max.y + del⟩ }
  | .BBBottom => { b with Max := ⟨b.Max.x, b.Max.y + del⟩ }
  | .BBoxPointsN => b

/-- EditState, restricted to the fields the verified controllers read and
write.  The selection itself (scene elements with their `InitGeom`
snapshots) is external; `SelectedNames` stands in for
`SelectedNamesString()`.  `AlignPts` is the per-anchor alignment candidate
set gathered at manipulation start. -/
structure EditState where
  Action : String
  ActData : String
  ActLock : Bool
  SelectedNames : String
  DragSelStartBBox : Box2
  DragSelCurBBox : Box2
  DragSelEffBBox : Box2
  AlignPts : BBoxPoints → List ℚ

/-- EditState.InAction: an action is in progress when the action name is
non-empty. -/
def EditState.InAction (es : EditState) : Bool := es.Action != ""

/-- Modelled from the spec: `EditState.ActStart(act, data)` is rejected as a
no-op when an action is already active (re-entrant manipulation starts from
overlapping pointer events), guarded by the explicit action-lock flag set
around the transition rather than by blocking. -/
def EditState.ActStart (es : EditState) (act data : String) : EditState :=
  if es.InAction then es
  else { es with ActLock := true, Action := act, ActData := data }

/-- Modelled from the spec: `EditState.ActUnlock` clears the action-lock
flag after the start transition completes. -/
def EditState.ActUnlock (es : EditState) : EditState := { es with ActLock := false }

/-- Modelled from the spec: `EditState.ActDone` clears the active action. -/
def EditState.ActDone (es : EditState) : EditState :=
  { es with Action := "", ActData := "", ActLock := false }

/-- ManipStart is called at the start of a manipulation: `es.ActStart(act,
data)`, then `sv.UndoSave(act, data)` (an external undo-checkpoint side
effect with no EditState footprint), then `es.ActUnlock()`. -/
def ManipStart (es : EditState) (act data : String) : EditState :=
  (es.ActStart act data).ActUnlock

/-- SVGView, restricted to the fields the verified code reads: the window
origin of the view, the zoom factor, the document grid spacing preference,
and (modelled) the dots-per-grid-unit conversion factor produced by
`units.ToDots`. -/
structure SVGViewSt where
  WinBBoxMin : Vec2
  Scale : ℚ
  Grid : ℚ
  GridUnitDots : ℚ

/-- GridDots: the current grid spacing and offset in dots; a non-positive
grid preference falls back to 12, and the unit value is converted to dots
and scaled by the zoom factor (the offset is a todo in the source, always 0). -/
def GridDots (sv : SVGViewSt) : ℚ × ℚ :=
  let grid := if sv.Grid ≤ 0 then 12 else sv.Grid
  (grid * sv.GridUnitDots * sv.Scale, 0)

/-- math.MaxFloat32, the initial "no candidate yet" distance of the
alignment scan, as an exact rational: (2 − 2^(−23)) · 2^127, written as a
literal so that it evaluates in one step. -/
def maxFloat32 : ℚ := 340282346638528859811704183484516925440

/-- The running best candidate of SnapCurBBox's alignment scan: closest
anchor, its distance, the candidate value and the bbox anchor value. -/
structure AlignBest where
  clPt : BBoxPoints
  clDst : ℚ
  clVal : ℚ
  bbval : ℚ
deriving DecidableEq, Repr

/-- Inner loop of SnapCurBBox's scan: fold one anchor's candidate list into
the running best, keeping a candidate only when strictly closer. -/
def alignScan1 (bb : Box2) (ap : BBoxPoints) (pts : List ℚ) (best : AlignBest) : AlignBest :=
  let bbp := ValBox ap bb
  pts.foldl (fun b pt => if |pt - bbp| < b.clDst then ⟨ap, |pt - bbp|, pt, bbp⟩ else b) best

/-- Outer loop of SnapCurBBox's scan over the 6 anchors. -/
def alignScan (aligns : BBoxPoints → List ℚ) (bb : Box2) : AlignBest :=
  apList.foldl (fun b ap => alignScan1 bb ap (aligns ap) b) ⟨.BBoxPointsN, maxFloat32, 0, 0⟩

/-- SnapCurBBox does snapping on the current bbox according to preferences:
the effective bbox starts as a copy of the raw dragged bbox; with guide
snapping enabled the single globally closest alignment candidate is found
over all 6 anchors and, when within tolerance of the grid increment, the
effective bbox's matching anchor is shifted by the snap delta (when `move`);
the grid branch (`!snapped && Prefs.SnapGrid`) is an unimplemented todo in
the source, so it never changes anything.  Besides the new state, the model
returns whether a guide snap occurred and whether the grid branch was
entered. -/
def SnapCurBBox (prefs : Preferences) (sv : SVGViewSt) (es : EditState) (move : Bool) :
    EditState × Bool × Bool :=
  let es := { es with DragSelEffBBox := es.DragSelCurBBox }
  let grinc := (GridDots sv).1
  let res :=
    if prefs.SnapGuide then
      let best := alignScan es.AlignPts es.DragSelCurBBox
      let sv2 := SnapToPt prefs best.bbval best.clVal grinc
      if sv2.2 then
        (if move then
          { es with DragSelEffBBox := MoveDelta best.clPt es.DragSelEffBBox (sv2.1 - best.bbval) }
         else es, true)
      else (es, false)
    else (es, false)
  (res.1, res.2, !res.2 && prefs.SnapGrid)

/-- The sprites enum of the reshape/rotate controllers (the generated
stringer in `sprites_string.go` names this Go type `Sprites` with constants
`SizeUpL..SizeRtC`; it is named `SizeSprites` here because the sprite
registry defines a different, newer `Sprites` enum). -/
inductive SizeSprites where
  | SizeUpL
  | SizeUpM
  | SizeUpR
  | SizeDnL
  | SizeDnM
  | SizeDnR
  | SizeLfC
  | SizeRtC
deriving DecidableEq, Repr

/-- The parameters of the one `ApplyDeltaXForm(del, sc, rot, pivot)` delta
transform that a controller applies to every selected element starting from
its `InitGeom` snapshot (the application itself lives in the external svg
collaborator).  `Rot` is kept in degrees: the source converts the snapped
degree value to radians with `DegToRad` immediately before applying, a
transcendental scaling outside the rational model. -/
structure Applied where
  Del : Vec2
  Sc : Vec2
  Rot : ℚ
  Pivot : Vec2
deriving DecidableEq, Repr

/-- SpriteReshapeDrag processes a mouse reshape drag event on a selection
sprite: start the action if needed, move the handle's edges of the raw
dragged bbox by the delta, clamp so min ≤ max − 1 on each axis (don't allow
flipping), snap, and produce the delta transform (scale = effective size /
start size, translation = effective min − start min, pivot = start min in
local coordinates) applied to every selected element. -/
def SpriteReshapeDrag (prefs : Preferences) (sv : SVGViewSt) (es : EditState)
    (sp : SizeSprites) (delta : Vec2) : EditState × Applied :=
  let es := if !es.InAction then ManipStart es "Reshape" es.SelectedNames else es
  let stsz := es.DragSelStartBBox.Size
  let stpos := es.DragSelStartBBox.Min
  let dv := delta
  let cur := es.DragSelCurBBox
  let cur :=
    match sp with
    | .SizeUpL => { cur with Min := cur.Min + dv }
    | .SizeUpM => { cur with Min := ⟨cur.Min.x, cur.Min.y + dv.y⟩ }
    | .SizeUpR => { cur with Min := ⟨cur.Min.x, cur.Min.y + dv.y⟩,
                             Max := ⟨cur.Max.x + dv.x, cur.Max.y⟩ }
    | .SizeDnL => { cur with Min := ⟨cur.Min.x + dv.x, cur.Min.y⟩,
                             Max := ⟨cur.Max.x, cur.Max.y + dv.y⟩ }
    | .SizeDnM => { cur with Max := ⟨cur.Max.x, cur.Max.y + dv.y⟩ }
    | .SizeDnR => { cur with Max := cur.Max + dv }
    | .SizeLfC => { cur with Min := ⟨cur.Min.x + dv.x, cur.Min.y⟩ }
    | .SizeRtC => { cur with Max := ⟨cur.Max.x + dv.x, cur.Max.y⟩ }
  let cur := { cur with Min := cur.Min.min2 (cur.Max.subScalar 1) }
  let es := { es with DragSelCurBBox := cur }
  let es := (SnapCurBBox prefs sv es true).1
  let npos := es.DragSelEffBBox.Min
  let nsz := es.DragSelEffBBox.Size
  let svoff := sv.WinBBoxMin
  let pt := es.DragSelStartBBox.Min - svoff
  let del := npos - stpos
  let sc := nsz.div stsz
  (es, { Del := del, Sc := sc, Rot := 0, Pivot := pt })

/-- The per-handle geometry of one rotate-drag step: the updated raw
dragged bbox, the handle-specific `dy` and `dx` legs of the raw angle, and
the handle-specific pivot point (opposite corner, adjacent corner, or bbox
center). -/
def rotateHandleGeom (stb cur : Box2) (dv : Vec2) (sp : SizeSprites) : Box2 × ℚ × ℚ × Vec2 :=
  let pt0 := stb.Min
  let ctr := (stb.Min + stb.Max).mulScalar (1/2)
  match sp with
    | .SizeUpL =>
        let cur := { cur with Min := cur.Min + dv }
        (cur, stb.Min.y - cur.Min.y, stb.Max.x - cur.Min.x, ⟨stb.Max.x, pt0.y⟩)
    | .SizeUpM =>
        let cur := { cur with Min := ⟨cur.Min.x, cur.Min.y + dv.y⟩,
                              Max := ⟨cur.Max.x + dv.x, cur.Max.y⟩ }
        (cur, cur.Min.y - stb.Min.y, cur.Max.x - stb.Min.x, ctr)
    | .SizeUpR =>
        let cur := { cur with Min := ⟨cur.Min.x, cur.Min.y + dv.y⟩,
                              Max := ⟨cur.Max.x + dv.x, cur.Max.y⟩ }
        (cur, cur.Min.y - stb.Min.y, cur.Max.x - stb.Min.x, stb.Min)
    | .SizeDnL =>
        let cur := { cur with Min := ⟨cur.Min.x + dv.x, cur.Min.y⟩,
                              Max := ⟨cur.Max.x, cur.Max.y + dv.y⟩ }
        (cur, stb.Max.y - cur.Max.y, stb.Max.x - cur.Min.x, stb.Max)
    | .SizeDnM =>
        let cur := { cur with Max := cur.Max + dv }
        (cur, cur.Max.y - stb.Max.y, cur.Max.x - stb.Min.x, ctr)
    | .SizeDnR =>
        let cur := { cur with Max := cur.Max + dv }
        (cur, cur.Max.y - stb.Max.y, cur.Max.x - stb.Min.x, ⟨stb.Min.x, stb.Max.y⟩)
    | .SizeLfC =>
        let cur := { cur with Min := ⟨cur.Min.x + dv.x, cur.Min.y⟩,
                              Max := ⟨cur.Max.x, cur.Max.y + dv.y⟩ }
        (cur, stb.Max.y - cur.Max.y, stb.Max.x - cur.Min.x, ctr)
    | .SizeRtC =>
        let cur := { cur with Max := cur.Max + dv }
        (cur, cur.Max.y - stb.Max.y, cur.Max.x - stb.Min.x, ctr)

/-- SpriteRotateDrag processes a mouse rotate drag event on a selection
sprite: start the action if needed, update the raw dragged bbox per handle,
compute the handle-specific `(dx, dy)` and pivot, take the raw angle
`atan2(dy, dx)`, snap its degree value to 15° increments, and produce a pure
rotation about the pivot (translation zero, scale one).  `atan2Deg` is the
oracle for `RadToDeg(mat32.Atan2 dy dx)`, the transcendental raw angle in
degrees. -/
def SpriteRotateDrag (atan2Deg : ℚ → ℚ → ℚ) (prefs : Preferences) (sv : SVGViewSt)
    (es : EditState) (sp : SizeSprites) (delta : Vec2) : EditState × Applied :=
  let es := if !es.InAction then ManipStart es "Rotate" es.SelectedNames else es
  let dv := delta
  let stb := es.DragSelStartBBox
  let cdp := rotateHandleGeom stb es.DragSelCurBBox dv sp
  let cur := cdp.1
  let dy := cdp.2.1
  let dx := cdp.2.2.1
  let pt := cdp.2.2.2
  let rawDeg := atan2Deg dy dx
  let ang := (SnapToIncr prefs rawDeg 0 15).1
  let svoff := sv.WinBBoxMin
  let pt := pt - svoff
  let del : Vec2 := 0
  let sc : Vec2 := ⟨1, 1⟩
  ({ es with DragSelCurBBox := cur }, { Del := del, Sc := sc, Rot := ang, Pivot := pt })

/-- The sprite registry's `Sprites` enum: main sprite types followed by the
bbox-position subtypes, with `SpUnk` the unknown zero value. -/
inductive Sprites where
  | SpUnk
  | SpReshapeBBox
  | SpSelBBox
  | SpNodePoint
  | SpNodeCtrl
  | SpRubberBand
  | SpAlignMatch
  | SpBBoxUpL
  | SpBBoxUpC
  | SpBBoxUpR
  | SpBBoxDnL
  | SpBBoxDnC
  | SpBBoxDnR
  | SpBBoxLfM
  | SpBBoxRtM
  | SpritesN
deriving DecidableEq, Repr

/-- SpriteNames: name strings used for naming sprites; entries absent from
the Go map (`SpUnk`, `SpritesN`) read as the empty string. -/
def SpriteNames : Sprites → String
  | .SpBBoxUpL => "up-l"
  | .SpBBoxUpC => "up-c"
  | .SpBBoxUpR => "up-r"
  | .SpBBoxDnL => "dn-l"
  | .SpBBoxDnC => "dn-c"
  | .SpBBoxDnR => "dn-r"
  | .SpBBoxLfM => "lf-m"
  | .SpBBoxRtM => "rt-m"
  | .SpReshapeBBox => "reshape-bbox"
  | .SpSelBBox => "sel-bbox"
  | .SpNodePoint => "node-point"
  | .SpNodeCtrl => "node-ctrl"
  | .SpRubberBand => "rubber-band"
  | .SpAlignMatch => "align-match"
  | _ => ""

/-- SpriteName returns the unique name of the sprite based on main type,
subtype (e.g. bbox) if relevant, and index if relevant. -/
def SpriteName (typ subtyp : Sprites) (idx : ℤ) : String :=
  let nm := SpriteNames typ
  match typ with
  | .SpReshapeBBox => nm ++ "-" ++ SpriteNames subtyp
  | .SpSelBBox => nm ++ "-" ++ toString idx ++ "-" ++ SpriteNames subtyp
  | .SpNodePoint => nm ++ "-" ++ toString idx
  | .SpNodeCtrl => nm ++ "-" ++ toString idx
  | .SpRubberBand => nm ++ "-" ++ SpriteNames subtyp
  | .SpAlignMatch => nm ++ "-" ++ toString idx
  | _ => nm

/-- A value stored in a sprite's loosely-typed property bag (`ki.Props` is
`map[string]any`; only `Sprites` and `int` values are ever stored). -/
inductive PropVal where
  | spr (s : Sprites)
  | int (i : ℤ)
deriving DecidableEq, Repr

/-- Look a key up in a property bag. -/
def propsGet (ps : List (String × PropVal)) (k : String) : Option PropVal :=
  match ps.find? (fun p => p.1 == k) with
  | some p => some p.2
  | none => none

/-- Store a key in a property bag (Go map assignment: overwrite the entry
if the key is present, otherwise add it). -/
def propsSet : List (String × PropVal) → String → PropVal → List (String × PropVal)
  | [], k, v => [(k, v)]
  | p :: ps, k, v => if p.1 == k then (k, v) :: ps else p :: propsSet ps k v

/-- gi.Sprite, restricted to the fields the registry uses: its name and its
property bag. -/
structure Sprite where
  Name : String
  Props : List (String × PropVal)
deriving DecidableEq, Repr

/-- SetSpriteProps sets sprite properties: the name from `SpriteName` and
the `grid-type`/`grid-sub`/`grid-idx` property entries. -/
def SetSpriteProps (sp : Sprite) (typ subtyp : Sprites) (idx : ℤ) : Sprite :=
  { sp with
    Name := SpriteName typ subtyp idx
    Props := propsSet (propsSet (propsSet sp.Props "grid-type" (.spr typ))
      "grid-sub" (.spr subtyp)) "grid-idx" (.int idx) }

/-- SpriteProps reads the sprite properties; returns `SpUnk` (with zero
values for the other two results) if the sprite has no `grid-type`
property.  A present key of the wrong dynamic type is a Go type-assertion
panic, modelled as `none`. -/
def SpriteProps (sp : Sprite) : Option (Sprites × Sprites × ℤ) :=
  match propsGet sp.Props "grid-type" with
  | none => some (.SpUnk, .SpUnk, 0)
  | some typi =>
    match typi, propsGet sp.Props "grid-sub", propsGet sp.Props "grid-idx" with
    | .spr typ, some (.spr subtyp), some (.int idx) => some (typ, subtyp, idx)
    | _, _, _ => none

/-- svg.PathCmds, restricted to the commands exercised by the verified
claims: absolute/relative moveto, lineto, horizontal/vertical lineto, close,
and the error value (the curve commands carry the same
absolute/relative-operand semantics and are outside the model). -/
inductive PathCmds where
  | PcM
  | Pcm
  | PcL
  | Pcl
  | PcH
  | Pch
  | PcV
  | Pcv
  | PcZ
  | Pcz
  | PcErr
deriving DecidableEq, Repr

/-- svg.PathCmdIsRel: the lower-case commands encode relative coordinates. -/
def PathCmdIsRel : PathCmds → Bool
  | .Pcm | .Pcl | .Pch | .Pcv | .Pcz => true
  | _ => false

/-- Operands per point of each command: two coordinates for moveto/lineto,
one for the horizontal/vertical forms, none for close. -/
def cmdPtOps : PathCmds → Nat
  | .PcM | .Pcm | .PcL | .Pcl => 2
  | .PcH | .Pch | .PcV | .Pcv => 1
  | _ => 0

/-- Modelled from the spec: one step of the svg path-data iterator's
current-point tracking — the absolute current point after one point's
operands, resolving relative commands cumulatively from the previous
absolute point (`svg.PathDataIterFunc` is external collaborator code). -/
def applyPt : PathCmds → Vec2 → List ℚ → Vec2
  | .PcM, _, [xv, yv] => ⟨xv, yv⟩
  | .Pcm, cp, [xv, yv] => ⟨cp.x + xv, cp.y + yv⟩
  | .PcL, _, [xv, yv] => ⟨xv, yv⟩
  | .Pcl, cp, [xv, yv] => ⟨cp.x + xv, cp.y + yv⟩
  | .PcH, cp, [xv] => ⟨xv, cp.y⟩
  | .Pch, cp, [xv] => ⟨cp.x + xv, cp.y⟩
  | .PcV, cp, [yv] => ⟨cp.x, yv⟩
  | .Pcv, cp, [yv] => ⟨cp.x, cp.y + yv⟩
  | _, cp, _ => cp

/-- svg.PathData: one entry of a path's flat data stream — either a command
marker carrying its operand count, or a coordinate value (in Go both are
`float32` with the command bit-packed; the tagged form models the same flat
array with its indices). -/
inductive PathData where
  | cmd (c : PathCmds) (n : Nat)
  | val (v : ℚ)
deriving DecidableEq, Repr

/-- PathNode: info about each node in a path that is being edited.
(`WinCtrls`, the control points of curve commands, is outside the modelled
command subset.) -/
structure PathNode where
  Cmd : PathCmds
  PrevCmd : PathCmds
  CmdIdx : Nat
  Idx : Nat
  PtIdx : Nat
  PCp : Vec2
  Cp : Vec2
  WinPt : Vec2
deriving DecidableEq, Repr

/-- The svg path iterator's tracking state: previous emitted point, current
point, subpath start point (for close), and last command. -/
structure IterSt where
  pcp : Vec2
  cp : Vec2
  st : Vec2
  lstCmd : PathCmds
deriving DecidableEq, Repr

/-- The iterator's initial state: origin points and `PcErr` as previous
command, matching `lstCmd := svg.PcErr` in PathNodes. -/
def initIterSt : IterSt := ⟨0, 0, 0, .PcErr⟩

/-- Take `n` coordinate values off the front of the data stream; `none` on a
command marker or stream end (malformed data, which stops the iteration). -/
def takeOps : Nat → List PathData → Option (List ℚ × List PathData)
  | 0, rest => some ([], rest)
  | n+1, .val v :: rest => (takeOps n rest).map (fun p => (v :: p.1, p.2))
  | _+1, _ => none

/-- Split a list of operand values into `m` chunks of `k` values each. -/
def takeChunks : Nat → Nat → List ℚ → List (List ℚ)
  | 0, _, _ => []
  | m+1, k, vs => vs.take k :: takeChunks m k (vs.drop k)

/-- Emit the path nodes for one command's points: per point, the node
records the command, previous command, command start index, operand index,
point index within the command, previous and current resolved absolute
points, and the window projection (the path's cumulative parent transform
is the identity in this model, so the projection adds `svoff`). -/
def emitPts (svoff : Vec2) (c : PathCmds) (cmdIdx : Nat) :
    Nat → Nat → IterSt → List (List ℚ) → List PathNode × IterSt
  | _, _, s, [] => ([], s)
  | ptIdx, idx, s, ops :: rest =>
    let ncp := applyPt c s.cp ops
    let pn : PathNode :=
      { Cmd := c, PrevCmd := s.lstCmd, CmdIdx := cmdIdx, Idx := idx, PtIdx := ptIdx,
        PCp := s.pcp, Cp := ncp, WinPt := ncp + svoff }
    let s1 : IterSt := { s with cp := ncp, pcp := ncp, lstCmd := c }
    let r := emitPts svoff c cmdIdx (ptIdx + 1) (idx + cmdPtOps c) s1 rest
    (pn :: r.1, r.2)

/-- Modelled from the spec: the svg path-data iteration underlying
PathNodes — walk the flat command/operand stream once, tracking the
previous absolute point to resolve relative commands; a close command
resets the current point to the subpath start and yields no point node; a
malformed stream stops the walk.  `fuel` bounds the number of commands
(one list entry each, so the data length suffices). -/
def iterGo (svoff : Vec2) : Nat → Nat → IterSt → List PathData → List PathNode
  | 0, _, _, _ => []
  | _+1, _, _, [] => []
  | _+1, _, _, .val _ :: _ => []
  | fuel+1, i, s, .cmd c n :: rest =>
    if c = .PcZ ∨ c = .Pcz then iterGo svoff fuel (i + 1) { s with cp := s.st } rest
    else if cmdPtOps c = 0 then []
    else
      match takeOps n rest with
      | none => []
      | some (vs, rest2) =>
        let r := emitPts svoff c i 0 (i + 1) s (takeChunks (n / cmdPtOps c) (cmdPtOps c) vs)
        let s2 := { r.2 with st := if c = .PcM ∨ c = .Pcm then r.2.cp else r.2.st }
        r.1 ++ iterGo svoff fuel (i + 1 + n) s2 rest2

/-- svg.Path, restricted to the fields the verified code uses: the flat
data stream and the window bounding-box origin. -/
structure Path where
  Data : List PathData
  WinBBoxMin : Vec2
deriving DecidableEq, Repr

/-- PathNodes returns the PathNode data for given path data, and a list of
indexes where commands start (the source appends `lstCmdIdx` on each
point-index-0 callback, which is exactly each node's `CmdIdx` at `PtIdx`
0). -/
def PathNodes (sv : SVGViewSt) (path : Path) : List PathNode × List Nat :=
  let svoff := sv.WinBBoxMin
  let nc := iterGo svoff (path.Data.length + 1) 0 initIterSt path.Data
  (nc, (nc.filter (fun pn => pn.PtIdx == 0)).map (fun pn => pn.CmdIdx))

/-- PathNodeSetPoint sets the data point for a path node to a new point
value in absolute (but local) coordinates, translating into relative
coordinates as needed: the path's first point (`Idx == 1`) or an absolute
command stores the point directly (only the relevant axis for `PcH`/`PcV`);
a relative command stores `npt − PCp`.  (An out-of-range store is a Go
slice-index panic; `List.set` leaves the data unchanged there.) -/
def PathNodeSetPoint (path : Path) (pn : PathNode) (npt : Vec2) : Path :=
  if pn.Idx = 1 ∨ ¬PathCmdIsRel pn.Cmd then
    match pn.Cmd with
    | .PcH => { path with Data := path.Data.set pn.Idx (.val npt.x) }
    | .PcV => { path with Data := path.Data.set pn.Idx (.val npt.y) }
    | _ => { path with
             Data := (path.Data.set pn.Idx (.val npt.x)).set (pn.Idx + 1) (.val npt.y) }
  else
    match pn.Cmd with
    | .Pch => { path with Data := path.Data.set pn.Idx (.val (npt.x - pn.PCp.x)) }
    | .Pcv => { path with Data := path.Data.set pn.Idx (.val (npt.y - pn.PCp.y)) }
    | _ => { path with
             Data := (path.Data.set pn.Idx (.val (npt.x - pn.PCp.x))).set (pn.Idx + 1)
               (.val (npt.y - pn.PCp.y)) }

/-- The loop of PathNodeSetOnePoint over the node suffix from the moved
index: each visited node is rewritten through the delta transform of the
current `dv`; after the first (moved) node `dv` is negated; at a later node
whose command is absolute or a close/move command the loop breaks — after
having rewritten that node. -/
def pathNodeSetOnePointGo (svoff : Vec2) : List PathNode → Bool → Vec2 → Path → Path
  | [], _, _, p => p
  | pn :: rest, first, dv, p =>
    let wbmin := p.WinBBoxMin
    let pt := wbmin - svoff
    let xl := DeltaTransform dv ⟨1, 1⟩ pt
    let npt := xl.1.MulVec2AsPtCtr pn.Cp xl.2
    let p1 := PathNodeSetPoint p pn npt
    if first then pathNodeSetOnePointGo svoff rest false (-dv) p1
    else if ¬PathCmdIsRel pn.Cmd ∨ pn.Cmd = .PcZ ∨ pn.Cmd = .Pcz ∨ pn.Cmd = .Pcm ∨
        pn.Cmd = .PcM then p1
    else pathNodeSetOnePointGo svoff rest false dv p1

/-- PathNodeSetOnePoint moves the node at `pidx` by `dv` in window coords
and moves all following points up to an absolute or close/move command in
the opposite direction to compensate, so that (per the source's own doc
comment) only the one point is moved in effect. -/
def PathNodeSetOnePoint (path : Path) (pts : List PathNode) (pidx : Nat) (dv svoff : Vec2) :
    Path :=
  pathNodeSetOnePointGo svoff (pts.drop pidx) true dv path

/-- One parsed path command with its per-point operand chunks.  Path data
reaching the editor comes from the collaborator's SVG parser, so a path is
quantified as a list of well-formed segments and flattened into the raw
stream the source functions operate on. -/
structure Seg where
  cmd : PathCmds
  pts : List (List ℚ)
deriving DecidableEq, Repr

/-- All operand values of a segment, in stream order. -/
def Seg.ops (sg : Seg) : List ℚ := sg.pts.flatten

/-- The flat encoding of one segment: its command marker (carrying the
operand count) followed by its operand values. -/
def Seg.flat (sg : Seg) : List PathData := .cmd sg.cmd sg.ops.length :: sg.ops.map .val

/-- The flat encoding of a whole segment list. -/
def flatSegs (sgs : List Seg) : List PathData := (sgs.map Seg.flat).flatten

/-- A segment is a close command. -/
def Seg.isClose (sg : Seg) : Bool := sg.cmd == .PcZ || sg.cmd == .Pcz

/-- Well-formedness of one segment, as the SVG parser guarantees it: a
close command has no points; a point-bearing command has at least one
point, each with exactly its operand count. -/
def Seg.wf (sg : Seg) : Bool :=
  if cmdPtOps sg.cmd == 0 then sg.isClose && sg.pts.isEmpty
  else !sg.pts.isEmpty && sg.pts.all (fun ops => ops.length == cmdPtOps sg.cmd)

/-- Well-formedness of a segment list. -/
def segsWf (sgs : List Seg) : Bool := sgs.all Seg.wf

/-- No close command anywhere in the segment list. -/
def segsNoClose (sgs : List Seg) : Bool := sgs.all (fun sg => !sg.isClose)

/-- The segment list begins with a moveto command. -/
def segsStartMove (sgs : List Seg) : Bool :=
  match sgs with
  | [] => false
  | sg :: _ => sg.cmd == .PcM || sg.cmd == .Pcm

/-- The structured counterpart of `iterGo` on parsed segments (proved below
to agree with `iterGo` on the flat encoding of well-formed segments). -/
def segNodes (svoff : Vec2) : Nat → IterSt → List Seg → List PathNode
  | _, _, [] => []
  | i, s, sg :: rest =>
    if sg.isClose then segNodes svoff (i + 1) { s with cp := s.st } rest
    else
      let r := emitPts svoff sg.cmd i 0 (i + 1) s sg.pts
      let s2 : IterSt :=
        { r.2 with st := if sg.cmd = .PcM ∨ sg.cmd = .Pcm then r.2.cp else r.2.st }
      r.1 ++ segNodes svoff (i + 1 + sg.ops.length) s2 rest

/-- The per-axis target of a set-point write: which components of the node's
resolved point the new point determines, per command (horizontal commands fix
only x, vertical only y, moveto/lineto both). -/
def setAxes (cm : PathCmds) (old npt : Vec2) : Vec2 :=
  match cm with
  | .PcH | .Pch => ⟨npt.x, old.y⟩
  | .PcV | .Pcv => ⟨old.x, npt.y⟩
  | _ => npt

/-- The operand values PathNodeSetPoint stores for a node: absolute
coordinates on the absolute branch, deltas from the node's recorded previous
point on the relative branch, one operand for the horizontal/vertical
forms. -/
def newOps (cm : PathCmds) (abs : Bool) (pcp npt : Vec2) : List ℚ :=
  if abs then
    match cm with
    | .PcH => [npt.x]
    | .PcV => [npt.y]
    | _ => [npt.x, npt.y]
  else
    match cm with
    | .Pch => [npt.x - pcp.x]
    | .Pcv => [npt.y - pcp.y]
    | _ => [npt.x - pcp.x, npt.y - pcp.y]

/-- The command of every emitted node of a segment list in order (close
segments emit none). -/
def segCmds : List Seg → List PathCmds
  | [] => []
  | sg :: rest =>
    (if sg.isClose then [] else sg.pts.map (fun _ => sg.cmd)) ++ segCmds rest

/-- A concrete view with zero window offset, used by the concrete path
computations. -/
def cexSV : SVGViewSt := ⟨0, 1, 12, 1⟩

/-- A relative path m l h: the lineto can absorb a compensation delta but
the horizontal-lineto has no y operand. -/
def cexPath1 : Path := ⟨flatSegs [⟨.Pcm, [[0, 0]]⟩, ⟨.Pcl, [[1, 0]]⟩, ⟨.Pch, [[2]]⟩], 0⟩

/-- A path m l L whose third command is an absolute lineto. -/
def cexPath2 : Path := ⟨flatSegs [⟨.Pcm, [[0, 0]]⟩, ⟨.Pcl, [[1, 0]]⟩, ⟨.PcL, [[5, 5]]⟩], 0⟩

/-- A path with a close command followed by a relative lineto: after the
close the iterator current point returns to the subpath start while the
node's recorded previous point stays at the last drawn point. -/
def cexPath3 : Path :=
  ⟨flatSegs [⟨.Pcm, [[1, 2]]⟩, ⟨.Pcl, [[4, 6]]⟩, ⟨.Pcz, []⟩, ⟨.Pcl, [[2, 3]]⟩], 0⟩

/-- The node that cexPath3's decomposition yields after the close. -/
def cexNode3 : PathNode :=
  { Cmd := .Pcl, PrevCmd := .Pcl, CmdIdx := 7, Idx := 8, PtIdx := 0,
    PCp := ⟨5, 8⟩, Cp := ⟨3, 5⟩, WinPt := ⟨3, 5⟩ }

/-- Concrete all-relative segments m l l. -/
def witSegs1 : List Seg := [⟨.Pcm, [[0, 0]]⟩, ⟨.Pcl, [[1, 0]]⟩, ⟨.Pcl, [[2, 3]]⟩]

/-- First node of the concrete decompositions. -/
def witN0 : PathNode :=
  { Cmd := .Pcm, PrevCmd := .PcErr, CmdIdx := 0, Idx := 1, PtIdx := 0,
    PCp := 0, Cp := ⟨0, 0⟩, WinPt := ⟨0, 0⟩ }

/-- Second node of the concrete decompositions. -/
def witN1 : PathNode :=
  { Cmd := .Pcl, PrevCmd := .Pcm, CmdIdx := 3, Idx := 4, PtIdx := 0,
    PCp := ⟨0, 0⟩, Cp := ⟨1, 0⟩, WinPt := ⟨1, 0⟩ }

/-- Third node of witSegs1's decomposition. -/
def witN2 : PathNode :=
  { Cmd := .Pcl, PrevCmd := .Pcl, CmdIdx := 6, Idx := 7, PtIdx := 0,
    PCp := ⟨1, 0⟩, Cp := ⟨3, 3⟩, WinPt := ⟨3, 3⟩ }

/-- Concrete segments m l L with an absolute stop command. -/
def witSegs2 : List Seg := [⟨.Pcm, [[0, 0]]⟩, ⟨.Pcl, [[1, 0]]⟩, ⟨.PcL, [[5, 5]]⟩]

/-- Third node of witSegs2's decomposition. -/
def witN2L : PathNode :=
  { Cmd := .PcL, PrevCmd := .Pcl, CmdIdx := 6, Idx := 7, PtIdx := 0,
    PCp := ⟨1, 0⟩, Cp := ⟨5, 5⟩, WinPt := ⟨5, 5⟩ }

/-- Concrete segments m h exercising a horizontal-lineto node. -/
def witSegs3 : List Seg := [⟨.Pcm, [[0, 0]]⟩, ⟨.Pch, [[2]]⟩]

/-- The horizontal-lineto node of witSegs3's decomposition. -/
def witNh : PathNode :=
  { Cmd := .Pch, PrevCmd := .Pcm, CmdIdx := 3, Idx := 4, PtIdx := 0,
    PCp := ⟨0, 0⟩, Cp := ⟨2, 0⟩, WinPt := ⟨2, 0⟩ }

/-- A concrete preferences value with guide snapping enabled (tolerance 3,
its default), used to exercise the snapping engine. -/
def exPrefsGuide : Preferences := ⟨false, true, false, 3⟩

/-- A concrete view at zoom 1 with a 12-dot grid, used to exercise the
snapping engine. -/
def exSV : SVGViewSt := ⟨0, 1, 12, 1⟩

/-- A concrete drag state with one left-anchor alignment candidate at 103
against a bbox whose left edge is at 100, used to exercise the snapping
engine. -/
def exAlignES : EditState := ⟨"Move", "", false, "", ⟨⟨100, 20⟩, ⟨200, 40⟩⟩,
  ⟨⟨100, 20⟩, ⟨200, 40⟩⟩, ⟨⟨100, 20⟩, ⟨200, 40⟩⟩,
  fun ap => match ap with | .BBLeft => [103] | _ => []⟩

/-! ## Theorems -/

section Theorems

attribute [local semireducible] Rat.add Rat.sub Rat.mul Rat.inv

/-- SnapCurBBox never modifies the raw dragged bbox: only the effective
bbox is written. -/
theorem snapCurBBox_rawBBox (prefs : Preferences) (sv : SVGViewSt) (es : EditState)
    (move : Bool) :
    ((SnapCurBBox prefs sv es move).1).DragSelCurBBox = es.DragSelCurBBox := by
  unfold SnapCurBBox
  dsimp only
  split_ifs <;> rfl

/-- One reshape-drag step leaves the raw dragged bbox clamped to
`min ≤ max − 1` on each axis. -/
theorem reshape_step_clamp (prefs : Preferences) (sv : SVGViewSt) (es : EditState)
    (sp : SizeSprites) (dv : Vec2) :
    ((SpriteReshapeDrag prefs sv es sp dv).1).DragSelCurBBox.Min.x ≤
      ((SpriteReshapeDrag prefs sv es sp dv).1).DragSelCurBBox.Max.x - 1 ∧
    ((SpriteReshapeDrag prefs sv es sp dv).1).DragSelCurBBox.Min.y ≤
      ((SpriteReshapeDrag prefs sv es sp dv).1).DragSelCurBBox.Max.y - 1 := by
  unfold SpriteReshapeDrag
  dsimp only
  rw [snapCurBBox_rawBBox]
  dsimp only
  exact ⟨min_le_right _ _, min_le_right _ _⟩

/-- C4: after each update step of SpriteReshapeDrag — for every reshape
handle, every per-event delta, and any drag state, hence after every step
of any sequence of drag updates — the drag bbox satisfies
`min.x ≤ max.x − 1` and `min.y ≤ max.y − 1`: the min/max ordering is never
inverted and a 1-unit minimum size is kept. -/
theorem spriteReshapeDrag_clamp_invariant :
    (∀ (prefs : Preferences) (sv : SVGViewSt) (es : EditState) (sp : SizeSprites) (dv : Vec2),
      ((SpriteReshapeDrag prefs sv es sp dv).1).DragSelCurBBox.Min.x ≤
        ((SpriteReshapeDrag prefs sv es sp dv).1).DragSelCurBBox.Max.x - 1 ∧
      ((SpriteReshapeDrag prefs sv es sp dv).1).DragSelCurBBox.Min.y ≤
        ((SpriteReshapeDrag prefs sv es sp dv).1).DragSelCurBBox.Max.y - 1) ∧
    (∀ (prefs : Preferences) (sv : SVGViewSt) (es : EditState)
      (steps : List (SizeSprites × Vec2)), steps ≠ [] →
      (steps.foldl (fun e sd => (SpriteReshapeDrag prefs sv e sd.1 sd.2).1)
          es).DragSelCurBBox.Min.x ≤
        (steps.foldl (fun e sd => (SpriteReshapeDrag prefs sv e sd.1 sd.2).1)
          es).DragSelCurBBox.Max.x - 1 ∧
      (steps.foldl (fun e sd => (SpriteReshapeDrag prefs sv e sd.1 sd.2).1)
          es).DragSelCurBBox.Min.y ≤
        (steps.foldl (fun e sd => (SpriteReshapeDrag prefs sv e sd.1 sd.2).1)
          es).DragSelCurBBox.Max.y - 1) := by
  refine ⟨fun prefs sv es sp dv => reshape_step_clamp prefs sv es sp dv, ?_⟩
  intro prefs sv es steps hne
  induction steps generalizing es with
  | nil => exact absurd rfl hne
  | cons sd rest ih =>
    cases rest with
    | nil => exact reshape_step_clamp prefs sv es sd.1 sd.2
    | cons sd2 l =>
      rw [List.foldl_cons]
      exact ih ((SpriteReshapeDrag prefs sv es sd.1 sd.2).1) (by simp)

/-- C4 witness: the invariant at a concrete state and drag sequence. -/
theorem spriteReshapeDrag_clamp_invariant_witness :
    ([((SizeSprites.SizeUpL : SizeSprites), (⟨200, 300⟩ : Vec2))] : List (SizeSprites × Vec2))
        ≠ [] ∧
    (([((SizeSprites.SizeUpL : SizeSprites), (⟨200, 300⟩ : Vec2))].foldl
        (fun e sd => (SpriteReshapeDrag ⟨false, false, false, 3⟩ ⟨0, 1, 12, 1⟩ e sd.1 sd.2).1)
        ⟨"Reshape", "", false, "", ⟨⟨0, 0⟩, ⟨100, 50⟩⟩, ⟨⟨0, 0⟩, ⟨100, 50⟩⟩,
          ⟨⟨0, 0⟩, ⟨100, 50⟩⟩, fun _ => []⟩).DragSelCurBBox.Min.x ≤
      (([((SizeSprites.SizeUpL : SizeSprites), (⟨200, 300⟩ : Vec2))].foldl
        (fun e sd => (SpriteReshapeDrag ⟨false, false, false, 3⟩ ⟨0, 1, 12, 1⟩ e sd.1 sd.2).1)
        ⟨"Reshape", "", false, "", ⟨⟨0, 0⟩, ⟨100, 50⟩⟩, ⟨⟨0, 0⟩, ⟨100, 50⟩⟩,
          ⟨⟨0, 0⟩, ⟨100, 50⟩⟩, fun _ => []⟩)).DragSelCurBBox.Max.x - 1) :=
  ⟨by simp,
   (spriteReshapeDrag_clamp_invariant.2 ⟨false, false, false, 3⟩ ⟨0, 1, 12, 1⟩
      ⟨"Reshape", "", false, "", ⟨⟨0, 0⟩, ⟨100, 50⟩⟩, ⟨⟨0, 0⟩, ⟨100, 50⟩⟩,
        ⟨⟨0, 0⟩, ⟨100, 50⟩⟩, fun _ => []⟩
      [(SizeSprites.SizeUpL, ⟨200, 300⟩)] (by simp)).1⟩

/-- C5: SnapToPt returns `(snap, true)` exactly when
`|val − snap| < SnapTol × tolRef` (strict inequality, so a boundary-exact
distance returns `(val, false)`), and whenever it does not snap the
returned value is the input `val`. -/
theorem snapToPt_strict_boundary (prefs : Preferences) (val snap tolRef : ℚ) :
    (SnapToPt prefs val snap tolRef = (snap, true) ↔
      |val - snap| < prefs.SnapTol * tolRef) ∧
    (|val - snap| = prefs.SnapTol * tolRef →
      SnapToPt prefs val snap tolRef = (val, false)) ∧
    ((SnapToPt prefs val snap tolRef).2 = false →
      (SnapToPt prefs val snap tolRef).1 = val) := by
  unfold SnapToPt
  dsimp only
  by_cases h : |val - snap| < prefs.SnapTol * tolRef
  · simp only [if_pos h]
    refine ⟨⟨fun _ => h, fun _ => trivial⟩, fun he => ?_, fun hf => absurd hf (by decide)⟩
    rw [he] at h
    exact absurd h (lt_irrefl _)
  · simp only [if_neg h]
    refine ⟨⟨fun he => ?_, fun hlt => absurd hlt h⟩, fun _ => trivial, fun _ => trivial⟩
    have h2 : false = true := congrArg Prod.snd he
    exact absurd h2 (by decide)

/-- C5 witness: a boundary-exact distance (6 = 3 × 2) does not snap. -/
theorem snapToPt_strict_boundary_witness :
    |(5 : ℚ) - 11| = (⟨true, true, true, 3⟩ : Preferences).SnapTol * 2 ∧
    SnapToPt ⟨true, true, true, 3⟩ 5 11 2 = (5, false) :=
  ⟨by norm_num,
   (snapToPt_strict_boundary ⟨true, true, true, 3⟩ 5 11 2).2.1 (by norm_num)⟩

/-- C8: with all snapping disabled and drag-start selection bbox
{(0,0),(100,50)}, a SpriteReshapeDrag on the bottom-right handle with delta
(10,10) produces effective bbox {(0,0),(110,60)} and applies to every
selected element (from its InitGeom snapshot) the one delta transform with
scale (11/10, 6/5), translation (0,0) and rotation 0, pivoted at the
drag-start anchor point (the start bbox min in local coordinates). -/
theorem spriteReshapeDrag_scenario :
    (SpriteReshapeDrag ⟨false, false, false, 3⟩ ⟨0, 1, 12, 1⟩
        ⟨"Reshape", "", false, "", ⟨⟨0, 0⟩, ⟨100, 50⟩⟩, ⟨⟨0, 0⟩, ⟨100, 50⟩⟩,
          ⟨⟨0, 0⟩, ⟨100, 50⟩⟩, fun _ => []⟩ .SizeDnR ⟨10, 10⟩).1.DragSelEffBBox =
      ⟨⟨0, 0⟩, ⟨110, 60⟩⟩ ∧
    (SpriteReshapeDrag ⟨false, false, false, 3⟩ ⟨0, 1, 12, 1⟩
        ⟨"Reshape", "", false, "", ⟨⟨0, 0⟩, ⟨100, 50⟩⟩, ⟨⟨0, 0⟩, ⟨100, 50⟩⟩,
          ⟨⟨0, 0⟩, ⟨100, 50⟩⟩, fun _ => []⟩ .SizeDnR ⟨10, 10⟩).2 =
      ⟨⟨0, 0⟩, ⟨11/10, 6/5⟩, 0, ⟨0, 0⟩⟩ := by
  decide

/-- ManipStart does not touch the drag bboxes. -/
theorem manipStart_bboxes (es : EditState) (a d : String) :
    (ManipStart es a d).DragSelStartBBox = es.DragSelStartBBox ∧
    (ManipStart es a d).DragSelCurBBox = es.DragSelCurBBox := by
  unfold ManipStart EditState.ActStart EditState.ActUnlock
  split_ifs <;> exact ⟨rfl, rfl⟩

/-- C9: when an action is already active, calling the action start again
without an intervening done is a silent no-op: the second ManipStart
returns the state unchanged (in particular the action name stays the value
set by the first call), with no error path. -/
theorem manipStart_reentrant_noop (es : EditState) (a1 d1 a2 d2 : String)
    (h0 : es.InAction = false) (h1 : a1 ≠ "") :
    (ManipStart es a1 d1).Action = a1 ∧
    ManipStart (ManipStart es a1 d1) a2 d2 = ManipStart es a1 d1 := by
  have hA : (EditState.InAction es = false) := h0
  unfold EditState.InAction at hA
  rw [bne_eq_false_iff_eq] at hA
  constructor
  · simp [ManipStart, EditState.ActStart, EditState.ActUnlock, EditState.InAction, hA]
  · simp [ManipStart, EditState.ActStart, EditState.ActUnlock, EditState.InAction, hA,
      bne_iff_ne, h1]

/-- C9 witness: re-entrant start at a concrete state keeps the first
action name. -/
theorem manipStart_reentrant_noop_witness :
    (⟨"", "", false, "", ⟨⟨0, 0⟩, ⟨0, 0⟩⟩, ⟨⟨0, 0⟩, ⟨0, 0⟩⟩, ⟨⟨0, 0⟩, ⟨0, 0⟩⟩,
        fun _ => []⟩ : EditState).InAction = false ∧
    (ManipStart (⟨"", "", false, "", ⟨⟨0, 0⟩, ⟨0, 0⟩⟩, ⟨⟨0, 0⟩, ⟨0, 0⟩⟩, ⟨⟨0, 0⟩, ⟨0, 0⟩⟩,
        fun _ => []⟩ : EditState) "Move" "x").Action = "Move" :=
  ⟨rfl,
   (manipStart_reentrant_noop
      ⟨"", "", false, "", ⟨⟨0, 0⟩, ⟨0, 0⟩⟩, ⟨⟨0, 0⟩, ⟨0, 0⟩⟩, ⟨⟨0, 0⟩, ⟨0, 0⟩⟩, fun _ => []⟩
      "Move" "x" "Rotate" "y" rfl (by decide)).1⟩

/-- Reading back the key just stored in a property bag yields the stored
value. -/
theorem propsGet_set_same (ps : List (String × PropVal)) (k : String) (v : PropVal) :
    propsGet (propsSet ps k v) k = some v := by
  induction ps with
  | nil => simp [propsSet, propsGet]
  | cons p ps ih =>
    by_cases h : p.1 == k
    · simp [propsSet, propsGet, h]
    · simpa [propsSet, propsGet, h] using ih

/-- Storing a different key does not change what a key reads back. -/
theorem propsGet_set_ne (ps : List (String × PropVal)) (k k' : String) (v : PropVal)
    (h : k' ≠ k) :
    propsGet (propsSet ps k' v) k = propsGet ps k := by
  induction ps with
  | nil => simp [propsSet, propsGet, beq_eq_false_iff_ne.mpr h]
  | cons p ps ih =>
    by_cases hp : p.1 == k'
    · have hpk : (p.1 == k) = false := by
        rw [beq_eq_false_iff_ne]
        intro hk
        exact h (by rw [← hk]; exact (beq_iff_eq.mp hp).symm ▸ rfl)
      simp [propsSet, propsGet, hp, hpk, beq_eq_false_iff_ne.mpr h]
    · by_cases hk : p.1 == k
      · simp [propsSet, propsGet, hp, hk]
      · simpa [propsSet, propsGet, hp, hk] using ih

/-- C10: sprite identity round trip — after SetSpriteProps(sp, typ,
subtyp, idx) the read-back SpriteProps returns exactly (typ, subtyp, idx)
and the sprite's name is SpriteName(typ, subtyp, idx); a sprite whose
properties were never set reads back type SpUnk. -/
theorem setSpriteProps_roundtrip (sp : Sprite) (typ subtyp : Sprites) (idx : ℤ) :
    SpriteProps (SetSpriteProps sp typ subtyp idx) = some (typ, subtyp, idx) ∧
    (SetSpriteProps sp typ subtyp idx).Name = SpriteName typ subtyp idx ∧
    (∀ sp2 : Sprite, sp2.Props = [] → SpriteProps sp2 = some (.SpUnk, .SpUnk, 0)) := by
  refine ⟨?_, rfl, fun sp2 h2 => by simp [SpriteProps, h2, propsGet]⟩
  unfold SpriteProps SetSpriteProps
  dsimp only
  rw [propsGet_set_ne _ _ _ _ (by decide), propsGet_set_ne _ _ _ _ (by decide),
    propsGet_set_same, propsGet_set_ne _ _ _ _ (by decide), propsGet_set_same,
    propsGet_set_same]

/-- C10 witness: a concrete set/get round trip, and the unset read-back. -/
theorem setSpriteProps_roundtrip_witness :
    SpriteProps (SetSpriteProps ⟨"", []⟩ .SpNodePoint .SpUnk 3) =
      some (.SpNodePoint, .SpUnk, 3) ∧
    SpriteProps ⟨"x", []⟩ = some (.SpUnk, .SpUnk, 0) :=
  ⟨(setSpriteProps_roundtrip ⟨"", []⟩ .SpNodePoint .SpUnk 3).1,
   (setSpriteProps_roundtrip ⟨"", []⟩ .SpNodePoint .SpUnk 3).2.2 ⟨"x", []⟩ rfl⟩

/-- The round trip of roundHalfAway: the rounded value is within one half
of the input. -/
theorem roundHalfAway_close (q : ℚ) : |q - (roundHalfAway q : ℚ)| ≤ 1 / 2 := by
  unfold roundHalfAway
  by_cases h : 0 ≤ q
  · rw [if_pos h, abs_le]
    constructor
    · have h1 := Int.floor_le (q + 1 / 2)
      push_cast at h1 ⊢
      linarith
    · have h1 := Int.lt_floor_add_one (q + 1 / 2)
      push_cast at h1 ⊢
      linarith
  · rw [if_neg h, abs_le]
    constructor
    · have h1 := Int.ceil_lt_add_one (q - 1 / 2)
      push_cast at h1 ⊢
      linarith
    · have h1 := Int.le_ceil (q - 1 / 2)
      push_cast at h1 ⊢
      linarith

/-- With the snap tolerance at least its minimum of 1, SnapToIncr with
increment 15 and offset 0 always snaps, to the nearest multiple of 15
(rounding half away from zero). -/
theorem snapToIncr_15 (prefs : Preferences) (val : ℚ) (h : 1 ≤ prefs.SnapTol) :
    SnapToIncr prefs val 0 15 = ((roundHalfAway (val / 15) : ℚ) * 15, true) := by
  unfold SnapToIncr
  dsimp only
  rw [sub_zero, add_zero]
  rw [if_pos ?cond]
  case cond =>
    have hc := roundHalfAway_close (val / 15)
    have h15 : val - (roundHalfAway (val / 15) : ℚ) * 15 =
        15 * (val / 15 - (roundHalfAway (val / 15) : ℚ)) := by ring
    rw [h15, abs_mul]
    have : |(15 : ℚ)| = 15 := by norm_num
    rw [this]
    have hb : 15 * |val / 15 - (roundHalfAway (val / 15) : ℚ)| ≤ 15 * (1 / 2) := by
      exact mul_le_mul_of_nonneg_left hc (by norm_num)
    have ht : (15 : ℚ) ≤ prefs.SnapTol * 15 := by nlinarith
    linarith

/-- C6: in SpriteRotateDrag the raw angle `atan2(dy, dx)` — with the
handle-specific dy, dx of `rotateHandleGeom` — has its degree value snapped
to the nearest 15° increment before application (so raw 7° applies 0° and
raw 8° applies 15°, the rounding boundary being 7.5°), and the transform
applied to every selected element is a pure rotation about the pivot: its
translation component is (0,0) and its scale component is (1,1). -/
theorem spriteRotateDrag_snap15 (atan2Deg : ℚ → ℚ → ℚ) (prefs : Preferences)
    (sv : SVGViewSt) (es : EditState) (sp : SizeSprites) (dv : Vec2)
    (h : 1 ≤ prefs.SnapTol) :
    (SpriteRotateDrag atan2Deg prefs sv es sp dv).2.Del = 0 ∧
    (SpriteRotateDrag atan2Deg prefs sv es sp dv).2.Sc = ⟨1, 1⟩ ∧
    (SpriteRotateDrag atan2Deg prefs sv es sp dv).2.Rot =
      (roundHalfAway (atan2Deg
          (rotateHandleGeom es.DragSelStartBBox es.DragSelCurBBox dv sp).2.1
          (rotateHandleGeom es.DragSelStartBBox es.DragSelCurBBox dv sp).2.2.1 / 15) : ℚ)
        * 15 ∧
    SnapToIncr prefs 7 0 15 = (0, true) ∧
    SnapToIncr prefs 8 0 15 = (15, true) := by
  have h7 : SnapToIncr prefs 7 0 15 = (0, true) := by
    rw [snapToIncr_15 prefs 7 h]
    rw [show roundHalfAway ((7 : ℚ) / 15) = 0 from by decide]
    norm_num
  have h8 : SnapToIncr prefs 8 0 15 = (15, true) := by
    rw [snapToIncr_15 prefs 8 h]
    rw [show roundHalfAway ((8 : ℚ) / 15) = 1 from by decide]
    norm_num
  unfold SpriteRotateDrag
  dsimp only
  have hst : (if !es.InAction then ManipStart es "Rotate" es.SelectedNames
      else es).DragSelStartBBox = es.DragSelStartBBox := by
    split
    · exact (manipStart_bboxes es "Rotate" es.SelectedNames).1
    · rfl
  have hcur : (if !es.InAction then ManipStart es "Rotate" es.SelectedNames
      else es).DragSelCurBBox = es.DragSelCurBBox := by
    split
    · exact (manipStart_bboxes es "Rotate" es.SelectedNames).2
    · rfl
  rw [hst, hcur]
  refine ⟨rfl, rfl, ?_, h7, h8⟩
  rw [snapToIncr_15 prefs _ h]

/-- C6 witness: a raw angle of 7° at a concrete drag state applies a
rotation of 0°. -/
theorem spriteRotateDrag_snap15_witness :
    1 ≤ (⟨true, true, true, 3⟩ : Preferences).SnapTol ∧
    (SpriteRotateDrag (fun _ _ => 7) ⟨true, true, true, 3⟩ ⟨0, 1, 12, 1⟩
        ⟨"Rotate", "", false, "", ⟨⟨0, 0⟩, ⟨100, 50⟩⟩, ⟨⟨0, 0⟩, ⟨100, 50⟩⟩,
          ⟨⟨0, 0⟩, ⟨100, 50⟩⟩, fun _ => []⟩ .SizeUpL ⟨3, 4⟩).2.Rot = 0 :=
  ⟨by norm_num,
   by
    rw [(spriteRotateDrag_snap15 (fun _ _ => 7) ⟨true, true, true, 3⟩ ⟨0, 1, 12, 1⟩
        ⟨"Rotate", "", false, "", ⟨⟨0, 0⟩, ⟨100, 50⟩⟩, ⟨⟨0, 0⟩, ⟨100, 50⟩⟩,
          ⟨⟨0, 0⟩, ⟨100, 50⟩⟩, fun _ => []⟩ .SizeUpL ⟨3, 4⟩ (by norm_num)).2.2.1]
    decide⟩

/-- The best-candidate distance never increases along the inner scan. -/
theorem alignScan1_mono (bb : Box2) (ap : BBoxPoints) (pts : List ℚ) (b : AlignBest) :
    (alignScan1 bb ap pts b).clDst ≤ b.clDst := by
  unfold alignScan1
  induction pts generalizing b with
  | nil => exact le_refl _
  | cons pt pts ih =>
    rw [List.foldl_cons]
    refine le_trans (ih _) ?_
    dsimp only
    split
    · exact le_of_lt (by assumption)
    · exact le_refl _

/-- After the inner scan, the best distance is at most the distance of
every candidate of the scanned anchor. -/
theorem alignScan1_min (bb : Box2) (ap : BBoxPoints) (pts : List ℚ) (b : AlignBest) :
    ∀ pt ∈ pts, (alignScan1 bb ap pts b).clDst ≤ |pt - ValBox ap bb| := by
  unfold alignScan1
  induction pts generalizing b with
  | nil => intro pt hpt; cases hpt
  | cons q pts ih =>
    intro pt hpt
    rw [List.foldl_cons]
    rcases List.mem_cons.mp hpt with h | h
    · subst h
      refine le_trans (alignScan1_mono bb ap pts _) ?_
      dsimp only
      split
      · exact le_refl _
      · exact le_of_not_lt (by assumption)
    · exact ih _ pt h

/-- Consistency of the running best: it is either the initial sentinel or
an actual candidate of some anchor with its recorded distance. -/
theorem alignScan1_ok (aligns : BBoxPoints → List ℚ) (bb : Box2) (ap : BBoxPoints)
    (pts : List ℚ) (b : AlignBest) (hap : ap ∈ apList) (hpts : ∀ pt ∈ pts, pt ∈ aligns ap)
    (hb : (b.clPt = .BBoxPointsN ∧ b.clDst = maxFloat32) ∨
      (b.clPt ∈ apList ∧ b.clVal ∈ aligns b.clPt ∧ b.bbval = ValBox b.clPt bb ∧
        b.clDst = |b.clVal - b.bbval|)) :
    ((alignScan1 bb ap pts b).clPt = .BBoxPointsN ∧
        (alignScan1 bb ap pts b).clDst = maxFloat32) ∨
      ((alignScan1 bb ap pts b).clPt ∈ apList ∧
        (alignScan1 bb ap pts b).clVal ∈ aligns (alignScan1 bb ap pts b).clPt ∧
        (alignScan1 bb ap pts b).bbval = ValBox (alignScan1 bb ap pts b).clPt bb ∧
        (alignScan1 bb ap pts b).clDst =
          |(alignScan1 bb ap pts b).clVal - (alignScan1 bb ap pts b).bbval|) := by
  unfold alignScan1
  induction pts generalizing b with
  | nil => exact hb
  | cons q pts ih =>
    rw [List.foldl_cons]
    refine ih _ (fun pt hpt => hpts pt (List.mem_cons_of_mem _ hpt)) ?_
    dsimp only
    split
    · exact Or.inr ⟨hap, hpts q (List.mem_cons_self _ _), rfl, rfl⟩
    · exact hb

/-- The outer scan's best distance never increases. -/
theorem alignScanFold_mono (aligns : BBoxPoints → List ℚ) (bb : Box2)
    (aps : List BBoxPoints) (b : AlignBest) :
    (aps.foldl (fun b ap => alignScan1 bb ap (aligns ap) b) b).clDst ≤ b.clDst := by
  induction aps generalizing b with
  | nil => exact le_refl _
  | cons ap aps ih =>
    rw [List.foldl_cons]
    exact le_trans (ih _) (alignScan1_mono bb ap (aligns ap) b)

/-- After the outer scan, the best distance is at most the distance of
every candidate of every scanned anchor. -/
theorem alignScanFold_min (aligns : BBoxPoints → List ℚ) (bb : Box2)
    (aps : List BBoxPoints) (b : AlignBest) :
    ∀ ap ∈ aps, ∀ pt ∈ aligns ap,
      (aps.foldl (fun b ap => alignScan1 bb ap (aligns ap) b) b).clDst ≤
        |pt - ValBox ap bb| := by
  induction aps generalizing b with
  | nil => intro ap hap; cases hap
  | cons ap2 aps ih =>
    intro ap hap pt hpt
    rw [List.foldl_cons]
    rcases List.mem_cons.mp hap with h | h
    · subst h
      exact le_trans (alignScanFold_mono aligns bb aps _)
        (alignScan1_min bb ap (aligns ap) b pt hpt)
    · exact ih _ ap h pt hpt

/-- Consistency of the running best through the outer scan. -/
theorem alignScanFold_ok (aligns : BBoxPoints → List ℚ) (bb : Box2)
    (aps : List BBoxPoints) (b : AlignBest) (haps : ∀ ap ∈ aps, ap ∈ apList)
    (hb : (b.clPt = .BBoxPointsN ∧ b.clDst = maxFloat32) ∨
      (b.clPt ∈ apList ∧ b.clVal ∈ aligns b.clPt ∧ b.bbval = ValBox b.clPt bb ∧
        b.clDst = |b.clVal - b.bbval|)) :
    (((aps.foldl (fun b ap => alignScan1 bb ap (aligns ap) b) b)).clPt = .BBoxPointsN ∧
        ((aps.foldl (fun b ap => alignScan1 bb ap (aligns ap) b) b)).clDst = maxFloat32) ∨
      (((aps.foldl (fun b ap => alignScan1 bb ap (aligns ap) b) b)).clPt ∈ apList ∧
        ((aps.foldl (fun b ap => alignScan1 bb ap (aligns ap) b) b)).clVal ∈
          aligns ((aps.foldl (fun b ap => alignScan1 bb ap (aligns ap) b) b)).clPt ∧
        ((aps.foldl (fun b ap => alignScan1 bb ap (aligns ap) b) b)).bbval =
          ValBox ((aps.foldl (fun b ap => alignScan1 bb ap (aligns ap) b) b)).clPt bb ∧
        ((aps.foldl (fun b ap => alignScan1 bb ap (aligns ap) b) b)).clDst =
          |((aps.foldl (fun b ap => alignScan1 bb ap (aligns ap) b) b)).clVal -
            ((aps.foldl (fun b ap => alignScan1 bb ap (aligns ap) b) b)).bbval|) := by
  induction aps generalizing b with
  | nil => exact hb
  | cons ap aps ih =>
    rw [List.foldl_cons]
    refine ih _ (fun a ha => haps a (List.mem_cons_of_mem _ ha)) ?_
    exact alignScan1_ok aligns bb ap (aligns ap) b (haps ap (List.mem_cons_self _ _))
      (fun pt hpt => hpt) hb

/-- C7: with guide snapping enabled and a non-empty candidate set of
realistic (float-range) distances, SnapCurBBox with move selects the single
closest candidate across all 6 anchors; when it is within tolerance exactly
that anchor of the effective bbox is shifted by the snap delta, otherwise
the effective bbox equals the raw dragged bbox; the raw dragged bbox is
never modified; and the (empty, todo) grid branch is entered only when no
guide snap occurred. -/
theorem snapCurBBox_global_nearest (prefs : Preferences) (sv : SVGViewSt) (es : EditState)
    (hguide : prefs.SnapGuide = true)
    (hsmall : ∀ ap ∈ apList, ∀ pt ∈ es.AlignPts ap,
      |pt - ValBox ap es.DragSelCurBBox| < maxFloat32)
    (hne : ∃ ap ∈ apList, es.AlignPts ap ≠ []) :
    (∀ mv : Bool, ((SnapCurBBox prefs sv es mv).1).DragSelCurBBox = es.DragSelCurBBox) ∧
    ((alignScan es.AlignPts es.DragSelCurBBox).clPt ∈ apList ∧
      (alignScan es.AlignPts es.DragSelCurBBox).clVal ∈
        es.AlignPts (alignScan es.AlignPts es.DragSelCurBBox).clPt ∧
      (alignScan es.AlignPts es.DragSelCurBBox).bbval =
        ValBox (alignScan es.AlignPts es.DragSelCurBBox).clPt es.DragSelCurBBox ∧
      (alignScan es.AlignPts es.DragSelCurBBox).clDst =
        |(alignScan es.AlignPts es.DragSelCurBBox).clVal -
          (alignScan es.AlignPts es.DragSelCurBBox).bbval| ∧
      (∀ ap ∈ apList, ∀ pt ∈ es.AlignPts ap,
        (alignScan es.AlignPts es.DragSelCurBBox).clDst ≤
          |pt - ValBox ap es.DragSelCurBBox|)) ∧
    ((SnapToPt prefs (alignScan es.AlignPts es.DragSelCurBBox).bbval
          (alignScan es.AlignPts es.DragSelCurBBox).clVal (GridDots sv).1).2 = true →
      ((SnapCurBBox prefs sv es true).1).DragSelEffBBox =
        MoveDelta (alignScan es.AlignPts es.DragSelCurBBox).clPt es.DragSelCurBBox
          ((alignScan es.AlignPts es.DragSelCurBBox).clVal -
            (alignScan es.AlignPts es.DragSelCurBBox).bbval)) ∧
    ((SnapToPt prefs (alignScan es.AlignPts es.DragSelCurBBox).bbval
          (alignScan es.AlignPts es.DragSelCurBBox).clVal (GridDots sv).1).2 = false →
      ((SnapCurBBox prefs sv es true).1).DragSelEffBBox = es.DragSelCurBBox) ∧
    ((SnapCurBBox prefs sv es true).2.2 = true → (SnapCurBBox prefs sv es true).2.1 = false)
    := by
  have hmin : ∀ ap ∈ apList, ∀ pt ∈ es.AlignPts ap,
      (alignScan es.AlignPts es.DragSelCurBBox).clDst ≤
        |pt - ValBox ap es.DragSelCurBBox| := by
    intro ap hap pt hpt
    exact alignScanFold_min es.AlignPts es.DragSelCurBBox apList _ ap hap pt hpt
  have hok := alignScanFold_ok es.AlignPts es.DragSelCurBBox apList
    ⟨.BBoxPointsN, maxFloat32, 0, 0⟩ (fun a ha => ha) (Or.inl ⟨rfl, rfl⟩)
  have hlt : (alignScan es.AlignPts es.DragSelCurBBox).clDst < maxFloat32 := by
    obtain ⟨ap, hap, hne2⟩ := hne
    obtain ⟨pt, hpt⟩ := List.exists_mem_of_ne_nil _ hne2
    exact lt_of_le_of_lt (hmin ap hap pt hpt) (hsmall ap hap pt hpt)
  have hbest : (alignScan es.AlignPts es.DragSelCurBBox).clPt ∈ apList ∧
      (alignScan es.AlignPts es.DragSelCurBBox).clVal ∈
        es.AlignPts (alignScan es.AlignPts es.DragSelCurBBox).clPt ∧
      (alignScan es.AlignPts es.DragSelCurBBox).bbval =
        ValBox (alignScan es.AlignPts es.DragSelCurBBox).clPt es.DragSelCurBBox ∧
      (alignScan es.AlignPts es.DragSelCurBBox).clDst =
        |(alignScan es.AlignPts es.DragSelCurBBox).clVal -
          (alignScan es.AlignPts es.DragSelCurBBox).bbval| := by
    unfold alignScan
    unfold alignScan at hlt
    rcases hok with ⟨_, hd⟩ | hcand
    · rw [hd] at hlt
      exact absurd hlt (lt_irrefl _)
    · exact hcand
  have h1 : (SnapToPt prefs (alignScan es.AlignPts es.DragSelCurBBox).bbval
      (alignScan es.AlignPts es.DragSelCurBBox).clVal (GridDots sv).1).2 = true →
      (SnapToPt prefs (alignScan es.AlignPts es.DragSelCurBBox).bbval
        (alignScan es.AlignPts es.DragSelCurBBox).clVal (GridDots sv).1).1 =
      (alignScan es.AlignPts es.DragSelCurBBox).clVal := by
    intro hsnap
    unfold SnapToPt at hsnap ⊢
    dsimp only at hsnap ⊢
    split at hsnap
    · rw [if_pos (by assumption)]
    · exact absurd hsnap (by simp)
  refine ⟨fun mv => snapCurBBox_rawBBox prefs sv es mv,
    ⟨hbest.1, hbest.2.1, hbest.2.2.1, hbest.2.2.2, hmin⟩, ?_, ?_, ?_⟩
  · intro hsnap
    unfold SnapCurBBox
    simp only [hguide, if_true]
    rw [if_pos hsnap]
    dsimp only
    rw [h1 hsnap]
  · intro hsnap
    unfold SnapCurBBox
    simp only [hguide, if_true]
    rw [if_neg (by simp [hsnap])]
  · unfold SnapCurBBox
    dsimp only
    split_ifs <;> simp

set_option maxRecDepth 8000 in
/-- C7 witness: a concrete drag with one left-anchor candidate within
tolerance shifts exactly the left edge of the effective bbox by the snap
delta. -/
theorem snapCurBBox_global_nearest_witness :
    exPrefsGuide.SnapGuide = true ∧ (∃ ap ∈ apList, exAlignES.AlignPts ap ≠ []) ∧
    ((SnapCurBBox exPrefsGuide exSV exAlignES true).1).DragSelEffBBox =
      MoveDelta (alignScan exAlignES.AlignPts exAlignES.DragSelCurBBox).clPt
        exAlignES.DragSelCurBBox
        ((alignScan exAlignES.AlignPts exAlignES.DragSelCurBBox).clVal -
          (alignScan exAlignES.AlignPts exAlignES.DragSelCurBBox).bbval) ∧
    MoveDelta (alignScan exAlignES.AlignPts exAlignES.DragSelCurBBox).clPt
        exAlignES.DragSelCurBBox
        ((alignScan exAlignES.AlignPts exAlignES.DragSelCurBBox).clVal -
          (alignScan exAlignES.AlignPts exAlignES.DragSelCurBBox).bbval) =
      ⟨⟨103, 20⟩, ⟨200, 40⟩⟩ := by
  refine ⟨rfl, by decide, ?_, by decide⟩
  exact (snapCurBBox_global_nearest exPrefsGuide exSV exAlignES rfl (by decide)
    (by decide)).2.2.1 (by decide)

/-- A segment is a close command exactly when its command is `PcZ` or
`Pcz`. -/
theorem isClose_iff (sg : Seg) : sg.isClose = true ↔ (sg.cmd = .PcZ ∨ sg.cmd = .Pcz) := by
  simp [Seg.isClose]

/-- Taking exactly the encoded operand values off the stream succeeds. -/
theorem takeOps_exact (vs : List ℚ) (rest : List PathData) :
    takeOps vs.length (vs.map .val ++ rest) = some (vs, rest) := by
  induction vs with
  | nil => rfl
  | cons v vs ih => simp [takeOps, ih]

/-- Chunking the flattened point list of equal-width chunks recovers it. -/
theorem takeChunks_flatten (k : Nat) (pts : List (List ℚ))
    (h : ∀ ops ∈ pts, ops.length = k) :
    takeChunks pts.length k pts.flatten = pts := by
  induction pts with
  | nil => rfl
  | cons ops pts ih =>
    simp only [List.flatten_cons, List.length_cons, takeChunks]
    rw [List.take_left' (h ops (List.mem_cons_self _ _)),
      List.drop_left' (h ops (List.mem_cons_self _ _)),
      ih (fun o ho => h o (List.mem_cons_of_mem _ ho))]

/-- The flattened point list of equal-width chunks has length
`width × number of chunks`. -/
theorem flatten_chunks_length (k : Nat) (pts : List (List ℚ))
    (h : ∀ ops ∈ pts, ops.length = k) :
    pts.flatten.length = k * pts.length := by
  induction pts with
  | nil => simp
  | cons ops pts ih =>
    simp only [List.flatten_cons, List.length_append, List.length_cons,
      h ops (List.mem_cons_self _ _), ih (fun o ho => h o (List.mem_cons_of_mem _ ho))]
    ring

/-- A segment list is never longer than its flat encoding. -/
theorem length_flat_ge (sgs : List Seg) : sgs.length ≤ (flatSegs sgs).length := by
  induction sgs with
  | nil => simp [flatSegs]
  | cons sg rest ih =>
    simp only [flatSegs, List.map_cons, List.flatten_cons, List.length_append,
      List.length_cons, Seg.flat] at ih ⊢
    omega

/-- The flat iterator agrees with the structured decomposition on the flat
encoding of well-formed segments, given enough fuel. -/
theorem iterGo_flat (svoff : Vec2) (sgs : List Seg) (fuel i : Nat) (s : IterSt)
    (hwf : segsWf sgs = true) (hfuel : sgs.length ≤ fuel) :
    iterGo svoff fuel i s (flatSegs sgs) = segNodes svoff i s sgs := by
  induction sgs generalizing fuel i s with
  | nil =>
    cases fuel <;> rfl
  | cons sg rest ih =>
    obtain ⟨f, rfl⟩ : ∃ f, fuel = f + 1 := ⟨fuel - 1, by simp at hfuel; omega⟩
    have hwf1 : sg.wf = true := by
      have := hwf
      unfold segsWf at this
      rw [List.all_cons, Bool.and_eq_true] at this
      exact this.1
    have hwfr : segsWf rest = true := by
      have := hwf
      unfold segsWf at this
      rw [List.all_cons, Bool.and_eq_true] at this
      exact this.2
    have hfr : rest.length ≤ f := by simp at hfuel; omega
    have hflat : flatSegs (sg :: rest) =
        PathData.cmd sg.cmd sg.ops.length :: (sg.ops.map .val ++ flatSegs rest) := by
      simp [flatSegs, Seg.flat]
    rw [hflat]
    by_cases hz : sg.isClose = true
    · have hzp := (isClose_iff sg).mp hz
      have hpts : sg.pts = [] := by
        unfold Seg.wf at hwf1
        have hk0 : cmdPtOps sg.cmd = 0 := by
          rcases hzp with h | h <;> rw [h] <;> rfl
        rw [if_pos (by simp [hk0])] at hwf1
        rw [Bool.and_eq_true, List.isEmpty_iff] at hwf1
        exact hwf1.2
      have hops : sg.ops = [] := by simp [Seg.ops, hpts]
      rw [hops]
      simp only [List.length_nil, List.map_nil, List.nil_append]
      rw [iterGo, if_pos hzp]
      unfold segNodes
      rw [if_pos hz]
      exact ih f (i + 1) _ hwfr hfr
    · have hznp : ¬(sg.cmd = .PcZ ∨ sg.cmd = .Pcz) := fun hc => hz ((isClose_iff sg).mpr hc)
      have hk : cmdPtOps sg.cmd ≠ 0 := by
        intro hk0
        unfold Seg.wf at hwf1
        rw [if_pos (by simp [hk0])] at hwf1
        rw [Bool.and_eq_true] at hwf1
        exact hz hwf1.1
      have hchunks : ∀ ops ∈ sg.pts, ops.length = cmdPtOps sg.cmd := by
        intro ops hops
        unfold Seg.wf at hwf1
        rw [if_neg (by simpa using hk)] at hwf1
        rw [Bool.and_eq_true, List.all_eq_true] at hwf1
        simpa using hwf1.2 ops hops
      have hlen : sg.ops.length = cmdPtOps sg.cmd * sg.pts.length :=
        flatten_chunks_length _ _ hchunks
      rw [iterGo, if_neg hznp, if_neg hk, takeOps_exact]
      dsimp only
      have hdiv : sg.ops.length / cmdPtOps sg.cmd = sg.pts.length := by
        rw [hlen, Nat.mul_div_cancel_left _ (Nat.pos_of_ne_zero hk)]
      rw [hdiv]
      unfold Seg.ops
      rw [takeChunks_flatten _ _ hchunks]
      unfold segNodes
      rw [if_neg hz]
      dsimp only
      simp only [Seg.ops]
      rw [ih f (i + 1 + sg.pts.flatten.length) _ hwfr hfr]

/-- PathNodes on the flat encoding of well-formed segments equals the
structured decomposition. -/
theorem pathNodes_flat (sv : SVGViewSt) (w : Vec2) (sgs : List Seg)
    (hwf : segsWf sgs = true) :
    (PathNodes sv ⟨flatSegs sgs, w⟩).1 = segNodes sv.WinBBoxMin 0 initIterSt sgs := by
  unfold PathNodes
  dsimp only
  exact iterGo_flat _ _ _ _ _ hwf (le_trans (length_flat_ge sgs) (by omega))

/-- emitPts emits one node per point chunk. -/
theorem emitPts_length (svoff : Vec2) (c : PathCmds) (ci : Nat) :
    ∀ (pts : List (List ℚ)) (ptIdx idx : Nat) (s : IterSt),
      (emitPts svoff c ci ptIdx idx s pts).1.length = pts.length := by
  intro pts
  induction pts with
  | nil => intro ptIdx idx s; rfl
  | cons ops pts ih =>
    intro ptIdx idx s
    simp only [emitPts, List.length_cons]
    rw [ih]

/-- A well-formed segment that is not a close has at least one point. -/
theorem wf_point_pts_pos (sg : Seg) (hwf : sg.wf = true) (hz : sg.isClose = false) :
    0 < sg.pts.length := by
  unfold Seg.wf at hwf
  by_cases hk : cmdPtOps sg.cmd == 0
  · rw [if_pos hk, Bool.and_eq_true] at hwf
    rw [hwf.1] at hz
    cases hz
  · rw [if_neg hk, Bool.and_eq_true] at hwf
    have h1 := hwf.1
    rw [Bool.not_eq_true'] at h1
    cases hp : sg.pts with
    | nil => rw [hp] at h1; simp at h1
    | cons a l => simp [hp]

/-- The chunk widths of a well-formed non-close segment all equal its
command's operand count. -/
theorem wf_point_chunks (sg : Seg) (hwf : sg.wf = true) (hz : sg.isClose = false) :
    ∀ ops ∈ sg.pts, ops.length = cmdPtOps sg.cmd := by
  intro ops hops
  unfold Seg.wf at hwf
  by_cases hk : cmdPtOps sg.cmd == 0
  · rw [if_pos hk, Bool.and_eq_true] at hwf
    rw [hwf.1] at hz
    cases hz
  · rw [if_neg hk, Bool.and_eq_true, List.all_eq_true] at hwf
    simpa using hwf.2 ops hops

/-- Without close commands, the decomposition has one node per point. -/
theorem segNodes_length (svoff : Vec2) (sgs : List Seg) :
    ∀ (i : Nat) (s : IterSt), segsWf sgs = true → segsNoClose sgs = true →
      (segNodes svoff i s sgs).length = (sgs.map (fun sg => sg.pts.length)).sum := by
  induction sgs with
  | nil => intro i s _ _; rfl
  | cons sg rest ih =>
    intro i s hwf hnc
    have hw : sg.wf = true ∧ segsWf rest = true := by
      unfold segsWf at hwf
      rw [List.all_cons, Bool.and_eq_true] at hwf
      exact ⟨hwf.1, hwf.2⟩
    have hn : sg.isClose = false ∧ segsNoClose rest = true := by
      unfold segsNoClose at hnc
      rw [List.all_cons, Bool.and_eq_true] at hnc
      exact ⟨by simpa using hnc.1, hnc.2⟩
    unfold segNodes
    rw [if_neg (by rw [hn.1]; exact Bool.false_ne_true)]
    dsimp only
    rw [List.length_append, emitPts_length, ih _ _ hw.2 hn.2, List.map_cons, List.sum_cons]

/-- A well-formed close-free segment list whose decomposition has exactly
three nodes has one of four shapes. -/
theorem segs_of_three (sgs : List Seg) (hwf : segsWf sgs = true)
    (hnc : segsNoClose sgs = true)
    (n3 : (sgs.map (fun sg => sg.pts.length)).sum = 3) :
    (∃ c pa pb pc, sgs = [⟨c, [pa, pb, pc]⟩]) ∨
    (∃ c c2 pa pb pc, sgs = [⟨c, [pa, pb]⟩, ⟨c2, [pc]⟩]) ∨
    (∃ c c2 pa pb pc, sgs = [⟨c, [pa]⟩, ⟨c2, [pb, pc]⟩]) ∨
    (∃ c1 c2 c3 pa pb pc, sgs = [⟨c1, [pa]⟩, ⟨c2, [pb]⟩, ⟨c3, [pc]⟩]) := by
  have hpos : ∀ sg ∈ sgs, 0 < sg.pts.length := by
    intro sg hsg
    unfold segsWf at hwf
    unfold segsNoClose at hnc
    rw [List.all_eq_true] at hwf hnc
    exact wf_point_pts_pos sg (hwf sg hsg) (by simpa using hnc sg hsg)
  rcases sgs with _ | ⟨s1, _ | ⟨s2, _ | ⟨s3, _ | ⟨s4, rest⟩⟩⟩⟩
  · simp at n3
  · simp only [List.map_cons, List.map_nil, List.sum_cons, List.sum_nil, add_zero] at n3
    rcases s1 with ⟨c, pts⟩
    obtain ⟨pa, pb, pc, rfl⟩ := List.length_eq_three.mp n3
    exact Or.inl ⟨c, pa, pb, pc, rfl⟩
  · simp only [List.map_cons, List.map_nil, List.sum_cons, List.sum_nil, add_zero] at n3
    have h1 := hpos s1 (by simp)
    have h2 := hpos s2 (by simp)
    rcases s1 with ⟨c, pts⟩
    rcases s2 with ⟨c2, pts2⟩
    simp only at n3 h1 h2
    have : (pts.length = 2 ∧ pts2.length = 1) ∨ (pts.length = 1 ∧ pts2.length = 2) := by
      omega
    rcases this with ⟨ha, hb⟩ | ⟨ha, hb⟩
    · obtain ⟨pa, pb, rfl⟩ := List.length_eq_two.mp ha
      obtain ⟨pc, rfl⟩ := List.length_eq_one.mp hb
      exact Or.inr (Or.inl ⟨c, c2, pa, pb, pc, rfl⟩)
    · obtain ⟨pa, rfl⟩ := List.length_eq_one.mp ha
      obtain ⟨pb, pc, rfl⟩ := List.length_eq_two.mp hb
      exact Or.inr (Or.inr (Or.inl ⟨c, c2, pa, pb, pc, rfl⟩))
  · simp only [List.map_cons, List.map_nil, List.sum_cons, List.sum_nil, add_zero] at n3
    have h1 := hpos s1 (by simp)
    have h2 := hpos s2 (by simp)
    have h3 := hpos s3 (by simp)
    rcases s1 with ⟨c1, pts1⟩
    rcases s2 with ⟨c2, pts2⟩
    rcases s3 with ⟨c3, pts3⟩
    simp only at n3 h1 h2 h3
    have : pts1.length = 1 ∧ pts2.length = 1 ∧ pts3.length = 1 := by omega
    obtain ⟨pa, rfl⟩ := List.length_eq_one.mp this.1
    obtain ⟨pb, rfl⟩ := List.length_eq_one.mp this.2.1
    obtain ⟨pc, rfl⟩ := List.length_eq_one.mp this.2.2
    exact Or.inr (Or.inr (Or.inr ⟨c1, c2, c3, pa, pb, pc, rfl⟩))
  · have h1 := hpos s1 (by simp)
    have h2 := hpos s2 (by simp)
    have h3 := hpos s3 (by simp)
    have h4 := hpos s4 (by simp)
    have hge : 0 ≤ (rest.map (fun sg => sg.pts.length)).sum := Nat.zero_le _
    simp only [List.map_cons, List.sum_cons] at n3
    omega

/-- The delta transform used by the one-point move is, under the identity
parent transform, a pure translation by `dv`. -/
theorem deltaTranslate (dv pt v : Vec2) :
    ((DeltaTransform dv ⟨1, 1⟩ pt).1).MulVec2AsPtCtr v (DeltaTransform dv ⟨1, 1⟩ pt).2 =
      v + dv := by
  show Mat2.MulVec2AsPtCtr ⟨1, 0, 0, 1, dv.x, dv.y⟩ v pt = v + dv
  unfold Mat2.MulVec2AsPtCtr
  dsimp only
  show Vec2.mk (1 * (v.x - pt.x) + 0 * (v.y - pt.y) + pt.x + dv.x)
      (0 * (v.x - pt.x) + 1 * (v.y - pt.y) + pt.y + dv.y) = v + dv
  show _ = Vec2.mk (v.x + dv.x) (v.y + dv.y)
  rw [Vec2.mk.injEq]
  constructor <;> ring

/-- Componentwise form of Vec2 addition. -/
theorem Vec2.add_def (a b : Vec2) : a + b = ⟨a.x + b.x, a.y + b.y⟩ := rfl

/-- Componentwise form of Vec2 subtraction. -/
theorem Vec2.sub_def (a b : Vec2) : a - b = ⟨a.x - b.x, a.y - b.y⟩ := rfl

/-- Componentwise form of Vec2 negation. -/
theorem Vec2.neg_def (a : Vec2) : -a = ⟨-a.x, -a.y⟩ := rfl

/-- Setting an index past an append lands in the right part. -/
theorem set_append_right' {α : Type} (s t : List α) (n : Nat) (v : α) :
    (s ++ t).set (s.length + n) v = s ++ t.set n v := by
  rw [List.set_append, if_neg (by omega)]
  congr 2
  omega

/-- Unfolding of the structured decomposition at a non-close segment. -/
theorem segNodes_cons_pt (svoff : Vec2) (i : Nat) (s : IterSt) (sg : Seg) (rest : List Seg)
    (hz : sg.isClose = false) :
    segNodes svoff i s (sg :: rest) =
      (emitPts svoff sg.cmd i 0 (i + 1) s sg.pts).1 ++
        segNodes svoff (i + 1 + sg.ops.length)
          { (emitPts svoff sg.cmd i 0 (i + 1) s sg.pts).2 with
            st := if sg.cmd = .PcM ∨ sg.cmd = .Pcm
              then (emitPts svoff sg.cmd i 0 (i + 1) s sg.pts).2.cp
              else (emitPts svoff sg.cmd i 0 (i + 1) s sg.pts).2.st } rest := by
  conv_lhs => rw [segNodes]
  rw [if_neg (by simp [hz])]

/-- PathNodeSetPoint only writes the data stream. -/
theorem setPoint_winbb (p : Path) (pn : PathNode) (npt : Vec2) :
    (PathNodeSetPoint p pn npt).WinBBoxMin = p.WinBBoxMin := by
  unfold PathNodeSetPoint
  split_ifs <;> (cases pn.Cmd <;> rfl)

/-- The one-point-move loop on a two-node suffix writes the moved node
through the `dv` translation and the following node through the negated
translation (whether or not the loop then breaks at that node). -/
theorem go_two (svoff dv : Vec2) (p : Path) (n1 n2 : PathNode) :
    pathNodeSetOnePointGo svoff [n1, n2] true dv p =
      PathNodeSetPoint (PathNodeSetPoint p n1 (n1.Cp + dv)) n2 (n2.Cp + -dv) := by
  conv_lhs => rw [pathNodeSetOnePointGo]
  simp only [if_true, deltaTranslate]
  conv_lhs => rw [pathNodeSetOnePointGo]
  simp only [deltaTranslate, pathNodeSetOnePointGo]
  split_ifs <;> rfl

/-- PathNodeSetPoint on a two-coordinate relative-lineto node whose operand
slots sit at offset `A.length` writes the relative point there. -/
theorem setPoint_two_rel (p : Path) (pn : PathNode) (npt : Vec2) (A B : List PathData)
    (u v : ℚ) (hdata : p.Data = A ++ .val u :: .val v :: B) (hidx : pn.Idx = A.length)
    (hcmd : pn.Cmd = .Pcl) (hne1 : A.length ≠ 1) :
    (PathNodeSetPoint p pn npt).Data =
      A ++ .val (npt.x - pn.PCp.x) :: .val (npt.y - pn.PCp.y) :: B := by
  unfold PathNodeSetPoint
  rw [if_neg (by rw [hidx, hcmd]; simp [PathCmdIsRel, hne1])]
  rw [hcmd]
  dsimp only
  rw [hdata, hidx]
  rw [show A.length = A.length + 0 from rfl, set_append_right']
  simp only [List.set, Nat.add_zero]
  rw [set_append_right' A _ 1]
  simp only [List.set]

/-- PathNodeSetPoint on a two-coordinate absolute node (absolute lineto)
whose operand slots sit at offset `A.length` writes the point there
directly. -/
theorem setPoint_two_abs (p : Path) (pn : PathNode) (npt : Vec2) (A B : List PathData)
    (u v : ℚ) (hdata : p.Data = A ++ .val u :: .val v :: B) (hidx : pn.Idx = A.length)
    (hcmd : pn.Cmd = .PcL) :
    (PathNodeSetPoint p pn npt).Data = A ++ .val npt.x :: .val npt.y :: B := by
  unfold PathNodeSetPoint
  rw [if_pos (by rw [hcmd]; simp [PathCmdIsRel])]
  rw [hcmd]
  dsimp only
  rw [hdata, hidx]
  rw [show A.length = A.length + 0 from rfl, set_append_right']
  simp only [List.set, Nat.add_zero]
  rw [set_append_right' A _ 1]
  simp only [List.set]

theorem Path.ext2 (p q : Path) (h1 : p.Data = q.Data) (h2 : p.WinBBoxMin = q.WinBBoxMin) :
    p = q := by
  cases p
  cases q
  simp_all

theorem setOnePointPcl111 (sv : SVGViewSt) (w : Vec2) (c1 c2 c3 : PathCmds) (pa pb pc : List ℚ) (d : Vec2)
    (hwf : segsWf [⟨c1, [pa]⟩, ⟨c2, [pb]⟩, ⟨c3, [pc]⟩] = true)
    (hnc : segsNoClose [⟨c1, [pa]⟩, ⟨c2, [pb]⟩, ⟨c3, [pc]⟩] = true)
    (P0 P1 P2 : PathNode) (cidxs : List Nat)
    (hdec : PathNodes sv ⟨flatSegs [⟨c1, [pa]⟩, ⟨c2, [pb]⟩, ⟨c3, [pc]⟩], w⟩ =
      ([P0, P1, P2], cidxs))
    (h1 : P1.Cmd = .Pcl) (h2 : P2.Cmd = .Pcl) :
    (PathNodes sv (PathNodeSetOnePoint ⟨flatSegs [⟨c1, [pa]⟩, ⟨c2, [pb]⟩, ⟨c3, [pc]⟩], w⟩
        [P0, P1, P2] 1 d sv.WinBBoxMin)).1.map PathNode.Cp =
      [P0.Cp, P1.Cp + d, P2.Cp] := by
  have hnodes : segNodes sv.WinBBoxMin 0 initIterSt [⟨c1, [pa]⟩, ⟨c2, [pb]⟩, ⟨c3, [pc]⟩]
      = [P0, P1, P2] := by
    have h := congrArg Prod.fst hdec
    rwa [pathNodes_flat sv w _ hwf] at h
  have hz1 : (⟨c1, [pa]⟩ : Seg).isClose = false := by
    unfold segsNoClose at hnc; simp only [List.all_cons, Bool.and_eq_true] at hnc
    simpa using hnc.1
  have hz2 : (⟨c2, [pb]⟩ : Seg).isClose = false := by
    unfold segsNoClose at hnc; simp only [List.all_cons, Bool.and_eq_true] at hnc
    simpa using hnc.2.1
  have hz3 : (⟨c3, [pc]⟩ : Seg).isClose = false := by
    unfold segsNoClose at hnc; simp only [List.all_cons, Bool.and_eq_true] at hnc
    simpa using hnc.2.2.1
  have hwf1 : (⟨c1, [pa]⟩ : Seg).wf = true := by
    unfold segsWf at hwf; simp only [List.all_cons, Bool.and_eq_true] at hwf; exact hwf.1
  rw [segNodes_cons_pt _ _ _ _ _ hz1, segNodes_cons_pt _ _ _ _ _ hz2,
    segNodes_cons_pt _ _ _ _ _ hz3] at hnodes
  simp only [emitPts, Seg.ops, List.flatten, List.append_nil, segNodes, initIterSt,
    List.singleton_append, List.cons_append, List.nil_append, List.cons.injEq,
    and_true] at hnodes
  obtain ⟨hP0, hP1, hP2⟩ := hnodes
  subst hP0
  subst hP1
  subst hP2
  simp only at h1 h2
  subst h1
  subst h2
  -- chunk widths
  have hpb : pb.length = 2 := by
    have h := wf_point_chunks ⟨.Pcl, [pb]⟩ (by
      unfold segsWf at hwf; simp only [List.all_cons, Bool.and_eq_true] at hwf
      exact hwf.2.1) hz2 pb (by simp)
    simpa [cmdPtOps] using h
  have hpc : pc.length = 2 := by
    have h := wf_point_chunks ⟨.Pcl, [pc]⟩ (by
      unfold segsWf at hwf; simp only [List.all_cons, Bool.and_eq_true] at hwf
      exact hwf.2.2.1) hz3 pc (by simp)
    simpa [cmdPtOps] using h
  obtain ⟨b1, b2, rfl⟩ := List.length_eq_two.mp hpb
  obtain ⟨e1, e2, rfl⟩ := List.length_eq_two.mp hpc
  -- the two writes
  unfold PathNodeSetOnePoint
  simp only [List.drop_succ_cons, List.drop_zero]
  rw [go_two]
  -- first write
  have hflat1 : flatSegs [⟨c1, [pa]⟩, ⟨.Pcl, [[b1, b2]]⟩, ⟨.Pcl, [[e1, e2]]⟩] =
      (.cmd c1 pa.length :: (pa.map .val ++ [.cmd .Pcl 2])) ++
        .val b1 :: .val b2 :: (.cmd .Pcl 2 :: .val e1 :: .val e2 :: []) := by
    simp [flatSegs, Seg.flat, Seg.ops]
  have hlen1 : (PathData.cmd c1 pa.length :: (pa.map .val ++ [.cmd .Pcl 2])).length =
      pa.length + 2 := by simp
  have hd1 := setPoint_two_rel
    ⟨flatSegs [⟨c1, [pa]⟩, ⟨.Pcl, [[b1, b2]]⟩, ⟨.Pcl, [[e1, e2]]⟩], w⟩
    { Cmd := .Pcl, PrevCmd := c1, CmdIdx := 0 + 1 + pa.length, Idx := 0 + 1 + pa.length + 1,
      PtIdx := 0, PCp := applyPt c1 0 pa, Cp := applyPt .Pcl (applyPt c1 0 pa) [b1, b2],
      WinPt := applyPt .Pcl (applyPt c1 0 pa) [b1, b2] + sv.WinBBoxMin }
    (applyPt .Pcl (applyPt c1 0 pa) [b1, b2] + d)
    (.cmd c1 pa.length :: (pa.map .val ++ [.cmd .Pcl 2]))
    (.cmd .Pcl 2 :: .val e1 :: .val e2 :: []) b1 b2 hflat1 (by simp; omega) rfl
    (by simp)
  have hcomb : (PathNodeSetPoint
      ⟨flatSegs [⟨c1, [pa]⟩, ⟨.Pcl, [[b1, b2]]⟩, ⟨.Pcl, [[e1, e2]]⟩], w⟩
      { Cmd := .Pcl, PrevCmd := c1, CmdIdx := 0 + 1 + pa.length, Idx := 0 + 1 + pa.length + 1,
        PtIdx := 0, PCp := applyPt c1 0 pa, Cp := applyPt .Pcl (applyPt c1 0 pa) [b1, b2],
        WinPt := applyPt .Pcl (applyPt c1 0 pa) [b1, b2] + sv.WinBBoxMin }
      (applyPt .Pcl (applyPt c1 0 pa) [b1, b2] + d)).Data =
      ((.cmd c1 pa.length :: (pa.map .val ++ [.cmd .Pcl 2])) ++
        [.val ((applyPt .Pcl (applyPt c1 0 pa) [b1, b2] + d).x - (applyPt c1 0 pa).x),
         .val ((applyPt .Pcl (applyPt c1 0 pa) [b1, b2] + d).y - (applyPt c1 0 pa).y),
         .cmd .Pcl 2]) ++ .val e1 :: .val e2 :: [] := by
    rw [hd1]
    simp [List.append_assoc]
  have hd2 := setPoint_two_rel _
    { Cmd := .Pcl, PrevCmd := .Pcl, CmdIdx := 0 + 1 + pa.length + 1 + [b1, b2].length,
      Idx := 0 + 1 + pa.length + 1 + [b1, b2].length + 1, PtIdx := 0,
      PCp := applyPt .Pcl (applyPt c1 0 pa) [b1, b2],
      Cp := applyPt .Pcl (applyPt .Pcl (applyPt c1 0 pa) [b1, b2]) [e1, e2],
      WinPt := applyPt .Pcl (applyPt .Pcl (applyPt c1 0 pa) [b1, b2]) [e1, e2] + sv.WinBBoxMin }
    (applyPt .Pcl (applyPt .Pcl (applyPt c1 0 pa) [b1, b2]) [e1, e2] + -d)
    ((.cmd c1 pa.length :: (pa.map .val ++ [.cmd .Pcl 2])) ++
      [.val ((applyPt .Pcl (applyPt c1 0 pa) [b1, b2] + d).x - (applyPt c1 0 pa).x),
       .val ((applyPt .Pcl (applyPt c1 0 pa) [b1, b2] + d).y - (applyPt c1 0 pa).y),
       .cmd .Pcl 2]) [] e1 e2 hcomb (by simp; omega) rfl (by simp)
  have hp2 : (PathNodeSetPoint (PathNodeSetPoint
      ⟨flatSegs [⟨c1, [pa]⟩, ⟨.Pcl, [[b1, b2]]⟩, ⟨.Pcl, [[e1, e2]]⟩], w⟩
      { Cmd := .Pcl, PrevCmd := c1, CmdIdx := 0 + 1 + pa.length, Idx := 0 + 1 + pa.length + 1,
        PtIdx := 0, PCp := applyPt c1 0 pa, Cp := applyPt .Pcl (applyPt c1 0 pa) [b1, b2],
        WinPt := applyPt .Pcl (applyPt c1 0 pa) [b1, b2] + sv.WinBBoxMin }
      (applyPt .Pcl (applyPt c1 0 pa) [b1, b2] + d))
      { Cmd := .Pcl, PrevCmd := .Pcl, CmdIdx := 0 + 1 + pa.length + 1 + [b1, b2].length,
        Idx := 0 + 1 + pa.length + 1 + [b1, b2].length + 1, PtIdx := 0,
        PCp := applyPt .Pcl (applyPt c1 0 pa) [b1, b2],
        Cp := applyPt .Pcl (applyPt .Pcl (applyPt c1 0 pa) [b1, b2]) [e1, e2],
        WinPt := applyPt .Pcl (applyPt .Pcl (applyPt c1 0 pa) [b1, b2]) [e1, e2] + sv.WinBBoxMin }
      (applyPt .Pcl (applyPt .Pcl (applyPt c1 0 pa) [b1, b2]) [e1, e2] + -d)) =
      ⟨flatSegs [⟨c1, [pa]⟩,
        ⟨.Pcl, [[(applyPt .Pcl (applyPt c1 0 pa) [b1, b2] + d).x - (applyPt c1 0 pa).x,
                 (applyPt .Pcl (applyPt c1 0 pa) [b1, b2] + d).y - (applyPt c1 0 pa).y]]⟩,
        ⟨.Pcl, [[(applyPt .Pcl (applyPt .Pcl (applyPt c1 0 pa) [b1, b2]) [e1, e2] + -d).x -
                   (applyPt .Pcl (applyPt c1 0 pa) [b1, b2]).x,
                 (applyPt .Pcl (applyPt .Pcl (applyPt c1 0 pa) [b1, b2]) [e1, e2] + -d).y -
                   (applyPt .Pcl (applyPt c1 0 pa) [b1, b2]).y]]⟩], w⟩ := by
    apply Path.ext2
    · rw [hd2]
      simp [flatSegs, Seg.flat, Seg.ops, List.append_assoc]
    · rw [setPoint_winbb, setPoint_winbb]
  rw [hp2]
  have hwf2 : segsWf [⟨c1, [pa]⟩,
      ⟨.Pcl, [[(applyPt .Pcl (applyPt c1 0 pa) [b1, b2] + d).x - (applyPt c1 0 pa).x,
               (applyPt .Pcl (applyPt c1 0 pa) [b1, b2] + d).y - (applyPt c1 0 pa).y]]⟩,
      ⟨.Pcl, [[(applyPt .Pcl (applyPt .Pcl (applyPt c1 0 pa) [b1, b2]) [e1, e2] + -d).x -
                 (applyPt .Pcl (applyPt c1 0 pa) [b1, b2]).x,
               (applyPt .Pcl (applyPt .Pcl (applyPt c1 0 pa) [b1, b2]) [e1, e2] + -d).y -
                 (applyPt .Pcl (applyPt c1 0 pa) [b1, b2]).y]]⟩] = true := by
    unfold segsWf
    simp only [List.all_cons, Bool.and_eq_true]
    exact ⟨hwf1, by rfl, by rfl, by rfl⟩
  rw [pathNodes_flat sv w _ hwf2]
  rw [segNodes_cons_pt _ _ _ _ _ hz1, segNodes_cons_pt _ _ _ _ _ (by rfl),
    segNodes_cons_pt _ _ _ _ _ (by rfl)]
  simp only [emitPts, Seg.ops, List.flatten, List.append_nil, segNodes, initIterSt,
    List.singleton_append, List.cons_append, List.nil_append, List.map_cons, List.map_nil,
    List.cons.injEq, and_true]
  refine ⟨trivial, ?_, ?_⟩
  · simp only [applyPt, Vec2.add_def, Vec2.neg_def]
    rw [Vec2.mk.injEq]
    constructor <;> ring
  · simp only [applyPt, Vec2.add_def, Vec2.neg_def]
    rw [Vec2.mk.injEq]
    constructor <;> ring
theorem setOnePointPcl12 (sv : SVGViewSt) (w : Vec2) (c1 c2 : PathCmds) (pa pb pc : List ℚ) (d : Vec2)
    (hwf : segsWf [⟨c1, [pa]⟩, ⟨c2, [pb, pc]⟩] = true)
    (hnc : segsNoClose [⟨c1, [pa]⟩, ⟨c2, [pb, pc]⟩] = true)
    (P0 P1 P2 : PathNode) (cidxs : List Nat)
    (hdec : PathNodes sv ⟨flatSegs [⟨c1, [pa]⟩, ⟨c2, [pb, pc]⟩], w⟩ = ([P0, P1, P2], cidxs))
    (h1 : P1.Cmd = .Pcl) (h2 : P2.Cmd = .Pcl) :
    (PathNodes sv (PathNodeSetOnePoint ⟨flatSegs [⟨c1, [pa]⟩, ⟨c2, [pb, pc]⟩], w⟩
        [P0, P1, P2] 1 d sv.WinBBoxMin)).1.map PathNode.Cp =
      [P0.Cp, P1.Cp + d, P2.Cp] := by
  have hnodes : segNodes sv.WinBBoxMin 0 initIterSt [⟨c1, [pa]⟩, ⟨c2, [pb, pc]⟩]
      = [P0, P1, P2] := by
    have h := congrArg Prod.fst hdec
    rwa [pathNodes_flat sv w _ hwf] at h
  have hz1 : (⟨c1, [pa]⟩ : Seg).isClose = false := by
    unfold segsNoClose at hnc; simp only [List.all_cons, Bool.and_eq_true] at hnc
    simpa using hnc.1
  have hz2 : (⟨c2, [pb, pc]⟩ : Seg).isClose = false := by
    unfold segsNoClose at hnc; simp only [List.all_cons, Bool.and_eq_true] at hnc
    simpa using hnc.2.1
  have hwf1 : (⟨c1, [pa]⟩ : Seg).wf = true := by
    unfold segsWf at hwf; simp only [List.all_cons, Bool.and_eq_true] at hwf; exact hwf.1
  rw [segNodes_cons_pt _ _ _ _ _ hz1, segNodes_cons_pt _ _ _ _ _ hz2] at hnodes
  simp only [emitPts, Seg.ops, List.flatten, List.append_nil, segNodes, initIterSt,
    List.singleton_append, List.cons_append, List.nil_append, List.cons.injEq,
    and_true] at hnodes
  obtain ⟨hP0, hP1, hP2⟩ := hnodes
  subst hP0
  subst hP1
  subst hP2
  simp only at h1 h2
  subst h1
  have hpb : pb.length = 2 := by
    have h := wf_point_chunks ⟨.Pcl, [pb, pc]⟩ (by
      unfold segsWf at hwf; simp only [List.all_cons, Bool.and_eq_true] at hwf
      exact hwf.2.1) hz2 pb (by simp)
    simpa [cmdPtOps] using h
  have hpc : pc.length = 2 := by
    have h := wf_point_chunks ⟨.Pcl, [pb, pc]⟩ (by
      unfold segsWf at hwf; simp only [List.all_cons, Bool.and_eq_true] at hwf
      exact hwf.2.1) hz2 pc (by simp)
    simpa [cmdPtOps] using h
  obtain ⟨b1, b2, rfl⟩ := List.length_eq_two.mp hpb
  obtain ⟨e1, e2, rfl⟩ := List.length_eq_two.mp hpc
  unfold PathNodeSetOnePoint
  simp only [List.drop_succ_cons, List.drop_zero]
  rw [go_two]
  have hflat1 : flatSegs [⟨c1, [pa]⟩, ⟨.Pcl, [[b1, b2], [e1, e2]]⟩] =
      (.cmd c1 pa.length :: (pa.map .val ++ [.cmd .Pcl 4])) ++
        .val b1 :: .val b2 :: (.val e1 :: .val e2 :: []) := by
    simp [flatSegs, Seg.flat, Seg.ops]
  have hd1 := setPoint_two_rel
    ⟨flatSegs [⟨c1, [pa]⟩, ⟨.Pcl, [[b1, b2], [e1, e2]]⟩], w⟩
    { Cmd := .Pcl, PrevCmd := c1, CmdIdx := 0 + 1 + pa.length, Idx := 0 + 1 + pa.length + 1,
      PtIdx := 0, PCp := applyPt c1 0 pa, Cp := applyPt .Pcl (applyPt c1 0 pa) [b1, b2],
      WinPt := applyPt .Pcl (applyPt c1 0 pa) [b1, b2] + sv.WinBBoxMin }
    (applyPt .Pcl (applyPt c1 0 pa) [b1, b2] + d)
    (.cmd c1 pa.length :: (pa.map .val ++ [.cmd .Pcl 4]))
    (.val e1 :: .val e2 :: []) b1 b2 hflat1 (by simp; omega) rfl (by simp)
  have hcomb : (PathNodeSetPoint
      ⟨flatSegs [⟨c1, [pa]⟩, ⟨.Pcl, [[b1, b2], [e1, e2]]⟩], w⟩
      { Cmd := .Pcl, PrevCmd := c1, CmdIdx := 0 + 1 + pa.length, Idx := 0 + 1 + pa.length + 1,
        PtIdx := 0, PCp := applyPt c1 0 pa, Cp := applyPt .Pcl (applyPt c1 0 pa) [b1, b2],
        WinPt := applyPt .Pcl (applyPt c1 0 pa) [b1, b2] + sv.WinBBoxMin }
      (applyPt .Pcl (applyPt c1 0 pa) [b1, b2] + d)).Data =
      ((.cmd c1 pa.length :: (pa.map .val ++ [.cmd .Pcl 4])) ++
        [.val ((applyPt .Pcl (applyPt c1 0 pa) [b1, b2] + d).x - (applyPt c1 0 pa).x),
         .val ((applyPt .Pcl (applyPt c1 0 pa) [b1, b2] + d).y - (applyPt c1 0 pa).y)]) ++
        .val e1 :: .val e2 :: [] := by
    rw [hd1]
    simp [List.append_assoc]
  have hd2 := setPoint_two_rel _
    { Cmd := .Pcl, PrevCmd := .Pcl, CmdIdx := 0 + 1 + pa.length,
      Idx := 0 + 1 + pa.length + 1 + cmdPtOps .Pcl, PtIdx := 0 + 1,
      PCp := applyPt .Pcl (applyPt c1 0 pa) [b1, b2],
      Cp := applyPt .Pcl (applyPt .Pcl (applyPt c1 0 pa) [b1, b2]) [e1, e2],
      WinPt := applyPt .Pcl (applyPt .Pcl (applyPt c1 0 pa) [b1, b2]) [e1, e2] + sv.WinBBoxMin }
    (applyPt .Pcl (applyPt .Pcl (applyPt c1 0 pa) [b1, b2]) [e1, e2] + -d)
    ((.cmd c1 pa.length :: (pa.map .val ++ [.cmd .Pcl 4])) ++
      [.val ((applyPt .Pcl (applyPt c1 0 pa) [b1, b2] + d).x - (applyPt c1 0 pa).x),
       .val ((applyPt .Pcl (applyPt c1 0 pa) [b1, b2] + d).y - (applyPt c1 0 pa).y)])
    [] e1 e2 hcomb (by simp [cmdPtOps]; omega) rfl (by simp)
  have hp2 : (PathNodeSetPoint (PathNodeSetPoint
      ⟨flatSegs [⟨c1, [pa]⟩, ⟨.Pcl, [[b1, b2], [e1, e2]]⟩], w⟩
      { Cmd := .Pcl, PrevCmd := c1, CmdIdx := 0 + 1 + pa.length, Idx := 0 + 1 + pa.length + 1,
        PtIdx := 0, PCp := applyPt c1 0 pa, Cp := applyPt .Pcl (applyPt c1 0 pa) [b1, b2],
        WinPt := applyPt .Pcl (applyPt c1 0 pa) [b1, b2] + sv.WinBBoxMin }
      (applyPt .Pcl (applyPt c1 0 pa) [b1, b2] + d))
      { Cmd := .Pcl, PrevCmd := .Pcl, CmdIdx := 0 + 1 + pa.length,
        Idx := 0 + 1 + pa.length + 1 + cmdPtOps .Pcl, PtIdx := 0 + 1,
        PCp := applyPt .Pcl (applyPt c1 0 pa) [b1, b2],
        Cp := applyPt .Pcl (applyPt .Pcl (applyPt c1 0 pa) [b1, b2]) [e1, e2],
        WinPt := applyPt .Pcl (applyPt .Pcl (applyPt c1 0 pa) [b1, b2]) [e1, e2] + sv.WinBBoxMin }
      (applyPt .Pcl (applyPt .Pcl (applyPt c1 0 pa) [b1, b2]) [e1, e2] + -d)) =
      ⟨flatSegs [⟨c1, [pa]⟩,
        ⟨.Pcl, [[(applyPt .Pcl (applyPt c1 0 pa) [b1, b2] + d).x - (applyPt c1 0 pa).x,
                 (applyPt .Pcl (applyPt c1 0 pa) [b1, b2] + d).y - (applyPt c1 0 pa).y],
                [(applyPt .Pcl (applyPt .Pcl (applyPt c1 0 pa) [b1, b2]) [e1, e2] + -d).x -
                   (applyPt .Pcl (applyPt c1 0 pa) [b1, b2]).x,
                 (applyPt .Pcl (applyPt .Pcl (applyPt c1 0 pa) [b1, b2]) [e1, e2] + -d).y -
                   (applyPt .Pcl (applyPt c1 0 pa) [b1, b2]).y]]⟩], w⟩ := by
    apply Path.ext2
    · rw [hd2]
      simp [flatSegs, Seg.flat, Seg.ops, List.append_assoc]
    · rw [setPoint_winbb, setPoint_winbb]
  rw [hp2]
  have hwf2 : segsWf [⟨c1, [pa]⟩,
      ⟨.Pcl, [[(applyPt .Pcl (applyPt c1 0 pa) [b1, b2] + d).x - (applyPt c1 0 pa).x,
               (applyPt .Pcl (applyPt c1 0 pa) [b1, b2] + d).y - (applyPt c1 0 pa).y],
              [(applyPt .Pcl (applyPt .Pcl (applyPt c1 0 pa) [b1, b2]) [e1, e2] + -d).x -
                 (applyPt .Pcl (applyPt c1 0 pa) [b1, b2]).x,
               (applyPt .Pcl (applyPt .Pcl (applyPt c1 0 pa) [b1, b2]) [e1, e2] + -d).y -
                 (applyPt .Pcl (applyPt c1 0 pa) [b1, b2]).y]]⟩] = true := by
    unfold segsWf
    simp only [List.all_cons, Bool.and_eq_true]
    exact ⟨hwf1, by rfl, by rfl⟩
  rw [pathNodes_flat sv w _ hwf2]
  rw [segNodes_cons_pt _ _ _ _ _ hz1, segNodes_cons_pt _ _ _ _ _ (by rfl)]
  simp only [emitPts, Seg.ops, List.flatten, List.append_nil, segNodes, initIterSt,
    List.singleton_append, List.cons_append, List.nil_append, List.map_cons, List.map_nil,
    List.cons.injEq, and_true]
  refine ⟨trivial, ?_, ?_⟩
  · simp only [applyPt, Vec2.add_def, Vec2.neg_def]
    rw [Vec2.mk.injEq]
    constructor <;> ring
  · simp only [applyPt, Vec2.add_def, Vec2.neg_def]
    rw [Vec2.mk.injEq]
    constructor <;> ring

theorem setOnePointPcl21 (sv : SVGViewSt) (w : Vec2) (c1 c2 : PathCmds) (pa pb pc : List ℚ) (d : Vec2)
    (hwf : segsWf [⟨c1, [pa, pb]⟩, ⟨c2, [pc]⟩] = true)
    (hnc : segsNoClose [⟨c1, [pa, pb]⟩, ⟨c2, [pc]⟩] = true)
    (P0 P1 P2 : PathNode) (cidxs : List Nat)
    (hdec : PathNodes sv ⟨flatSegs [⟨c1, [pa, pb]⟩, ⟨c2, [pc]⟩], w⟩ = ([P0, P1, P2], cidxs))
    (h1 : P1.Cmd = .Pcl) (h2 : P2.Cmd = .Pcl) :
    (PathNodes sv (PathNodeSetOnePoint ⟨flatSegs [⟨c1, [pa, pb]⟩, ⟨c2, [pc]⟩], w⟩
        [P0, P1, P2] 1 d sv.WinBBoxMin)).1.map PathNode.Cp =
      [P0.Cp, P1.Cp + d, P2.Cp] := by
  have hnodes : segNodes sv.WinBBoxMin 0 initIterSt [⟨c1, [pa, pb]⟩, ⟨c2, [pc]⟩]
      = [P0, P1, P2] := by
    have h := congrArg Prod.fst hdec
    rwa [pathNodes_flat sv w _ hwf] at h
  have hz1 : (⟨c1, [pa, pb]⟩ : Seg).isClose = false := by
    unfold segsNoClose at hnc; simp only [List.all_cons, Bool.and_eq_true] at hnc
    simpa using hnc.1
  have hz2 : (⟨c2, [pc]⟩ : Seg).isClose = false := by
    unfold segsNoClose at hnc; simp only [List.all_cons, Bool.and_eq_true] at hnc
    simpa using hnc.2.1
  rw [segNodes_cons_pt _ _ _ _ _ hz1, segNodes_cons_pt _ _ _ _ _ hz2] at hnodes
  simp only [emitPts, Seg.ops, List.flatten, List.append_nil, segNodes, initIterSt,
    List.singleton_append, List.cons_append, List.nil_append, List.cons.injEq,
    and_true] at hnodes
  obtain ⟨hP0, hP1, hP2⟩ := hnodes
  subst hP0
  subst hP1
  subst hP2
  simp only at h1 h2
  subst h1
  subst h2
  have hpa : pa.length = 2 := by
    have h := wf_point_chunks ⟨.Pcl, [pa, pb]⟩ (by
      unfold segsWf at hwf; simp only [List.all_cons, Bool.and_eq_true] at hwf
      exact hwf.1) hz1 pa (by simp)
    simpa [cmdPtOps] using h
  have hpb : pb.length = 2 := by
    have h := wf_point_chunks ⟨.Pcl, [pa, pb]⟩ (by
      unfold segsWf at hwf; simp only [List.all_cons, Bool.and_eq_true] at hwf
      exact hwf.1) hz1 pb (by simp)
    simpa [cmdPtOps] using h
  have hpc : pc.length = 2 := by
    have h := wf_point_chunks ⟨.Pcl, [pc]⟩ (by
      unfold segsWf at hwf; simp only [List.all_cons, Bool.and_eq_true] at hwf
      exact hwf.2.1) hz2 pc (by simp)
    simpa [cmdPtOps] using h
  obtain ⟨a1, a2, rfl⟩ := List.length_eq_two.mp hpa
  obtain ⟨b1, b2, rfl⟩ := List.length_eq_two.mp hpb
  obtain ⟨e1, e2, rfl⟩ := List.length_eq_two.mp hpc
  unfold PathNodeSetOnePoint
  simp only [List.drop_succ_cons, List.drop_zero]
  rw [go_two]
  have hflat1 : flatSegs [⟨.Pcl, [[a1, a2], [b1, b2]]⟩, ⟨.Pcl, [[e1, e2]]⟩] =
      [.cmd .Pcl 4, .val a1, .val a2] ++
        .val b1 :: .val b2 :: (.cmd .Pcl 2 :: .val e1 :: .val e2 :: []) := by
    simp [flatSegs, Seg.flat, Seg.ops]
  have hd1 := setPoint_two_rel
    ⟨flatSegs [⟨.Pcl, [[a1, a2], [b1, b2]]⟩, ⟨.Pcl, [[e1, e2]]⟩], w⟩
    { Cmd := .Pcl, PrevCmd := .Pcl, CmdIdx := 0,
        Idx := 0 + 1 + cmdPtOps .Pcl, PtIdx := 0 + 1,
        PCp := applyPt .Pcl 0 [a1, a2],
        Cp := applyPt .Pcl (applyPt .Pcl 0 [a1, a2]) [b1, b2],
        WinPt := applyPt .Pcl (applyPt .Pcl 0 [a1, a2]) [b1, b2] + sv.WinBBoxMin }
    (applyPt .Pcl (applyPt .Pcl 0 [a1, a2]) [b1, b2] + d)
    [.cmd .Pcl 4, .val a1, .val a2]
    (.cmd .Pcl 2 :: .val e1 :: .val e2 :: []) b1 b2 hflat1 (by simp [cmdPtOps]) rfl
    (by simp)
  have hcomb : (PathNodeSetPoint
      ⟨flatSegs [⟨.Pcl, [[a1, a2], [b1, b2]]⟩, ⟨.Pcl, [[e1, e2]]⟩], w⟩
      { Cmd := .Pcl, PrevCmd := .Pcl, CmdIdx := 0,
        Idx := 0 + 1 + cmdPtOps .Pcl, PtIdx := 0 + 1,
        PCp := applyPt .Pcl 0 [a1, a2],
        Cp := applyPt .Pcl (applyPt .Pcl 0 [a1, a2]) [b1, b2],
        WinPt := applyPt .Pcl (applyPt .Pcl 0 [a1, a2]) [b1, b2] + sv.WinBBoxMin }
      (applyPt .Pcl (applyPt .Pcl 0 [a1, a2]) [b1, b2] + d)).Data =
      ([.cmd .Pcl 4, .val a1, .val a2] ++
        [.val ((applyPt .Pcl (applyPt .Pcl 0 [a1, a2]) [b1, b2] + d).x - (applyPt .Pcl 0 [a1, a2]).x),
         .val ((applyPt .Pcl (applyPt .Pcl 0 [a1, a2]) [b1, b2] + d).y - (applyPt .Pcl 0 [a1, a2]).y),
         .cmd .Pcl 2]) ++ .val e1 :: .val e2 :: [] := by
    rw [hd1]
    simp [List.append_assoc]
  have hd2 := setPoint_two_rel _
    { Cmd := .Pcl, PrevCmd := .Pcl, CmdIdx := 0 + 1 + ([a1, a2] ++ [b1, b2]).length,
        Idx := 0 + 1 + ([a1, a2] ++ [b1, b2]).length + 1, PtIdx := 0,
        PCp := applyPt .Pcl (applyPt .Pcl 0 [a1, a2]) [b1, b2],
        Cp := applyPt .Pcl (applyPt .Pcl (applyPt .Pcl 0 [a1, a2]) [b1, b2]) [e1, e2],
        WinPt := applyPt .Pcl (applyPt .Pcl (applyPt .Pcl 0 [a1, a2]) [b1, b2]) [e1, e2] + sv.WinBBoxMin }
    (applyPt .Pcl (applyPt .Pcl (applyPt .Pcl 0 [a1, a2]) [b1, b2]) [e1, e2] + -d)
    ([.cmd .Pcl 4, .val a1, .val a2] ++
      [.val ((applyPt .Pcl (applyPt .Pcl 0 [a1, a2]) [b1, b2] + d).x - (applyPt .Pcl 0 [a1, a2]).x),
       .val ((applyPt .Pcl (applyPt .Pcl 0 [a1, a2]) [b1, b2] + d).y - (applyPt .Pcl 0 [a1, a2]).y),
       .cmd .Pcl 2]) [] e1 e2 hcomb (by simp) rfl (by simp)
  have hp2 : (PathNodeSetPoint (PathNodeSetPoint
      ⟨flatSegs [⟨.Pcl, [[a1, a2], [b1, b2]]⟩, ⟨.Pcl, [[e1, e2]]⟩], w⟩
      { Cmd := .Pcl, PrevCmd := .Pcl, CmdIdx := 0,
        Idx := 0 + 1 + cmdPtOps .Pcl, PtIdx := 0 + 1,
        PCp := applyPt .Pcl 0 [a1, a2],
        Cp := applyPt .Pcl (applyPt .Pcl 0 [a1, a2]) [b1, b2],
        WinPt := applyPt .Pcl (applyPt .Pcl 0 [a1, a2]) [b1, b2] + sv.WinBBoxMin }
      (applyPt .Pcl (applyPt .Pcl 0 [a1, a2]) [b1, b2] + d))
      { Cmd := .Pcl, PrevCmd := .Pcl, CmdIdx := 0 + 1 + ([a1, a2] ++ [b1, b2]).length,
        Idx := 0 + 1 + ([a1, a2] ++ [b1, b2]).length + 1, PtIdx := 0,
        PCp := applyPt .Pcl (applyPt .Pcl 0 [a1, a2]) [b1, b2],
        Cp := applyPt .Pcl (applyPt .Pcl (applyPt .Pcl 0 [a1, a2]) [b1, b2]) [e1, e2],
        WinPt := applyPt .Pcl (applyPt .Pcl (applyPt .Pcl 0 [a1, a2]) [b1, b2]) [e1, e2] + sv.WinBBoxMin }
      (applyPt .Pcl (applyPt .Pcl (applyPt .Pcl 0 [a1, a2]) [b1, b2]) [e1, e2] + -d)) =
      ⟨flatSegs [⟨.Pcl, [[a1, a2], [((applyPt .Pcl (applyPt .Pcl 0 [a1, a2]) [b1, b2] + d).x - (applyPt .Pcl 0 [a1, a2]).x), ((applyPt .Pcl (applyPt .Pcl 0 [a1, a2]) [b1, b2] + d).y - (applyPt .Pcl 0 [a1, a2]).y)]]⟩,
        ⟨.Pcl, [[((applyPt .Pcl (applyPt .Pcl (applyPt .Pcl 0 [a1, a2]) [b1, b2]) [e1, e2] + -d).x - (applyPt .Pcl (applyPt .Pcl 0 [a1, a2]) [b1, b2]).x), ((applyPt .Pcl (applyPt .Pcl (applyPt .Pcl 0 [a1, a2]) [b1, b2]) [e1, e2] + -d).y - (applyPt .Pcl (applyPt .Pcl 0 [a1, a2]) [b1, b2]).y)]]⟩], w⟩ := by
    apply Path.ext2
    · rw [hd2]
      simp [flatSegs, Seg.flat, Seg.ops, List.append_assoc]
    · rw [setPoint_winbb, setPoint_winbb]
  rw [hp2]
  have hwf2 : segsWf [⟨.Pcl, [[a1, a2], [((applyPt .Pcl (applyPt .Pcl 0 [a1, a2]) [b1, b2] + d).x - (applyPt .Pcl 0 [a1, a2]).x), ((applyPt .Pcl (applyPt .Pcl 0 [a1, a2]) [b1, b2] + d).y - (applyPt .Pcl 0 [a1, a2]).y)]]⟩,
      ⟨.Pcl, [[((applyPt .Pcl (applyPt .Pcl (applyPt .Pcl 0 [a1, a2]) [b1, b2]) [e1, e2] + -d).x - (applyPt .Pcl (applyPt .Pcl 0 [a1, a2]) [b1, b2]).x), ((applyPt .Pcl (applyPt .Pcl (applyPt .Pcl 0 [a1, a2]) [b1, b2]) [e1, e2] + -d).y - (applyPt .Pcl (applyPt .Pcl 0 [a1, a2]) [b1, b2]).y)]]⟩] = true := by
    unfold segsWf
    simp only [List.all_cons, Bool.and_eq_true]
    exact ⟨by rfl, by rfl, by rfl⟩
  rw [pathNodes_flat sv w _ hwf2]
  rw [segNodes_cons_pt _ _ _ _ _ (by rfl), segNodes_cons_pt _ _ _ _ _ (by rfl)]
  simp only [emitPts, Seg.ops, List.flatten, List.append_nil, segNodes, initIterSt,
    List.singleton_append, List.cons_append, List.nil_append, List.map_cons, List.map_nil,
    List.cons.injEq, and_true]
  refine ⟨trivial, ?_, ?_⟩
  · simp only [applyPt, Vec2.add_def, Vec2.neg_def]
    rw [Vec2.mk.injEq]
    constructor <;> ring
  · simp only [applyPt, Vec2.add_def, Vec2.neg_def]
    rw [Vec2.mk.injEq]
    constructor <;> ring

theorem setOnePointPcl3 (sv : SVGViewSt) (w : Vec2) (c1 : PathCmds) (pa pb pc : List ℚ) (d : Vec2)
    (hwf : segsWf [⟨c1, [pa, pb, pc]⟩] = true)
    (hnc : segsNoClose [⟨c1, [pa, pb, pc]⟩] = true)
    (P0 P1 P2 : PathNode) (cidxs : List Nat)
    (hdec : PathNodes sv ⟨flatSegs [⟨c1, [pa, pb, pc]⟩], w⟩ = ([P0, P1, P2], cidxs))
    (h1 : P1.Cmd = .Pcl) (h2 : P2.Cmd = .Pcl) :
    (PathNodes sv (PathNodeSetOnePoint ⟨flatSegs [⟨c1, [pa, pb, pc]⟩], w⟩
        [P0, P1, P2] 1 d sv.WinBBoxMin)).1.map PathNode.Cp =
      [P0.Cp, P1.Cp + d, P2.Cp] := by
  have hnodes : segNodes sv.WinBBoxMin 0 initIterSt [⟨c1, [pa, pb, pc]⟩]
      = [P0, P1, P2] := by
    have h := congrArg Prod.fst hdec
    rwa [pathNodes_flat sv w _ hwf] at h
  have hz1 : (⟨c1, [pa, pb, pc]⟩ : Seg).isClose = false := by
    unfold segsNoClose at hnc; simp only [List.all_cons, Bool.and_eq_true] at hnc
    simpa using hnc.1
  rw [segNodes_cons_pt _ _ _ _ _ hz1] at hnodes
  simp only [emitPts, Seg.ops, List.flatten, List.append_nil, segNodes, initIterSt,
    List.singleton_append, List.cons_append, List.nil_append, List.cons.injEq,
    and_true] at hnodes
  obtain ⟨hP0, hP1, hP2⟩ := hnodes
  subst hP0
  subst hP1
  subst hP2
  simp only at h1 h2
  subst h1
  have hpa : pa.length = 2 := by
    have h := wf_point_chunks ⟨.Pcl, [pa, pb, pc]⟩ (by
      unfold segsWf at hwf; simp only [List.all_cons, Bool.and_eq_true] at hwf
      exact hwf.1) hz1 pa (by simp)
    simpa [cmdPtOps] using h
  have hpb : pb.length = 2 := by
    have h := wf_point_chunks ⟨.Pcl, [pa, pb, pc]⟩ (by
      unfold segsWf at hwf; simp only [List.all_cons, Bool.and_eq_true] at hwf
      exact hwf.1) hz1 pb (by simp)
    simpa [cmdPtOps] using h
  have hpc : pc.length = 2 := by
    have h := wf_point_chunks ⟨.Pcl, [pa, pb, pc]⟩ (by
      unfold segsWf at hwf; simp only [List.all_cons, Bool.and_eq_true] at hwf
      exact hwf.1) hz1 pc (by simp)
    simpa [cmdPtOps] using h
  obtain ⟨a1, a2, rfl⟩ := List.length_eq_two.mp hpa
  obtain ⟨b1, b2, rfl⟩ := List.length_eq_two.mp hpb
  obtain ⟨e1, e2, rfl⟩ := List.length_eq_two.mp hpc
  unfold PathNodeSetOnePoint
  simp only [List.drop_succ_cons, List.drop_zero]
  rw [go_two]
  have hflat1 : flatSegs [⟨.Pcl, [[a1, a2], [b1, b2], [e1, e2]]⟩] =
      [.cmd .Pcl 6, .val a1, .val a2] ++
        .val b1 :: .val b2 :: (.val e1 :: .val e2 :: []) := by
    simp [flatSegs, Seg.flat, Seg.ops]
  have hd1 := setPoint_two_rel
    ⟨flatSegs [⟨.Pcl, [[a1, a2], [b1, b2], [e1, e2]]⟩], w⟩
    { Cmd := .Pcl, PrevCmd := .Pcl, CmdIdx := 0,
        Idx := 0 + 1 + cmdPtOps .Pcl, PtIdx := 0 + 1,
        PCp := applyPt .Pcl 0 [a1, a2],
        Cp := applyPt .Pcl (applyPt .Pcl 0 [a1, a2]) [b1, b2],
        WinPt := applyPt .Pcl (applyPt .Pcl 0 [a1, a2]) [b1, b2] + sv.WinBBoxMin }
    (applyPt .Pcl (applyPt .Pcl 0 [a1, a2]) [b1, b2] + d)
    [.cmd .Pcl 6, .val a1, .val a2]
    (.val e1 :: .val e2 :: []) b1 b2 hflat1 (by simp [cmdPtOps]) rfl
    (by simp)
  have hcomb : (PathNodeSetPoint
      ⟨flatSegs [⟨.Pcl, [[a1, a2], [b1, b2], [e1, e2]]⟩], w⟩
      { Cmd := .Pcl, PrevCmd := .Pcl, CmdIdx := 0,
        Idx := 0 + 1 + cmdPtOps .Pcl, PtIdx := 0 + 1,
        PCp := applyPt .Pcl 0 [a1, a2],
        Cp := applyPt .Pcl (applyPt .Pcl 0 [a1, a2]) [b1, b2],
        WinPt := applyPt .Pcl (applyPt .Pcl 0 [a1, a2]) [b1, b2] + sv.WinBBoxMin }
      (applyPt .Pcl (applyPt .Pcl 0 [a1, a2]) [b1, b2] + d)).Data =
      ([.cmd .Pcl 6, .val a1, .val a2] ++
        [.val ((applyPt .Pcl (applyPt .Pcl 0 [a1, a2]) [b1, b2] + d).x - (applyPt .Pcl 0 [a1, a2]).x),
         .val ((applyPt .Pcl (applyPt .Pcl 0 [a1, a2]) [b1, b2] + d).y - (applyPt .Pcl 0 [a1, a2]).y)]) ++ .val e1 :: .val e2 :: [] := by
    rw [hd1]
    simp [List.append_assoc]
  have hd2 := setPoint_two_rel _
    { Cmd := .Pcl, PrevCmd := .Pcl, CmdIdx := 0,
        Idx := 0 + 1 + cmdPtOps .Pcl + cmdPtOps .Pcl, PtIdx := 0 + 1 + 1,
        PCp := applyPt .Pcl (applyPt .Pcl 0 [a1, a2]) [b1, b2],
        Cp := applyPt .Pcl (applyPt .Pcl (applyPt .Pcl 0 [a1, a2]) [b1, b2]) [e1, e2],
        WinPt := applyPt .Pcl (applyPt .Pcl (applyPt .Pcl 0 [a1, a2]) [b1, b2]) [e1, e2] + sv.WinBBoxMin }
    (applyPt .Pcl (applyPt .Pcl (applyPt .Pcl 0 [a1, a2]) [b1, b2]) [e1, e2] + -d)
    ([.cmd .Pcl 6, .val a1, .val a2] ++
      [.val ((applyPt .Pcl (applyPt .Pcl 0 [a1, a2]) [b1, b2] + d).x - (applyPt .Pcl 0 [a1, a2]).x),
       .val ((applyPt .Pcl (applyPt .Pcl 0 [a1, a2]) [b1, b2] + d).y - (applyPt .Pcl 0 [a1, a2]).y)]) [] e1 e2 hcomb (by simp [cmdPtOps]) rfl (by simp)
  have hp2 : (PathNodeSetPoint (PathNodeSetPoint
      ⟨flatSegs [⟨.Pcl, [[a1, a2], [b1, b2], [e1, e2]]⟩], w⟩
      { Cmd := .Pcl, PrevCmd := .Pcl, CmdIdx := 0,
        Idx := 0 + 1 + cmdPtOps .Pcl, PtIdx := 0 + 1,
        PCp := applyPt .Pcl 0 [a1, a2],
        Cp := applyPt .Pcl (applyPt .Pcl 0 [a1, a2]) [b1, b2],
        WinPt := applyPt .Pcl (applyPt .Pcl 0 [a1, a2]) [b1, b2] + sv.WinBBoxMin }
      (applyPt .Pcl (applyPt .Pcl 0 [a1, a2]) [b1, b2] + d))
      { Cmd := .Pcl, PrevCmd := .Pcl, CmdIdx := 0,
        Idx := 0 + 1 + cmdPtOps .Pcl + cmdPtOps .Pcl, PtIdx := 0 + 1 + 1,
        PCp := applyPt .Pcl (applyPt .Pcl 0 [a1, a2]) [b1, b2],
        Cp := applyPt .Pcl (applyPt .Pcl (applyPt .Pcl 0 [a1, a2]) [b1, b2]) [e1, e2],
        WinPt := applyPt .Pcl (applyPt .Pcl (applyPt .Pcl 0 [a1, a2]) [b1, b2]) [e1, e2] + sv.WinBBoxMin }
      (applyPt .Pcl (applyPt .Pcl (applyPt .Pcl 0 [a1, a2]) [b1, b2]) [e1, e2] + -d)) =
      ⟨flatSegs [⟨.Pcl, [[a1, a2], [((applyPt .Pcl (applyPt .Pcl 0 [a1, a2]) [b1, b2] + d).x - (applyPt .Pcl 0 [a1, a2]).x), ((applyPt .Pcl (applyPt .Pcl 0 [a1, a2]) [b1, b2] + d).y - (applyPt .Pcl 0 [a1, a2]).y)],
        [((applyPt .Pcl (applyPt .Pcl (applyPt .Pcl 0 [a1, a2]) [b1, b2]) [e1, e2] + -d).x - (applyPt .Pcl (applyPt .Pcl 0 [a1, a2]) [b1, b2]).x), ((applyPt .Pcl (applyPt .Pcl (applyPt .Pcl 0 [a1, a2]) [b1, b2]) [e1, e2] + -d).y - (applyPt .Pcl (applyPt .Pcl 0 [a1, a2]) [b1, b2]).y)]]⟩], w⟩ := by
    apply Path.ext2
    · rw [hd2]
      simp [flatSegs, Seg.flat, Seg.ops, List.append_assoc]
    · rw [setPoint_winbb, setPoint_winbb]
  rw [hp2]
  have hwf2 : segsWf [⟨.Pcl, [[a1, a2], [((applyPt .Pcl (applyPt .Pcl 0 [a1, a2]) [b1, b2] + d).x - (applyPt .Pcl 0 [a1, a2]).x), ((applyPt .Pcl (applyPt .Pcl 0 [a1, a2]) [b1, b2] + d).y - (applyPt .Pcl 0 [a1, a2]).y)],
      [((applyPt .Pcl (applyPt .Pcl (applyPt .Pcl 0 [a1, a2]) [b1, b2]) [e1, e2] + -d).x - (applyPt .Pcl (applyPt .Pcl 0 [a1, a2]) [b1, b2]).x), ((applyPt .Pcl (applyPt .Pcl (applyPt .Pcl 0 [a1, a2]) [b1, b2]) [e1, e2] + -d).y - (applyPt .Pcl (applyPt .Pcl 0 [a1, a2]) [b1, b2]).y)]]⟩] = true := by
    unfold segsWf
    simp only [List.all_cons, Bool.and_eq_true]
    exact ⟨by rfl, by rfl⟩
  rw [pathNodes_flat sv w _ hwf2]
  rw [segNodes_cons_pt _ _ _ _ _ (by rfl)]
  simp only [emitPts, Seg.ops, List.flatten, List.append_nil, segNodes, initIterSt,
    List.singleton_append, List.cons_append, List.nil_append, List.map_cons, List.map_nil,
    List.cons.injEq, and_true]
  refine ⟨trivial, ?_, ?_⟩
  · simp only [applyPt, Vec2.add_def, Vec2.neg_def]
    rw [Vec2.mk.injEq]
    constructor <;> ring
  · simp only [applyPt, Vec2.add_def, Vec2.neg_def]
    rw [Vec2.mk.injEq]
    constructor <;> ring

theorem set_one {α : Type} (A B : List α) (u x : α) :
    (A ++ u :: B).set A.length x = A ++ x :: B := by
  rw [show A.length = A.length + 0 from rfl, set_append_right']
  rfl

theorem set_two {α : Type} (A B : List α) (u v x y : α) :
    ((A ++ u :: v :: B).set A.length x).set (A.length + 1) y = A ++ x :: y :: B := by
  rw [show A.length = A.length + 0 from rfl, set_append_right']
  simp only [List.set, Nat.add_zero]
  rw [set_append_right' A _ 1]
  simp only [List.set]

theorem Vec2.zero_x : (0 : Vec2).x = 0 := rfl

theorem Vec2.zero_y : (0 : Vec2).y = 0 := rfl

theorem newOps_length (cm : PathCmds) (abs : Bool) (pcp npt : Vec2)
    (hcm : cmdPtOps cm ≠ 0)
    (habs1 : abs = true → PathCmdIsRel cm = true → (cm = .PcM ∨ cm = .Pcm))
    (habs2 : PathCmdIsRel cm = false → abs = true) :
    (newOps cm abs pcp npt).length = cmdPtOps cm := by
  cases cm <;> cases abs <;> simp_all [newOps, cmdPtOps, PathCmdIsRel]

theorem applyPt_newOps (cm : PathCmds) (abs : Bool) (cp npt : Vec2) (old : List ℚ)
    (hol : old.length = cmdPtOps cm) (hcm : cmdPtOps cm ≠ 0)
    (habs0 : abs = true → PathCmdIsRel cm = true → cp = 0)
    (habs1 : abs = true → PathCmdIsRel cm = true → (cm = .PcM ∨ cm = .Pcm))
    (habs2 : PathCmdIsRel cm = false → abs = true) :
    applyPt cm cp (newOps cm abs cp npt) = setAxes cm (applyPt cm cp old) npt := by
  cases cm
  case PcM =>
    obtain ⟨u, v, rfl⟩ := List.length_eq_two.mp hol
    cases abs
    · simp [PathCmdIsRel] at habs2
    · rfl
  case Pcm =>
    obtain ⟨u, v, rfl⟩ := List.length_eq_two.mp hol
    cases abs
    · rw [show newOps .Pcm false cp npt = [npt.x - cp.x, npt.y - cp.y] from rfl]
      simp only [applyPt, setAxes]
      rw [Vec2.mk.injEq]
      constructor <;> ring
    · have hcp : cp = 0 := habs0 rfl rfl
      subst hcp
      rw [show newOps .Pcm true 0 npt = [npt.x, npt.y] from rfl]
      simp only [applyPt, setAxes, Vec2.zero_x, Vec2.zero_y]
      rw [Vec2.mk.injEq]
      constructor <;> ring
  case PcL =>
    obtain ⟨u, v, rfl⟩ := List.length_eq_two.mp hol
    cases abs
    · simp [PathCmdIsRel] at habs2
    · rfl
  case Pcl =>
    obtain ⟨u, v, rfl⟩ := List.length_eq_two.mp hol
    cases abs
    · rw [show newOps .Pcl false cp npt = [npt.x - cp.x, npt.y - cp.y] from rfl]
      simp only [applyPt, setAxes]
      rw [Vec2.mk.injEq]
      constructor <;> ring
    · rcases habs1 rfl rfl with h | h <;> cases h
  case PcH =>
    obtain ⟨u, rfl⟩ := List.length_eq_one.mp hol
    cases abs
    · simp [PathCmdIsRel] at habs2
    · rfl
  case Pch =>
    obtain ⟨u, rfl⟩ := List.length_eq_one.mp hol
    cases abs
    · rw [show newOps .Pch false cp npt = [npt.x - cp.x] from rfl]
      simp only [applyPt, setAxes]
      rw [Vec2.mk.injEq]
      constructor <;> ring
    · rcases habs1 rfl rfl with h | h <;> cases h
  case PcV =>
    obtain ⟨u, rfl⟩ := List.length_eq_one.mp hol
    cases abs
    · simp [PathCmdIsRel] at habs2
    · rfl
  case Pcv =>
    obtain ⟨u, rfl⟩ := List.length_eq_one.mp hol
    cases abs
    · rw [show newOps .Pcv false cp npt = [npt.y - cp.y] from rfl]
      simp only [applyPt, setAxes]
      rw [Vec2.mk.injEq]
      constructor <;> ring
    · rcases habs1 rfl rfl with h | h <;> cases h
  all_goals simp [cmdPtOps] at hcm

theorem setPoint_write (p : Path) (n : PathNode) (npt : Vec2) (A B : List PathData)
    (old : List ℚ) (abs : Bool)
    (hdata : p.Data = A ++ old.map .val ++ B)
    (hidx : n.Idx = A.length)
    (hol : old.length = cmdPtOps n.Cmd)
    (hcm : cmdPtOps n.Cmd ≠ 0)
    (habs : abs = true ↔ (n.Idx = 1 ∨ ¬PathCmdIsRel n.Cmd))
    (habs1 : abs = true → PathCmdIsRel n.Cmd = true → (n.Cmd = .PcM ∨ n.Cmd = .Pcm)) :
    (PathNodeSetPoint p n npt).Data = A ++ (newOps n.Cmd abs n.PCp npt).map .val ++ B := by
  obtain ⟨cm, pcm, cix, ix, pix, pcp, cp, wp⟩ := n
  simp only at hidx hol hcm habs habs1 ⊢
  unfold PathNodeSetPoint
  simp only
  cases habv : abs <;> rw [habv] at habs habs1
  · rw [if_neg (fun hp => by simpa using habs.mpr hp)]
    cases cm <;>
      first
      | (exfalso; revert habs; simp [PathCmdIsRel]; done)
      | (simp [cmdPtOps] at hcm)
      | skip
    case Pcm =>
      obtain ⟨u, v, rfl⟩ := List.length_eq_two.mp hol
      simp only []
      rw [hdata, hidx]
      rw [show (newOps .Pcm false pcp npt).map PathData.val =
        [.val (npt.x - pcp.x), .val (npt.y - pcp.y)] from rfl]
      simpa using set_two A B _ _ _ _
    case Pcl =>
      obtain ⟨u, v, rfl⟩ := List.length_eq_two.mp hol
      simp only []
      rw [hdata, hidx]
      rw [show (newOps .Pcl false pcp npt).map PathData.val =
        [.val (npt.x - pcp.x), .val (npt.y - pcp.y)] from rfl]
      simpa using set_two A B _ _ _ _
    case Pch =>
      obtain ⟨u, rfl⟩ := List.length_eq_one.mp hol
      simp only []
      rw [hdata, hidx]
      rw [show (newOps .Pch false pcp npt).map PathData.val =
        [.val (npt.x - pcp.x)] from rfl]
      simpa using set_one A B _ _
    case Pcv =>
      obtain ⟨u, rfl⟩ := List.length_eq_one.mp hol
      simp only []
      rw [hdata, hidx]
      rw [show (newOps .Pcv false pcp npt).map PathData.val =
        [.val (npt.y - pcp.y)] from rfl]
      simpa using set_one A B _ _
  · rw [if_pos (habs.mp rfl)]
    cases cm
    case PcM =>
      obtain ⟨u, v, rfl⟩ := List.length_eq_two.mp hol
      simp only []
      rw [hdata, hidx]
      rw [show (newOps .PcM true pcp npt).map PathData.val =
        [.val npt.x, .val npt.y] from rfl]
      simpa using set_two A B _ _ _ _
    case Pcm =>
      obtain ⟨u, v, rfl⟩ := List.length_eq_two.mp hol
      simp only []
      rw [hdata, hidx]
      rw [show (newOps .Pcm true pcp npt).map PathData.val =
        [.val npt.x, .val npt.y] from rfl]
      simpa using set_two A B _ _ _ _
    case PcL =>
      obtain ⟨u, v, rfl⟩ := List.length_eq_two.mp hol
      simp only []
      rw [hdata, hidx]
      rw [show (newOps .PcL true pcp npt).map PathData.val =
        [.val npt.x, .val npt.y] from rfl]
      simpa using set_two A B _ _ _ _
    case Pcl =>
      rcases habs1 rfl rfl with h | h <;> cases h
    case PcH =>
      obtain ⟨u, rfl⟩ := List.length_eq_one.mp hol
      simp only []
      rw [hdata, hidx]
      rw [show (newOps .PcH true pcp npt).map PathData.val = [.val npt.x] from rfl]
      simpa using set_one A B _ _
    case Pch =>
      rcases habs1 rfl rfl with h | h <;> cases h
    case PcV =>
      obtain ⟨u, rfl⟩ := List.length_eq_one.mp hol
      simp only []
      rw [hdata, hidx]
      rw [show (newOps .PcV true pcp npt).map PathData.val = [.val npt.y] from rfl]
      simpa using set_one A B _ _
    case Pcv =>
      rcases habs1 rfl rfl with h | h <;> cases h
    all_goals simp [cmdPtOps] at hcm

theorem emitPts_append (svoff : Vec2) (c : PathCmds) (ci : Nat) :
    ∀ (ca cb : List (List ℚ)) (ptIdx idx : Nat) (s : IterSt),
      emitPts svoff c ci ptIdx idx s (ca ++ cb) =
        ((emitPts svoff c ci ptIdx idx s ca).1 ++
          (emitPts svoff c ci (ptIdx + ca.length) (idx + ca.length * cmdPtOps c)
            (emitPts svoff c ci ptIdx idx s ca).2 cb).1,
         (emitPts svoff c ci (ptIdx + ca.length) (idx + ca.length * cmdPtOps c)
            (emitPts svoff c ci ptIdx idx s ca).2 cb).2) := by
  intro ca
  induction ca with
  | nil => intro cb ptIdx idx s; simp [emitPts]
  | cons ops ca ih =>
    intro cb ptIdx idx s
    simp only [List.cons_append, emitPts, List.length_cons, List.append_eq]
    rw [ih]
    rw [show ptIdx + 1 + ca.length = ptIdx + (ca.length + 1) from by ring,
      show idx + cmdPtOps c + ca.length * cmdPtOps c = idx + (ca.length + 1) * cmdPtOps c
        from by ring]

theorem emitPts_pcp_cp (svoff : Vec2) (c : PathCmds) (ci : Nat) :
    ∀ (pts : List (List ℚ)) (ptIdx idx : Nat) (s : IterSt), s.pcp = s.cp →
      (emitPts svoff c ci ptIdx idx s pts).2.pcp = (emitPts svoff c ci ptIdx idx s pts).2.cp := by
  intro pts
  induction pts with
  | nil => intro ptIdx idx s h; exact h
  | cons ops pts ih =>
    intro ptIdx idx s h
    simp only [emitPts]
    exact ih _ _ _ rfl

theorem emitPts_map_cmd (svoff : Vec2) (c : PathCmds) (ci : Nat) :
    ∀ (pts : List (List ℚ)) (ptIdx idx : Nat) (s : IterSt),
      (emitPts svoff c ci ptIdx idx s pts).1.map PathNode.Cmd = pts.map (fun _ => c) := by
  intro pts
  induction pts with
  | nil => intro ptIdx idx s; rfl
  | cons ops pts ih =>
    intro ptIdx idx s
    simp only [emitPts, List.map_cons]
    rw [ih]

theorem segNodes_map_cmd (svoff : Vec2) :
    ∀ (sgs : List Seg) (i : Nat) (s : IterSt),
      (segNodes svoff i s sgs).map PathNode.Cmd = segCmds sgs := by
  intro sgs
  induction sgs with
  | nil => intro i s; rfl
  | cons sg rest ih =>
    intro i s
    by_cases hz : sg.isClose = true
    · rw [segNodes, if_pos hz]
      simp only [segCmds, if_pos hz, List.nil_append]
      exact ih _ _
    · rw [segNodes_cons_pt _ _ _ _ _ (by simpa using hz)]
      simp only [List.map_append, segCmds, if_neg hz]
      rw [emitPts_map_cmd, ih]

theorem list_split_at {α : Type} (l : List α) (k : Nat) (h : k < l.length) :
    ∃ x, l = l.take k ++ x :: l.drop (k + 1) ∧ l[k]? = some x := by
  induction l generalizing k with
  | nil => simp at h
  | cons a l ih =>
    cases k with
    | zero => exact ⟨a, by simp⟩
    | succ k =>
      obtain ⟨x, hx, hget⟩ := ih k (by simpa using h)
      refine ⟨x, ?_, by simpa using hget⟩
      simp only [List.take_succ_cons, List.drop_succ_cons, List.cons_append, List.cons.injEq,
        true_and]
      exact hx

theorem map_const_len {α β : Type} (c : β) (l1 l2 : List α) (h : l1.length = l2.length) :
    l1.map (fun _ => c) = l2.map (fun _ => c) := by
  induction l1 generalizing l2 with
  | nil => cases l2 <;> simp_all
  | cons a l ih =>
    cases l2 with
    | nil => simp at h
    | cons b l2 =>
      simp only [List.map_cons, List.cons.injEq, true_and]
      exact ih l2 (by simpa using h)

theorem setPointGo (svoff npt : Vec2) :
    ∀ (sgs : List Seg) (A : List PathData) (s : IterSt) (k : Nat) (n : PathNode),
      segsWf sgs = true → segsNoClose sgs = true →
      s.pcp = s.cp →
      (A = [] → s.cp = 0 ∧ segsStartMove sgs = true) →
      (segNodes svoff A.length s sgs)[k]? = some n →
      ∃ sgs',
        segsWf sgs' = true ∧
        (∀ p : Path, p.Data = A ++ flatSegs sgs →
          (PathNodeSetPoint p n npt).Data = A ++ flatSegs sgs') ∧
        (segNodes svoff A.length s sgs').map PathNode.Cmd
          = (segNodes svoff A.length s sgs).map PathNode.Cmd ∧
        ((segNodes svoff A.length s sgs')[k]?).map PathNode.Cp
          = some (setAxes n.Cmd n.Cp npt) := by
  intro sgs
  induction sgs with
  | nil => intro A s k n _ _ _ _ hn; simp [segNodes] at hn
  | cons sg rest ih =>
    intro A s k n hwf hnc hinv hfirst hn
    obtain ⟨c, pts⟩ := sg
    have hz : (⟨c, pts⟩ : Seg).isClose = false := by
      unfold segsNoClose at hnc
      simp only [List.all_cons, Bool.and_eq_true] at hnc
      simpa using hnc.1
    have hncr : segsNoClose rest = true := by
      unfold segsNoClose at hnc
      simp only [List.all_cons, Bool.and_eq_true] at hnc
      unfold segsNoClose
      exact hnc.2
    have hwf1 : (⟨c, pts⟩ : Seg).wf = true := by
      unfold segsWf at hwf
      simp only [List.all_cons, Bool.and_eq_true] at hwf
      exact hwf.1
    have hwfr : segsWf rest = true := by
      unfold segsWf at hwf
      simp only [List.all_cons, Bool.and_eq_true] at hwf
      unfold segsWf
      exact hwf.2
    have hk0 : cmdPtOps c ≠ 0 := by
      intro h0
      unfold Seg.wf at hwf1
      rw [if_pos (by simpa using h0), Bool.and_eq_true] at hwf1
      rw [hwf1.1] at hz
      cases hz
    have hch : ∀ ops ∈ pts, ops.length = cmdPtOps c := wf_point_chunks _ hwf1 hz
    rw [segNodes_cons_pt _ _ _ _ _ hz] at hn
    by_cases hk : k < pts.length
    · -- the node lies in this segment
      obtain ⟨ca, ops, cb, rfl, hca⟩ : ∃ ca ops cb, pts = ca ++ ops :: cb ∧ ca.length = k := by
        obtain ⟨x, hx, -⟩ := list_split_at pts k hk
        exact ⟨pts.take k, x, pts.drop (k + 1), hx, by simp [Nat.le_of_lt hk]⟩
      have hops : ops.length = cmdPtOps c := hch ops (by simp)
      rw [List.getElem?_append_left (by rw [emitPts_length]; simp; omega)] at hn
      rw [emitPts_append] at hn
      simp only [] at hn
      rw [List.getElem?_append_right (by rw [emitPts_length]; omega)] at hn
      simp only [emitPts_length, hca, Nat.sub_self, emitPts, List.getElem?_cons_zero] at hn
      obtain rfl := (Option.some.inj hn).symm
      have hcha : ∀ o ∈ ca, o.length = cmdPtOps c := fun o ho => hch o (by simp [ho])
      have hchb : ∀ o ∈ cb, o.length = cmdPtOps c := fun o ho => hch o (by simp [ho])
      have hflca : ca.flatten.length = cmdPtOps c * ca.length :=
        flatten_chunks_length _ _ hcha
      have hscainv : (emitPts svoff c A.length 0 (A.length + 1) s ca).2.pcp = (emitPts svoff c A.length 0 (A.length + 1) s ca).2.cp :=
        emitPts_pcp_cp svoff c A.length ca 0 (A.length + 1) s hinv
      obtain ⟨abs, habs⟩ : ∃ b : Bool,
          b = true ↔ (A.length + 1 + k * cmdPtOps c = 1 ∨ ¬PathCmdIsRel c) := by
        by_cases h : A.length + 1 + k * cmdPtOps c = 1 ∨ ¬PathCmdIsRel c
        · exact ⟨true, by simpa using h⟩
        · exact ⟨false, by simpa using h⟩
      have hidx1 : A.length + 1 + k * cmdPtOps c = 1 → A = [] ∧ ca = [] := by
        intro h1
        have hA0 : A.length = 0 := by omega
        have hk0' : k * cmdPtOps c = 0 := by omega
        have hca0 : ca.length = 0 := by
          rcases Nat.mul_eq_zero.mp hk0' with h | h
          · omega
          · exact absurd h hk0
        exact ⟨List.length_eq_zero.mp hA0, List.length_eq_zero.mp (by omega)⟩
      have habs1 : abs = true → PathCmdIsRel c = true → (c = .PcM ∨ c = .Pcm) := by
        intro hb hr
        rcases habs.mp hb with h1 | h1
        · obtain ⟨hA0, -⟩ := hidx1 h1
          have hsm := (hfirst hA0).2
          unfold segsStartMove at hsm
          simpa using hsm
        · simp [hr] at h1
      have habs2 : PathCmdIsRel c = false → abs = true := by
        intro hr
        exact habs.mpr (Or.inr (by simp [hr]))
      have habs0 : abs = true → PathCmdIsRel c = true → (emitPts svoff c A.length 0 (A.length + 1) s ca).2.cp = 0 := by
        intro hb hr
        rcases habs.mp hb with h1 | h1
        · obtain ⟨hA0, hca0⟩ := hidx1 h1
          subst hca0
          exact (hfirst hA0).1
        · simp [hr] at h1
      have hlenops : (newOps c abs (emitPts svoff c A.length 0 (A.length + 1) s ca).2.pcp npt).length = ops.length := by
        rw [newOps_length c abs _ npt hk0 habs1 habs2, hops]
      refine ⟨⟨c, ca ++ newOps c abs (emitPts svoff c A.length 0 (A.length + 1) s ca).2.pcp npt :: cb⟩ :: rest, ?_, ?_, ?_, ?_⟩
      · unfold segsWf
        rw [List.all_cons, Bool.and_eq_true]
        refine ⟨?_, hwfr⟩
        unfold Seg.wf
        rw [if_neg (by simpa using hk0)]
        rw [Bool.and_eq_true]
        refine ⟨by simp, ?_⟩
        rw [List.all_eq_true]
        intro o ho
        simp only [List.mem_append, List.mem_cons] at ho
        rcases ho with ho | ho | ho
        · simp [hcha o ho]
        · subst ho
          simp [hlenops, hops]
        · simp [hchb o ho]
      · intro p hp
        have hdata' : p.Data =
            (A ++ .cmd c ((ca ++ ops :: cb).flatten.length) :: (ca.flatten.map PathData.val)) ++
              ops.map .val ++ (cb.flatten.map .val ++ flatSegs rest) := by
          rw [hp]
          simp [flatSegs, Seg.flat, Seg.ops, List.append_assoc]
        have hw := setPoint_write p
          { Cmd := c, PrevCmd := (emitPts svoff c A.length 0 (A.length + 1) s ca).2.lstCmd, CmdIdx := A.length,
            Idx := A.length + 1 + k * cmdPtOps c, PtIdx := 0 + k,
            PCp := (emitPts svoff c A.length 0 (A.length + 1) s ca).2.pcp, Cp := applyPt c (emitPts svoff c A.length 0 (A.length + 1) s ca).2.cp ops,
            WinPt := applyPt c (emitPts svoff c A.length 0 (A.length + 1) s ca).2.cp ops + svoff } npt
          (A ++ .cmd c ((ca ++ ops :: cb).flatten.length) :: (ca.flatten.map PathData.val))
          (cb.flatten.map .val ++ flatSegs rest) ops abs hdata'
          (by
            simp only [List.length_append, List.length_cons, List.length_map]
            rw [hflca, hca]
            ring)
          (by simpa using hops)
          (by simpa using hk0)
          (by simpa using habs)
          (by simpa using habs1)
        rw [hw]
        simp [flatSegs, Seg.flat, Seg.ops, List.append_assoc, hlenops, hops]
      · rw [segNodes_cons_pt _ _ _ _ _ (by simpa [Seg.isClose] using hz),
          segNodes_cons_pt _ _ _ _ _ hz]
        simp only [List.map_append]
        congr 1
        · rw [emitPts_map_cmd, emitPts_map_cmd]
          apply map_const_len
          simp
        · rw [segNodes_map_cmd, segNodes_map_cmd]
      · rw [segNodes_cons_pt _ _ _ _ _ (by simpa [Seg.isClose] using hz)]
        rw [List.getElem?_append_left (by rw [emitPts_length]; simp; omega)]
        rw [emitPts_append]
        simp only []
        rw [List.getElem?_append_right (by rw [emitPts_length]; omega)]
        simp only [emitPts_length, hca, Nat.sub_self, emitPts, List.getElem?_cons_zero,
          Option.map_some]
        rw [hscainv]
        exact congrArg some (applyPt_newOps c abs (emitPts svoff c A.length 0 (A.length + 1) s ca).2.cp npt ops hops hk0
          habs0 habs1 habs2)
    · -- the node lies in a later segment
      push_neg at hk
      have hlen1 : ((emitPts svoff c A.length 0 (A.length + 1) s pts).1).length = pts.length :=
        emitPts_length _ _ _ _ _ _ _
      rw [List.getElem?_append_right (le_trans (le_of_eq hlen1) hk), hlen1] at hn
      have hA' : (A ++ Seg.flat ⟨c, pts⟩).length = A.length + 1 + (Seg.ops ⟨c, pts⟩).length := by
        simp [Seg.flat]
        omega
      obtain ⟨sgs2, hwf2, hdata2, hcmd2, hget2⟩ :=
        ih (A ++ Seg.flat ⟨c, pts⟩)
          { (emitPts svoff c A.length 0 (A.length + 1) s pts).2 with
            st := if (⟨c, pts⟩ : Seg).cmd = .PcM ∨ (⟨c, pts⟩ : Seg).cmd = .Pcm
              then (emitPts svoff c A.length 0 (A.length + 1) s pts).2.cp
              else (emitPts svoff c A.length 0 (A.length + 1) s pts).2.st }
          (k - pts.length) n hwfr hncr
          (emitPts_pcp_cp svoff c A.length pts 0 (A.length + 1) s hinv)
          (by intro h; exact absurd h (by simp [Seg.flat]))
          (by rw [hA']; exact hn)
      refine ⟨⟨c, pts⟩ :: sgs2, ?_, ?_, ?_, ?_⟩
      · unfold segsWf
        rw [List.all_cons, Bool.and_eq_true]
        exact ⟨hwf1, hwf2⟩
      · intro p hp
        have hp' : p.Data = (A ++ Seg.flat ⟨c, pts⟩) ++ flatSegs rest := by
          rw [hp]
          simp [flatSegs, List.append_assoc]
        rw [hdata2 p hp']
        simp [flatSegs, List.append_assoc]
      · rw [segNodes_cons_pt _ _ _ _ _ hz, segNodes_cons_pt _ _ _ _ _ hz]
        simp only [List.map_append]
        congr 1
        rw [segNodes_map_cmd, segNodes_map_cmd]
        rw [segNodes_map_cmd, segNodes_map_cmd] at hcmd2
        exact hcmd2
      · rw [segNodes_cons_pt _ _ _ _ _ hz]
        rw [List.getElem?_append_right (le_trans (le_of_eq hlen1) hk), hlen1]
        rw [hA'] at hget2
        exact hget2

/-- C3: on a well-formed close-free path that starts with a moveto, setting
any node of the current decomposition to a new absolute point and
re-decomposing yields that point at that node (on the relevant axis for the
horizontal/vertical commands, captured by setAxes), for both relative and
absolute command kinds, and never alters any node's command kind.  (Amended
from the claim: paths with close commands break the round trip because the
close resets the iterator's current point while the node's recorded
previous point keeps the last drawn point — see the counterexample.) -/
theorem setPoint_roundtrip_general (sv : SVGViewSt) (w : Vec2) (sgs : List Seg)
    (npt : Vec2) (k : Nat) (n : PathNode)
    (hwf : segsWf sgs = true) (hnc : segsNoClose sgs = true)
    (hsm : segsStartMove sgs = true)
    (hn : (PathNodes sv ⟨flatSegs sgs, w⟩).1[k]? = some n) :
    ((PathNodes sv (PathNodeSetPoint ⟨flatSegs sgs, w⟩ n npt)).1).map PathNode.Cmd
      = (PathNodes sv ⟨flatSegs sgs, w⟩).1.map PathNode.Cmd ∧
    ((PathNodes sv (PathNodeSetPoint ⟨flatSegs sgs, w⟩ n npt)).1[k]?).map PathNode.Cp
      = some (setAxes n.Cmd n.Cp npt) := by
  rw [pathNodes_flat sv w sgs hwf] at hn
  obtain ⟨sgs2, hwf2, hdata2, hcmd2, hget2⟩ :=
    setPointGo sv.WinBBoxMin npt sgs [] initIterSt k n hwf hnc rfl
      (fun _ => ⟨rfl, hsm⟩) (by simpa using hn)
  have hpath : PathNodeSetPoint ⟨flatSegs sgs, w⟩ n npt = (⟨flatSegs sgs2, w⟩ : Path) := by
    apply Path.ext2
    · simpa using hdata2 ⟨flatSegs sgs, w⟩ (by simp)
    · exact setPoint_winbb _ _ _
  rw [hpath]
  constructor
  · rw [pathNodes_flat sv w sgs2 hwf2, pathNodes_flat sv w sgs hwf]
    simpa using hcmd2
  · rw [pathNodes_flat sv w sgs2 hwf2]
    simpa using hget2

theorem setOnePointPcL111 (sv : SVGViewSt) (w : Vec2) (c1 c2 c3 : PathCmds) (pa pb pc : List ℚ) (d : Vec2)
    (hwf : segsWf [⟨c1, [pa]⟩, ⟨c2, [pb]⟩, ⟨c3, [pc]⟩] = true)
    (hnc : segsNoClose [⟨c1, [pa]⟩, ⟨c2, [pb]⟩, ⟨c3, [pc]⟩] = true)
    (P0 P1 P2 : PathNode) (cidxs : List Nat)
    (hdec : PathNodes sv ⟨flatSegs [⟨c1, [pa]⟩, ⟨c2, [pb]⟩, ⟨c3, [pc]⟩], w⟩ =
      ([P0, P1, P2], cidxs))
    (h1 : P1.Cmd = .Pcl) (h2 : P2.Cmd = .PcL) :
    (PathNodes sv (PathNodeSetOnePoint ⟨flatSegs [⟨c1, [pa]⟩, ⟨c2, [pb]⟩, ⟨c3, [pc]⟩], w⟩
        [P0, P1, P2] 1 d sv.WinBBoxMin)).1.map PathNode.Cp =
      [P0.Cp, P1.Cp + d, P2.Cp - d] := by
  have hnodes : segNodes sv.WinBBoxMin 0 initIterSt [⟨c1, [pa]⟩, ⟨c2, [pb]⟩, ⟨c3, [pc]⟩]
      = [P0, P1, P2] := by
    have h := congrArg Prod.fst hdec
    rwa [pathNodes_flat sv w _ hwf] at h
  have hz1 : (⟨c1, [pa]⟩ : Seg).isClose = false := by
    unfold segsNoClose at hnc; simp only [List.all_cons, Bool.and_eq_true] at hnc
    simpa using hnc.1
  have hz2 : (⟨c2, [pb]⟩ : Seg).isClose = false := by
    unfold segsNoClose at hnc; simp only [List.all_cons, Bool.and_eq_true] at hnc
    simpa using hnc.2.1
  have hz3 : (⟨c3, [pc]⟩ : Seg).isClose = false := by
    unfold segsNoClose at hnc; simp only [List.all_cons, Bool.and_eq_true] at hnc
    simpa using hnc.2.2.1
  have hwf1 : (⟨c1, [pa]⟩ : Seg).wf = true := by
    unfold segsWf at hwf; simp only [List.all_cons, Bool.and_eq_true] at hwf; exact hwf.1
  rw [segNodes_cons_pt _ _ _ _ _ hz1, segNodes_cons_pt _ _ _ _ _ hz2,
    segNodes_cons_pt _ _ _ _ _ hz3] at hnodes
  simp only [emitPts, Seg.ops, List.flatten, List.append_nil, segNodes, initIterSt,
    List.singleton_append, List.cons_append, List.nil_append, List.cons.injEq,
    and_true] at hnodes
  obtain ⟨hP0, hP1, hP2⟩ := hnodes
  subst hP0
  subst hP1
  subst hP2
  simp only at h1 h2
  subst h1
  subst h2
  have hpb : pb.length = 2 := by
    have h := wf_point_chunks ⟨.Pcl, [pb]⟩ (by
      unfold segsWf at hwf; simp only [List.all_cons, Bool.and_eq_true] at hwf
      exact hwf.2.1) hz2 pb (by simp)
    simpa [cmdPtOps] using h
  have hpc : pc.length = 2 := by
    have h := wf_point_chunks ⟨.PcL, [pc]⟩ (by
      unfold segsWf at hwf; simp only [List.all_cons, Bool.and_eq_true] at hwf
      exact hwf.2.2.1) hz3 pc (by simp)
    simpa [cmdPtOps] using h
  obtain ⟨b1, b2, rfl⟩ := List.length_eq_two.mp hpb
  obtain ⟨e1, e2, rfl⟩ := List.length_eq_two.mp hpc
  unfold PathNodeSetOnePoint
  simp only [List.drop_succ_cons, List.drop_zero]
  rw [go_two]
  have hflat1 : flatSegs [⟨c1, [pa]⟩, ⟨.Pcl, [[b1, b2]]⟩, ⟨.PcL, [[e1, e2]]⟩] =
      (.cmd c1 pa.length :: (pa.map .val ++ [.cmd .Pcl 2])) ++
        .val b1 :: .val b2 :: (.cmd .PcL 2 :: .val e1 :: .val e2 :: []) := by
    simp [flatSegs, Seg.flat, Seg.ops]
  have hd1 := setPoint_two_rel
    ⟨flatSegs [⟨c1, [pa]⟩, ⟨.Pcl, [[b1, b2]]⟩, ⟨.PcL, [[e1, e2]]⟩], w⟩
    { Cmd := .Pcl, PrevCmd := c1, CmdIdx := 0 + 1 + pa.length, Idx := 0 + 1 + pa.length + 1,
      PtIdx := 0, PCp := applyPt c1 0 pa, Cp := applyPt .Pcl (applyPt c1 0 pa) [b1, b2],
      WinPt := applyPt .Pcl (applyPt c1 0 pa) [b1, b2] + sv.WinBBoxMin }
    (applyPt .Pcl (applyPt c1 0 pa) [b1, b2] + d)
    (.cmd c1 pa.length :: (pa.map .val ++ [.cmd .Pcl 2]))
    (.cmd .PcL 2 :: .val e1 :: .val e2 :: []) b1 b2 hflat1 (by simp; omega) rfl
    (by simp)
  have hcomb : (PathNodeSetPoint
      ⟨flatSegs [⟨c1, [pa]⟩, ⟨.Pcl, [[b1, b2]]⟩, ⟨.PcL, [[e1, e2]]⟩], w⟩
      { Cmd := .Pcl, PrevCmd := c1, CmdIdx := 0 + 1 + pa.length, Idx := 0 + 1 + pa.length + 1,
        PtIdx := 0, PCp := applyPt c1 0 pa, Cp := applyPt .Pcl (applyPt c1 0 pa) [b1, b2],
        WinPt := applyPt .Pcl (applyPt c1 0 pa) [b1, b2] + sv.WinBBoxMin }
      (applyPt .Pcl (applyPt c1 0 pa) [b1, b2] + d)).Data =
      ((.cmd c1 pa.length :: (pa.map .val ++ [.cmd .Pcl 2])) ++
        [.val ((applyPt .Pcl (applyPt c1 0 pa) [b1, b2] + d).x - (applyPt c1 0 pa).x),
         .val ((applyPt .Pcl (applyPt c1 0 pa) [b1, b2] + d).y - (applyPt c1 0 pa).y),
         .cmd .PcL 2]) ++ .val e1 :: .val e2 :: [] := by
    rw [hd1]
    simp [List.append_assoc]
  have hd2 := setPoint_two_abs _
    { Cmd := .PcL, PrevCmd := .Pcl, CmdIdx := 0 + 1 + pa.length + 1 + [b1, b2].length,
        Idx := 0 + 1 + pa.length + 1 + [b1, b2].length + 1, PtIdx := 0,
        PCp := applyPt .Pcl (applyPt c1 0 pa) [b1, b2],
        Cp := applyPt .PcL (applyPt .Pcl (applyPt c1 0 pa) [b1, b2]) [e1, e2],
        WinPt := applyPt .PcL (applyPt .Pcl (applyPt c1 0 pa) [b1, b2]) [e1, e2] + sv.WinBBoxMin }
    (applyPt .PcL (applyPt .Pcl (applyPt c1 0 pa) [b1, b2]) [e1, e2] + -d)
    ((.cmd c1 pa.length :: (pa.map .val ++ [.cmd .Pcl 2])) ++
      [.val ((applyPt .Pcl (applyPt c1 0 pa) [b1, b2] + d).x - (applyPt c1 0 pa).x),
       .val ((applyPt .Pcl (applyPt c1 0 pa) [b1, b2] + d).y - (applyPt c1 0 pa).y),
       .cmd .PcL 2]) [] e1 e2 hcomb (by simp; omega) rfl
  have hp2 : (PathNodeSetPoint (PathNodeSetPoint
      ⟨flatSegs [⟨c1, [pa]⟩, ⟨.Pcl, [[b1, b2]]⟩, ⟨.PcL, [[e1, e2]]⟩], w⟩
      { Cmd := .Pcl, PrevCmd := c1, CmdIdx := 0 + 1 + pa.length, Idx := 0 + 1 + pa.length + 1,
        PtIdx := 0, PCp := applyPt c1 0 pa, Cp := applyPt .Pcl (applyPt c1 0 pa) [b1, b2],
        WinPt := applyPt .Pcl (applyPt c1 0 pa) [b1, b2] + sv.WinBBoxMin }
      (applyPt .Pcl (applyPt c1 0 pa) [b1, b2] + d))
      { Cmd := .PcL, PrevCmd := .Pcl, CmdIdx := 0 + 1 + pa.length + 1 + [b1, b2].length,
        Idx := 0 + 1 + pa.length + 1 + [b1, b2].length + 1, PtIdx := 0,
        PCp := applyPt .Pcl (applyPt c1 0 pa) [b1, b2],
        Cp := applyPt .PcL (applyPt .Pcl (applyPt c1 0 pa) [b1, b2]) [e1, e2],
        WinPt := applyPt .PcL (applyPt .Pcl (applyPt c1 0 pa) [b1, b2]) [e1, e2] + sv.WinBBoxMin }
      (applyPt .PcL (applyPt .Pcl (applyPt c1 0 pa) [b1, b2]) [e1, e2] + -d)) =
      ⟨flatSegs [⟨c1, [pa]⟩,
        ⟨.Pcl, [[((applyPt .Pcl (applyPt c1 0 pa) [b1, b2] + d).x - (applyPt c1 0 pa).x), ((applyPt .Pcl (applyPt c1 0 pa) [b1, b2] + d).y - (applyPt c1 0 pa).y)]]⟩,
        ⟨.PcL, [[((applyPt .PcL (applyPt .Pcl (applyPt c1 0 pa) [b1, b2]) [e1, e2] + -d).x), ((applyPt .PcL (applyPt .Pcl (applyPt c1 0 pa) [b1, b2]) [e1, e2] + -d).y)]]⟩], w⟩ := by
    apply Path.ext2
    · rw [hd2]
      simp [flatSegs, Seg.flat, Seg.ops, List.append_assoc]
    · rw [setPoint_winbb, setPoint_winbb]
  rw [hp2]
  have hwf2 : segsWf [⟨c1, [pa]⟩,
      ⟨.Pcl, [[((applyPt .Pcl (applyPt c1 0 pa) [b1, b2] + d).x - (applyPt c1 0 pa).x), ((applyPt .Pcl (applyPt c1 0 pa) [b1, b2] + d).y - (applyPt c1 0 pa).y)]]⟩,
      ⟨.PcL, [[((applyPt .PcL (applyPt .Pcl (applyPt c1 0 pa) [b1, b2]) [e1, e2] + -d).x), ((applyPt .PcL (applyPt .Pcl (applyPt c1 0 pa) [b1, b2]) [e1, e2] + -d).y)]]⟩] = true := by
    unfold segsWf
    simp only [List.all_cons, Bool.and_eq_true]
    exact ⟨hwf1, by rfl, by rfl, by rfl⟩
  rw [pathNodes_flat sv w _ hwf2]
  rw [segNodes_cons_pt _ _ _ _ _ hz1, segNodes_cons_pt _ _ _ _ _ (by rfl),
    segNodes_cons_pt _ _ _ _ _ (by rfl)]
  simp only [emitPts, Seg.ops, List.flatten, List.append_nil, segNodes, initIterSt,
    List.singleton_append, List.cons_append, List.nil_append, List.map_cons, List.map_nil,
    List.cons.injEq, and_true]
  refine ⟨trivial, ?_, ?_⟩
  · simp only [applyPt, Vec2.add_def, Vec2.neg_def, Vec2.sub_def]
    rw [Vec2.mk.injEq]
    constructor <;> ring
  · simp only [applyPt, Vec2.add_def, Vec2.neg_def, Vec2.sub_def]
    rw [Vec2.mk.injEq]
    constructor <;> ring

theorem setOnePointPcL21 (sv : SVGViewSt) (w : Vec2) (c1 c2 : PathCmds) (pa pb pc : List ℚ) (d : Vec2)
    (hwf : segsWf [⟨c1, [pa, pb]⟩, ⟨c2, [pc]⟩] = true)
    (hnc : segsNoClose [⟨c1, [pa, pb]⟩, ⟨c2, [pc]⟩] = true)
    (P0 P1 P2 : PathNode) (cidxs : List Nat)
    (hdec : PathNodes sv ⟨flatSegs [⟨c1, [pa, pb]⟩, ⟨c2, [pc]⟩], w⟩ = ([P0, P1, P2], cidxs))
    (h1 : P1.Cmd = .Pcl) (h2 : P2.Cmd = .PcL) :
    (PathNodes sv (PathNodeSetOnePoint ⟨flatSegs [⟨c1, [pa, pb]⟩, ⟨c2, [pc]⟩], w⟩
        [P0, P1, P2] 1 d sv.WinBBoxMin)).1.map PathNode.Cp =
      [P0.Cp, P1.Cp + d, P2.Cp - d] := by
  have hnodes : segNodes sv.WinBBoxMin 0 initIterSt [⟨c1, [pa, pb]⟩, ⟨c2, [pc]⟩]
      = [P0, P1, P2] := by
    have h := congrArg Prod.fst hdec
    rwa [pathNodes_flat sv w _ hwf] at h
  have hz1 : (⟨c1, [pa, pb]⟩ : Seg).isClose = false := by
    unfold segsNoClose at hnc; simp only [List.all_cons, Bool.and_eq_true] at hnc
    simpa using hnc.1
  have hz2 : (⟨c2, [pc]⟩ : Seg).isClose = false := by
    unfold segsNoClose at hnc; simp only [List.all_cons, Bool.and_eq_true] at hnc
    simpa using hnc.2.1
  rw [segNodes_cons_pt _ _ _ _ _ hz1, segNodes_cons_pt _ _ _ _ _ hz2] at hnodes
  simp only [emitPts, Seg.ops, List.flatten, List.append_nil, segNodes, initIterSt,
    List.singleton_append, List.cons_append, List.nil_append, List.cons.injEq,
    and_true] at hnodes
  obtain ⟨hP0, hP1, hP2⟩ := hnodes
  subst hP0
  subst hP1
  subst hP2
  simp only at h1 h2
  subst h1
  subst h2
  have hpa : pa.length = 2 := by
    have h := wf_point_chunks ⟨.Pcl, [pa, pb]⟩ (by
      unfold segsWf at hwf; simp only [List.all_cons, Bool.and_eq_true] at hwf
      exact hwf.1) hz1 pa (by simp)
    simpa [cmdPtOps] using h
  have hpb : pb.length = 2 := by
    have h := wf_point_chunks ⟨.Pcl, [pa, pb]⟩ (by
      unfold segsWf at hwf; simp only [List.all_cons, Bool.and_eq_true] at hwf
      exact hwf.1) hz1 pb (by simp)
    simpa [cmdPtOps] using h
  have hpc : pc.length = 2 := by
    have h := wf_point_chunks ⟨.PcL, [pc]⟩ (by
      unfold segsWf at hwf; simp only [List.all_cons, Bool.and_eq_true] at hwf
      exact hwf.2.1) hz2 pc (by simp)
    simpa [cmdPtOps] using h
  obtain ⟨a1, a2, rfl⟩ := List.length_eq_two.mp hpa
  obtain ⟨b1, b2, rfl⟩ := List.length_eq_two.mp hpb
  obtain ⟨e1, e2, rfl⟩ := List.length_eq_two.mp hpc
  unfold PathNodeSetOnePoint
  simp only [List.drop_succ_cons, List.drop_zero]
  rw [go_two]
  have hflat1 : flatSegs [⟨.Pcl, [[a1, a2], [b1, b2]]⟩, ⟨.PcL, [[e1, e2]]⟩] =
      [.cmd .Pcl 4, .val a1, .val a2] ++
        .val b1 :: .val b2 :: (.cmd .PcL 2 :: .val e1 :: .val e2 :: []) := by
    simp [flatSegs, Seg.flat, Seg.ops]
  have hd1 := setPoint_two_rel
    ⟨flatSegs [⟨.Pcl, [[a1, a2], [b1, b2]]⟩, ⟨.PcL, [[e1, e2]]⟩], w⟩
    { Cmd := .Pcl, PrevCmd := .Pcl, CmdIdx := 0,
        Idx := 0 + 1 + cmdPtOps .Pcl, PtIdx := 0 + 1,
        PCp := applyPt .Pcl 0 [a1, a2],
        Cp := applyPt .Pcl (applyPt .Pcl 0 [a1, a2]) [b1, b2],
        WinPt := applyPt .Pcl (applyPt .Pcl 0 [a1, a2]) [b1, b2] + sv.WinBBoxMin }
    (applyPt .Pcl (applyPt .Pcl 0 [a1, a2]) [b1, b2] + d)
    [.cmd .Pcl 4, .val a1, .val a2]
    (.cmd .PcL 2 :: .val e1 :: .val e2 :: []) b1 b2 hflat1 (by simp [cmdPtOps]) rfl
    (by simp)
  have hcomb : (PathNodeSetPoint
      ⟨flatSegs [⟨.Pcl, [[a1, a2], [b1, b2]]⟩, ⟨.PcL, [[e1, e2]]⟩], w⟩
      { Cmd := .Pcl, PrevCmd := .Pcl, CmdIdx := 0,
        Idx := 0 + 1 + cmdPtOps .Pcl, PtIdx := 0 + 1,
        PCp := applyPt .Pcl 0 [a1, a2],
        Cp := applyPt .Pcl (applyPt .Pcl 0 [a1, a2]) [b1, b2],
        WinPt := applyPt .Pcl (applyPt .Pcl 0 [a1, a2]) [b1, b2] + sv.WinBBoxMin }
      (applyPt .Pcl (applyPt .Pcl 0 [a1, a2]) [b1, b2] + d)).Data =
      ([.cmd .Pcl 4, .val a1, .val a2] ++
        [.val ((applyPt .Pcl (applyPt .Pcl 0 [a1, a2]) [b1, b2] + d).x - (applyPt .Pcl 0 [a1, a2]).x),
         .val ((applyPt .Pcl (applyPt .Pcl 0 [a1, a2]) [b1, b2] + d).y - (applyPt .Pcl 0 [a1, a2]).y),
         .cmd .PcL 2]) ++ .val e1 :: .val e2 :: [] := by
    rw [hd1]
    simp [List.append_assoc]
  have hd2 := setPoint_two_abs _
    { Cmd := .PcL, PrevCmd := .Pcl, CmdIdx := 0 + 1 + ([a1, a2] ++ [b1, b2]).length,
        Idx := 0 + 1 + ([a1, a2] ++ [b1, b2]).length + 1, PtIdx := 0,
        PCp := applyPt .Pcl (applyPt .Pcl 0 [a1, a2]) [b1, b2],
        Cp := applyPt .PcL (applyPt .Pcl (applyPt .Pcl 0 [a1, a2]) [b1, b2]) [e1, e2],
        WinPt := applyPt .PcL (applyPt .Pcl (applyPt .Pcl 0 [a1, a2]) [b1, b2]) [e1, e2] + sv.WinBBoxMin }
    (applyPt .PcL (applyPt .Pcl (applyPt .Pcl 0 [a1, a2]) [b1, b2]) [e1, e2] + -d)
    ([.cmd .Pcl 4, .val a1, .val a2] ++
      [.val ((applyPt .Pcl (applyPt .Pcl 0 [a1, a2]) [b1, b2] + d).x - (applyPt .Pcl 0 [a1, a2]).x),
       .val ((applyPt .Pcl (applyPt .Pcl 0 [a1, a2]) [b1, b2] + d).y - (applyPt .Pcl 0 [a1, a2]).y),
       .cmd .PcL 2]) [] e1 e2 hcomb (by simp) rfl
  have hp2 : (PathNodeSetPoint (PathNodeSetPoint
      ⟨flatSegs [⟨.Pcl, [[a1, a2], [b1, b2]]⟩, ⟨.PcL, [[e1, e2]]⟩], w⟩
      { Cmd := .Pcl, PrevCmd := .Pcl, CmdIdx := 0,
        Idx := 0 + 1 + cmdPtOps .Pcl, PtIdx := 0 + 1,
        PCp := applyPt .Pcl 0 [a1, a2],
        Cp := applyPt .Pcl (applyPt .Pcl 0 [a1, a2]) [b1, b2],
        WinPt := applyPt .Pcl (applyPt .Pcl 0 [a1, a2]) [b1, b2] + sv.WinBBoxMin }
      (applyPt .Pcl (applyPt .Pcl 0 [a1, a2]) [b1, b2] + d))
      { Cmd := .PcL, PrevCmd := .Pcl, CmdIdx := 0 + 1 + ([a1, a2] ++ [b1, b2]).length,
        Idx := 0 + 1 + ([a1, a2] ++ [b1, b2]).length + 1, PtIdx := 0,
        PCp := applyPt .Pcl (applyPt .Pcl 0 [a1, a2]) [b1, b2],
        Cp := applyPt .PcL (applyPt .Pcl (applyPt .Pcl 0 [a1, a2]) [b1, b2]) [e1, e2],
        WinPt := applyPt .PcL (applyPt .Pcl (applyPt .Pcl 0 [a1, a2]) [b1, b2]) [e1, e2] + sv.WinBBoxMin }
      (applyPt .PcL (applyPt .Pcl (applyPt .Pcl 0 [a1, a2]) [b1, b2]) [e1, e2] + -d)) =
      ⟨flatSegs [⟨.Pcl, [[a1, a2], [((applyPt .Pcl (applyPt .Pcl 0 [a1, a2]) [b1, b2] + d).x - (applyPt .Pcl 0 [a1, a2]).x), ((applyPt .Pcl (applyPt .Pcl 0 [a1, a2]) [b1, b2] + d).y - (applyPt .Pcl 0 [a1, a2]).y)]]⟩,
        ⟨.PcL, [[((applyPt .PcL (applyPt .Pcl (applyPt .Pcl 0 [a1, a2]) [b1, b2]) [e1, e2] + -d).x), ((applyPt .PcL (applyPt .Pcl (applyPt .Pcl 0 [a1, a2]) [b1, b2]) [e1, e2] + -d).y)]]⟩], w⟩ := by
    apply Path.ext2
    · rw [hd2]
      simp [flatSegs, Seg.flat, Seg.ops, List.append_assoc]
    · rw [setPoint_winbb, setPoint_winbb]
  rw [hp2]
  have hwf2 : segsWf [⟨.Pcl, [[a1, a2], [((applyPt .Pcl (applyPt .Pcl 0 [a1, a2]) [b1, b2] + d).x - (applyPt .Pcl 0 [a1, a2]).x), ((applyPt .Pcl (applyPt .Pcl 0 [a1, a2]) [b1, b2] + d).y - (applyPt .Pcl 0 [a1, a2]).y)]]⟩,
      ⟨.PcL, [[((applyPt .PcL (applyPt .Pcl (applyPt .Pcl 0 [a1, a2]) [b1, b2]) [e1, e2] + -d).x), ((applyPt .PcL (applyPt .Pcl (applyPt .Pcl 0 [a1, a2]) [b1, b2]) [e1, e2] + -d).y)]]⟩] = true := by
    unfold segsWf
    simp only [List.all_cons, Bool.and_eq_true]
    exact ⟨by rfl, by rfl, by rfl⟩
  rw [pathNodes_flat sv w _ hwf2]
  rw [segNodes_cons_pt _ _ _ _ _ (by rfl), segNodes_cons_pt _ _ _ _ _ (by rfl)]
  simp only [emitPts, Seg.ops, List.flatten, List.append_nil, segNodes, initIterSt,
    List.singleton_append, List.cons_append, List.nil_append, List.map_cons, List.map_nil,
    List.cons.injEq, and_true]
  refine ⟨trivial, ?_, ?_⟩
  · simp only [applyPt, Vec2.add_def, Vec2.neg_def, Vec2.sub_def]
    rw [Vec2.mk.injEq]
    constructor <;> ring
  · simp only [applyPt, Vec2.add_def, Vec2.neg_def, Vec2.sub_def]
    rw [Vec2.mk.injEq]
    constructor <;> ring

theorem nodeCmds_three (sv : SVGViewSt) (w : Vec2) (sgs : List Seg)
    (P0 P1 P2 : PathNode) (cidxs : List Nat)
    (hwf : segsWf sgs = true)
    (hdec : PathNodes sv ⟨flatSegs sgs, w⟩ = ([P0, P1, P2], cidxs)) :
    segCmds sgs = [P0.Cmd, P1.Cmd, P2.Cmd] := by
  have hcm := congrArg (fun x => x.1.map PathNode.Cmd) hdec
  simp only [] at hcm
  rw [pathNodes_flat sv w _ hwf, segNodes_map_cmd] at hcm
  simpa using hcm

theorem segs_sum_three (sv : SVGViewSt) (w : Vec2) (sgs : List Seg)
    (P0 P1 P2 : PathNode) (cidxs : List Nat)
    (hwf : segsWf sgs = true) (hnc : segsNoClose sgs = true)
    (hdec : PathNodes sv ⟨flatSegs sgs, w⟩ = ([P0, P1, P2], cidxs)) :
    (sgs.map (fun sg => sg.pts.length)).sum = 3 := by
  have hlen := congrArg (fun x => x.1.length) hdec
  simp only [] at hlen
  rw [pathNodes_flat sv w _ hwf, segNodes_length sv.WinBBoxMin sgs 0 initIterSt hwf hnc]
    at hlen
  simpa using hlen

/-- C1: with the moved node and its successor both encoded by relative
lineto commands in a well-formed close-free path, the one-point move shifts
the moved node's resolved point by the delta and leaves its neighbours'
resolved points unchanged.  (Amended from the claim: this compensation
fails for the other relative non-close non-move commands h and v, whose
single operand cannot absorb a two-axis delta — see the counterexample.) -/
theorem pathNodeSetOnePoint_comp_rel (sv : SVGViewSt) (w : Vec2) (sgs : List Seg)
    (d : Vec2) (P0 P1 P2 : PathNode) (cidxs : List Nat)
    (hwf : segsWf sgs = true) (hnc : segsNoClose sgs = true)
    (hdec : PathNodes sv ⟨flatSegs sgs, w⟩ = ([P0, P1, P2], cidxs))
    (h1 : P1.Cmd = .Pcl) (h2 : P2.Cmd = .Pcl) :
    (PathNodes sv (PathNodeSetOnePoint ⟨flatSegs sgs, w⟩
        [P0, P1, P2] 1 d sv.WinBBoxMin)).1.map PathNode.Cp =
      [P0.Cp, P1.Cp + d, P2.Cp] := by
  rcases segs_of_three sgs hwf hnc (segs_sum_three sv w sgs P0 P1 P2 cidxs hwf hnc hdec)
    with ⟨c, pa, pb, pc, rfl⟩ | ⟨c, c2, pa, pb, pc, rfl⟩ | ⟨c, c2, pa, pb, pc, rfl⟩ |
      ⟨c1, c2, c3, pa, pb, pc, rfl⟩
  · exact setOnePointPcl3 sv w c pa pb pc d hwf hnc P0 P1 P2 cidxs hdec h1 h2
  · exact setOnePointPcl21 sv w c c2 pa pb pc d hwf hnc P0 P1 P2 cidxs hdec h1 h2
  · exact setOnePointPcl12 sv w c c2 pa pb pc d hwf hnc P0 P1 P2 cidxs hdec h1 h2
  · exact setOnePointPcl111 sv w c1 c2 c3 pa pb pc d hwf hnc P0 P1 P2 cidxs hdec h1 h2

/-- C2: when the node after the moved one is encoded by an absolute lineto,
the compensation walk stops at it — but only after rewriting its operands
through the negated delta, so re-decomposing shows that node's resolved
point moved by MINUS the delta.  (Amended from the claim: the loop writes
the stop node before breaking, so its stored operands ARE rewritten and its
position changes by -d, not d — see the counterexample.) -/
theorem pathNodeSetOnePoint_comp_abs (sv : SVGViewSt) (w : Vec2) (sgs : List Seg)
    (d : Vec2) (P0 P1 P2 : PathNode) (cidxs : List Nat)
    (hwf : segsWf sgs = true) (hnc : segsNoClose sgs = true)
    (hdec : PathNodes sv ⟨flatSegs sgs, w⟩ = ([P0, P1, P2], cidxs))
    (h1 : P1.Cmd = .Pcl) (h2 : P2.Cmd = .PcL) :
    (PathNodes sv (PathNodeSetOnePoint ⟨flatSegs sgs, w⟩
        [P0, P1, P2] 1 d sv.WinBBoxMin)).1.map PathNode.Cp =
      [P0.Cp, P1.Cp + d, P2.Cp - d] := by
  have hcds := nodeCmds_three sv w sgs P0 P1 P2 cidxs hwf hdec
  rcases segs_of_three sgs hwf hnc (segs_sum_three sv w sgs P0 P1 P2 cidxs hwf hnc hdec)
    with ⟨c, pa, pb, pc, rfl⟩ | ⟨c, c2, pa, pb, pc, rfl⟩ | ⟨c, c2, pa, pb, pc, rfl⟩ |
      ⟨c1, c2, c3, pa, pb, pc, rfl⟩
  · exfalso
    have hz : (⟨c, [pa, pb, pc]⟩ : Seg).isClose = false := by
      unfold segsNoClose at hnc; simp only [List.all_cons, Bool.and_eq_true] at hnc
      simpa using hnc.1
    have hsc : segCmds [⟨c, [pa, pb, pc]⟩] = [c, c, c] := by simp [segCmds, hz]
    rw [hsc] at hcds
    simp only [List.cons.injEq, and_true] at hcds
    obtain ⟨-, hc1, hc2⟩ := hcds
    exact absurd ((hc1.trans h1).symm.trans (hc2.trans h2)) (by decide)
  · exact setOnePointPcL21 sv w c c2 pa pb pc d hwf hnc P0 P1 P2 cidxs hdec h1 h2
  · exfalso
    have hz2 : (⟨c2, [pb, pc]⟩ : Seg).isClose = false := by
      unfold segsNoClose at hnc; simp only [List.all_cons, Bool.and_eq_true] at hnc
      simpa using hnc.2.1
    have hz1 : (⟨c, [pa]⟩ : Seg).isClose = false := by
      unfold segsNoClose at hnc; simp only [List.all_cons, Bool.and_eq_true] at hnc
      simpa using hnc.1
    have hsc : segCmds [⟨c, [pa]⟩, ⟨c2, [pb, pc]⟩] = [c, c2, c2] := by
      simp [segCmds, hz1, hz2]
    rw [hsc] at hcds
    simp only [List.cons.injEq, and_true] at hcds
    obtain ⟨-, hc1, hc2⟩ := hcds
    exact absurd ((hc1.trans h1).symm.trans (hc2.trans h2)) (by decide)
  · exact setOnePointPcL111 sv w c1 c2 c3 pa pb pc d hwf hnc P0 P1 P2 cidxs hdec h1 h2

/-- C1 counterexample to the original claim: in the path m0,0 l1,0 h2 both
P1 and P2 are relative and neither is a close or move command, yet moving
P1 by (0,5) and re-decomposing moves P2's resolved point from (3,0) to
(3,5): the h node's single operand cannot absorb the negated y delta. -/
theorem pathNodeSetOnePoint_comp_rel_cex :
    (PathNodes cexSV cexPath1).1.map (fun n => (n.Cmd, n.Cp)) =
      [(.Pcm, (⟨0, 0⟩ : Vec2)), (.Pcl, ⟨1, 0⟩), (.Pch, ⟨3, 0⟩)] ∧
    PathCmdIsRel .Pcl = true ∧ PathCmdIsRel .Pch = true ∧
    (PathNodes cexSV (PathNodeSetOnePoint cexPath1 (PathNodes cexSV cexPath1).1 1 ⟨0, 5⟩
        cexSV.WinBBoxMin)).1.map PathNode.Cp = [⟨0, 0⟩, ⟨1, 5⟩, ⟨3, 5⟩] ∧
    ¬((PathNodes cexSV (PathNodeSetOnePoint cexPath1 (PathNodes cexSV cexPath1).1 1 ⟨0, 5⟩
        cexSV.WinBBoxMin)).1.map PathNode.Cp = [⟨0, 0⟩, ⟨1, 5⟩, ⟨3, 0⟩]) := by
  decide

/-- Witness: the C1 theorem applied to the concrete path m0,0 l1,0 l2,3
with delta (1,1). -/
theorem pathNodeSetOnePoint_comp_rel_witness :
    (PathNodes cexSV (PathNodeSetOnePoint ⟨flatSegs witSegs1, 0⟩ [witN0, witN1, witN2] 1
        ⟨1, 1⟩ cexSV.WinBBoxMin)).1.map PathNode.Cp =
      [witN0.Cp, witN1.Cp + ⟨1, 1⟩, witN2.Cp] :=
  pathNodeSetOnePoint_comp_rel cexSV 0 witSegs1 ⟨1, 1⟩ witN0 witN1 witN2 [0, 3, 6]
    (by decide) (by decide) (by decide) (by decide) (by decide)

/-- C2 counterexample to the original claim: in the path m0,0 l1,0 L5,5,
moving P1 by (2,3) rewrites the absolute node's stored operands from (5,5)
to (3,2) = P2 - d (data slots 7-8), and re-decomposing yields P2' = (3,2),
not the claimed P2 + d = (7,8). -/
theorem pathNodeSetOnePoint_comp_abs_cex :
    (PathNodes cexSV cexPath2).1.map (fun n => (n.Cmd, n.Cp)) =
      [(.Pcm, (⟨0, 0⟩ : Vec2)), (.Pcl, ⟨1, 0⟩), (.PcL, ⟨5, 5⟩)] ∧
    (PathNodeSetOnePoint cexPath2 (PathNodes cexSV cexPath2).1 1 ⟨2, 3⟩
        cexSV.WinBBoxMin).Data.drop 7 = [.val 3, .val 2] ∧
    cexPath2.Data.drop 7 = [.val 5, .val 5] ∧
    (PathNodes cexSV (PathNodeSetOnePoint cexPath2 (PathNodes cexSV cexPath2).1 1 ⟨2, 3⟩
        cexSV.WinBBoxMin)).1.map PathNode.Cp = [⟨0, 0⟩, ⟨3, 3⟩, ⟨3, 2⟩] ∧
    ¬((PathNodes cexSV (PathNodeSetOnePoint cexPath2 (PathNodes cexSV cexPath2).1 1 ⟨2, 3⟩
        cexSV.WinBBoxMin)).1.map PathNode.Cp = [⟨0, 0⟩, ⟨3, 3⟩, ⟨7, 8⟩]) := by
  decide

/-- Witness: the C2 theorem applied to the concrete path m0,0 l1,0 L5,5
with delta (2,3). -/
theorem pathNodeSetOnePoint_comp_abs_witness :
    (PathNodes cexSV (PathNodeSetOnePoint ⟨flatSegs witSegs2, 0⟩ [witN0, witN1, witN2L] 1
        ⟨2, 3⟩ cexSV.WinBBoxMin)).1.map PathNode.Cp =
      [witN0.Cp, witN1.Cp + ⟨2, 3⟩, witN2L.Cp - ⟨2, 3⟩] :=
  pathNodeSetOnePoint_comp_abs cexSV 0 witSegs2 ⟨2, 3⟩ witN0 witN1 witN2L [0, 3, 6]
    (by decide) (by decide) (by decide) (by decide) (by decide)

/-- C3 counterexample to the original claim: in the path m1,2 l4,6 z l2,3
the node after the close resolves to (3,5); setting it to its own position
(3,5) and re-decomposing yields (-1,-1), far outside any 1e-4 tolerance,
because the stored delta is computed against the pre-close point (5,8)
while re-decoding starts from the subpath start (1,2). -/
theorem setPoint_roundtrip_general_cex :
    (PathNodes cexSV cexPath3).1[2]? = some cexNode3 ∧
    ((PathNodes cexSV (PathNodeSetPoint cexPath3 cexNode3 ⟨3, 5⟩)).1[2]?).map PathNode.Cp
      = some ⟨-1, -1⟩ ∧
    ¬(((PathNodes cexSV (PathNodeSetPoint cexPath3 cexNode3 ⟨3, 5⟩)).1[2]?).map PathNode.Cp
      = some ⟨3, 5⟩) := by
  decide

/-- Witness: the C3 theorem applied to the h node of the concrete path
m0,0 h2 with new point (7,9); the x axis takes 7 and y stays 0. -/
theorem setPoint_roundtrip_general_witness :
    ((PathNodes cexSV (PathNodeSetPoint ⟨flatSegs witSegs3, 0⟩ witNh ⟨7, 9⟩)).1).map
        PathNode.Cmd = (PathNodes cexSV ⟨flatSegs witSegs3, 0⟩).1.map PathNode.Cmd ∧
    ((PathNodes cexSV (PathNodeSetPoint ⟨flatSegs witSegs3, 0⟩ witNh ⟨7, 9⟩)).1[1]?).map
        PathNode.Cp = some (setAxes witNh.Cmd witNh.Cp ⟨7, 9⟩) :=
  setPoint_roundtrip_general cexSV 0 witSegs3 ⟨7, 9⟩ 1 witNh
    (by decide) (by decide) (by decide) (by decide)

end Theorems

end Grid
